import Mathlib

/-!
# Taiga: browser title resolution and stream-provider parsers

A shallow embedding of

* `src/track/media_stream.cpp` (`FindAccessibleChild`, `AllowChildTraverse`,
  `GetTitleFromBrowser`, `GetTitleFromStreamingMediaProvider`),
* `src/track/stream_provider_parser.{h,cpp}` (the provider prototype, its
  parsing elements, the factory, the string mappings of `ParseSourceType` and
  `loadPrototypes`),
* `src/base/html_fetch.cpp` (`taigaFetchHtmlPageSource`),

followed by theorems about these definitions.

Conventions.

* `std::wstring` is `String`, `DWORD` roles are `Nat` (only compared, never
  computed with), `BOOL`/`int` values are `Int`.
* Functions of `base/string.h` and of libcurl are not part of the sources at
  hand; they are the fields of `Externals` and every theorem holds for all of
  them.
* Objects of class `StreamProviderParserPrototype` live in a `Heap`; a pointer
  to such an object is its index.  A C++ reference `ParsingSource&` is the
  index of the object whose `m_parsingSource` member it is bound to.  Reading
  through an index that is not allocated is undefined behaviour in C++ and
  `none` here.
* `delete` is not modelled: an object stays in the heap after the handle that
  owned it is gone, and no pointer to it remains.
* A member that no constructor has initialized has no value (`none`); reading
  it is undefined behaviour in C++ and `none` here.
* A thrown `std::wstring` is `Except.error`; the state reached when the
  exception leaves the function is kept next to it.
-/

namespace Taiga

/-! ## External primitives -/

/-- The helpers of `base/string.h` and the libcurl calls used by the sources.
`curl_easy_perform url` gives the `CURLcode` and the text that the write
callback accumulated in `outputString`. -/
structure Externals where
  SearchRegex : String → String → Bool
  FirstMatchRegex : String → String → String
  IsEqual : String → String → Bool
  InStr : String → String → Int
  curl_easy_perform : String → Nat × String
  curl_easy_strerror : Nat → String

/-! ## Accessibility tree (`base::AccessibleChild`) -/

/-- A node of the accessibility tree: `name`, `role`, `value`, `children`. -/
inductive AccessibleChild where
  | mk (name : String) (role : Nat) (value : String) (children : List AccessibleChild)

namespace AccessibleChild

def name : AccessibleChild → String
  | mk n _ _ _ => n

def role : AccessibleChild → Nat
  | mk _ r _ _ => r

def value : AccessibleChild → String
  | mk _ _ v _ => v

def children : AccessibleChild → List AccessibleChild
  | mk _ _ _ cs => cs

end AccessibleChild

/-! Role constants of the Windows SDK header `oleacc.h`. -/

def ROLE_SYSTEM_SCROLLBAR : Nat := 0x03
def ROLE_SYSTEM_WINDOW : Nat := 0x09
def ROLE_SYSTEM_CLIENT : Nat := 0x0A
def ROLE_SYSTEM_APPLICATION : Nat := 0x0E
def ROLE_SYSTEM_DOCUMENT : Nat := 0x0F
def ROLE_SYSTEM_PANE : Nat := 0x10
def ROLE_SYSTEM_GROUPING : Nat := 0x14
def ROLE_SYSTEM_TOOLBAR : Nat := 0x16
def ROLE_SYSTEM_TEXT : Nat := 0x2A
def ROLE_SYSTEM_COMBOBOX : Nat := 0x2E
def ROLE_SYSTEM_PAGETABLIST : Nat := 0x3C

/-- The enumeration `WebBrowserEngine` of `media_stream.cpp`. -/
inductive WebBrowserEngine where
  | kWebEngineUnknown
  | kWebEngineWebkit
  | kWebEngineGecko
  | kWebEngineTrident
  | kWebEnginePresto
  deriving DecidableEq, Repr

/-- The integer value of an enumerator (`kWebEngineUnknown = -1`, then 0, 1, 2, 3);
this is what is passed as the `LPARAM` of `AllowChildTraverse`. -/
def WebBrowserEngine.toInt : WebBrowserEngine → Int
  | .kWebEngineUnknown => -1
  | .kWebEngineWebkit => 0
  | .kWebEngineGecko => 1
  | .kWebEngineTrident => 2
  | .kWebEnginePresto => 3

/-! ### `FindAccessibleChild` (media_stream.cpp, lines 89-106) -/

/-- The test of lines 96-97: `name.empty() || IsEqual(name, it->name)` and then
`!role || role == it->role`. -/
def nodeMatches (ext : Externals) (name : String) (role : Nat) (it : AccessibleChild) : Bool :=
  (name.isEmpty || ext.IsEqual name it.name) && (role == 0 || role == it.role)

mutual
/-- One iteration of the `foreach_` loop of `FindAccessibleChild` for the element
`it`, entered with `child == nullptr`: the value of `child` when the iteration
reaches `if (child) break;`. -/
def FindAccessibleChild_iteration (ext : Externals) (name : String) (role : Nat) :
    AccessibleChild → Option AccessibleChild
  | .mk n r v cs =>
    let child : Option AccessibleChild :=
      if name.isEmpty || ext.IsEqual name n then
        if role == 0 || role == r then some (.mk n r v cs) else none
      else none
    if child.isNone && !cs.isEmpty then FindAccessibleChild ext name role cs else child
termination_by structural x => x
/-- `FindAccessibleChild(children, name, role)`; `none` is `nullptr`. -/
def FindAccessibleChild (ext : Externals) (name : String) (role : Nat) :
    List AccessibleChild → Option AccessibleChild
  | [] => none
  | it :: rest =>
    let child := FindAccessibleChild_iteration ext name role it
    if child.isSome then child else FindAccessibleChild ext name role rest
termination_by structural x => x
end

mutual
/-- A node followed by its descendants, in pre-order. -/
def preorderNode : AccessibleChild → List AccessibleChild
  | .mk n r v cs => .mk n r v cs :: preorder cs
termination_by structural x => x
/-- The pre-order depth-first flattening of a forest. -/
def preorder : List AccessibleChild → List AccessibleChild
  | [] => []
  | c :: rest => preorderNode c ++ preorder rest
termination_by structural x => x
end

/-! ### `AllowChildTraverse` (media_stream.cpp, lines 108-160) -/

/-- `MediaPlayers::BrowserAccessibleObject::AllowChildTraverse(child, param)`. -/
def AllowChildTraverse (child : AccessibleChild) (param : Int) : Bool :=
  if param = WebBrowserEngine.kWebEngineUnknown.toInt then
    false
  else if param = WebBrowserEngine.kWebEngineWebkit.toInt then
    if child.role = ROLE_SYSTEM_CLIENT ∨ child.role = ROLE_SYSTEM_GROUPING ∨
        child.role = ROLE_SYSTEM_PAGETABLIST ∨ child.role = ROLE_SYSTEM_TEXT ∨
        child.role = ROLE_SYSTEM_TOOLBAR ∨ child.role = ROLE_SYSTEM_WINDOW then true
    else false
  else if param = WebBrowserEngine.kWebEngineGecko.toInt then
    if child.role = ROLE_SYSTEM_APPLICATION ∨ child.role = ROLE_SYSTEM_COMBOBOX ∨
        child.role = ROLE_SYSTEM_PAGETABLIST ∨ child.role = ROLE_SYSTEM_TOOLBAR then true
    else if child.role = ROLE_SYSTEM_DOCUMENT then false
    else false
  else if param = WebBrowserEngine.kWebEngineTrident.toInt then
    if child.role = ROLE_SYSTEM_PANE ∨ child.role = ROLE_SYSTEM_SCROLLBAR then false
    else true
  else if param = WebBrowserEngine.kWebEnginePresto.toInt then
    if child.role = ROLE_SYSTEM_DOCUMENT ∨ child.role = ROLE_SYSTEM_PANE then false
    else true
  else
    true

/-! ## Page fetch (`base/html_fetch.cpp`) -/

def CURLE_OK : Nat := 0

/-- `Base::taigaFetchHtmlPageSource(url)`: the text written by the transfer, or
the thrown message when `curl_easy_perform` does not return `CURLE_OK`. -/
def taigaFetchHtmlPageSource (ext : Externals) (url : String) : Except String String :=
  let res := (ext.curl_easy_perform url).1
  let outputString := (ext.curl_easy_perform url).2
  if res ≠ CURLE_OK then
    let resStr := ext.curl_easy_strerror res
    let message := "curl_easy_perform() failed: " ++ resStr
    .error message
  else
    .ok outputString

/-! ## Provider prototypes (`track/stream_provider_parser.h`) -/

/-- The macro `INVALID`, the value of an unset pattern, url or title. -/
def INVALID : String := "INVALID"

inductive ParseSourceType where
  | Invalid
  | WindowTitle
  | Url
  | HtmlSource
  deriving DecidableEq, Repr

/-- `IStreamProviderParser::ParsingSource`. -/
structure ParsingSource where
  url : String
  title : String
  deriving DecidableEq, Repr

/-- `ParsingSource() : url(INVALID), title(INVALID)`. -/
def ParsingSource.ctor : ParsingSource :=
  { url := INVALID, title := INVALID }

/-- `StreamProviderParserPrototype::ParsingElement`.  The member
`ParsingSource& parsingSource` is the index of the heap object whose
`m_parsingSource` the reference is bound to; a C++ reference is bound once, at
construction, and every later `parsingSource = ...` assigns to the referent. -/
structure ParsingElement where
  regexPattern : String
  parseType : ParseSourceType
  parsingSource : Nat
  deriving DecidableEq, Repr

/-- `ParsingElement(ParsingSource& parsingSource)`. -/
def ParsingElement.ctor (parsingSource : Nat) : ParsingElement :=
  { regexPattern := INVALID, parseType := ParseSourceType.Invalid, parsingSource := parsingSource }

/-- An object of class `StreamProviderParserPrototype` (with the member
`m_parsingSource` of its base class `IStreamProviderParser`). -/
structure StreamProviderParserPrototype where
  m_parsingSource : ParsingSource
  m_enabled : Int
  m_regexUrlSupported : String
  m_humanReadableName : String
  m_episodeTitleParsing : ParsingElement
  m_episodeNumberParsing : ParsingElement
  deriving DecidableEq, Repr

/-- The default constructor, for an object placed at address `this`: both
parsing elements are bound to the object's own `m_parsingSource`. -/
def StreamProviderParserPrototype.ctor (this : Nat) : StreamProviderParserPrototype :=
  { m_parsingSource := ParsingSource.ctor
    m_enabled := 0
    m_regexUrlSupported := INVALID
    m_humanReadableName := ""
    m_episodeTitleParsing := ParsingElement.ctor this
    m_episodeNumberParsing := ParsingElement.ctor this }

/-- The store of prototype objects; a pointer is an index into it. -/
abbrev Heap := List StreamProviderParserPrototype

/-- The two `ParsingElement` members of a prototype. -/
inductive ElementMember where
  | m_episodeTitleParsing
  | m_episodeNumberParsing
  deriving DecidableEq, Repr

def StreamProviderParserPrototype.element (o : StreamProviderParserPrototype) :
    ElementMember → ParsingElement
  | .m_episodeTitleParsing => o.m_episodeTitleParsing
  | .m_episodeNumberParsing => o.m_episodeNumberParsing

def StreamProviderParserPrototype.modifyElement (o : StreamProviderParserPrototype)
    (f : ParsingElement → ParsingElement) : ElementMember → StreamProviderParserPrototype
  | .m_episodeTitleParsing => { o with m_episodeTitleParsing := f o.m_episodeTitleParsing }
  | .m_episodeNumberParsing => { o with m_episodeNumberParsing := f o.m_episodeNumberParsing }

/-- Update of the object at address `p`. -/
def Heap.modifyObject (heap : Heap) (p : Nat)
    (f : StreamProviderParserPrototype → StreamProviderParserPrototype) : Option Heap :=
  (heap[p]?).map (fun o => heap.set p (f o))

/-- Read of the element `m` of the object at `p`. -/
def Heap.readElement (heap : Heap) (p : Nat) (m : ElementMember) : Option ParsingElement :=
  (heap[p]?).map (fun o => o.element m)

/-- Read through a `ParsingSource&` bound to the object at `r`. -/
def Heap.readSource (heap : Heap) (r : Nat) : Option ParsingSource :=
  (heap[r]?).map (fun o => o.m_parsingSource)

/-- Assignment through a `ParsingSource&` bound to the object at `r`. -/
def Heap.writeSource (heap : Heap) (r : Nat) (v : ParsingSource) : Option Heap :=
  heap.modifyObject r (fun o => { o with m_parsingSource := v })

/-- `new StreamProviderParserPrototype`: the new heap and the pointer. -/
def Heap.newPrototype (heap : Heap) : Heap × Nat :=
  (heap ++ [StreamProviderParserPrototype.ctor heap.length], heap.length)

/-! ### The member functions (`track/stream_provider_parser.cpp`) -/

/-- `ParsingElement::isValid()`. -/
def ParsingElement.isValid (e : ParsingElement) : Bool :=
  e.parseType != ParseSourceType.Invalid && e.regexPattern != INVALID

/-- `ParsingElement::parseHtmlSource(url, pattern)`, with the urls it fetched. -/
def ParsingElement.parseHtmlSource (ext : Externals) (url pattern : String) :
    Except String String × List String :=
  match taigaFetchHtmlPageSource ext url with
  | .error message => (.error message, [url])
  | .ok htmlSource => (.ok (ext.FirstMatchRegex htmlSource pattern), [url])

/-- `ParsingElement::operator()()`: the value (or the thrown message) and the
urls fetched on the way. -/
def ParsingElement.call (ext : Externals) (heap : Heap) (e : ParsingElement) :
    Option (Except String String × List String) :=
  if !e.isValid then
    some (.ok "", [])
  else
    match e.parseType with
    | .WindowTitle =>
      (heap.readSource e.parsingSource).map
        (fun src => (.ok (ext.FirstMatchRegex src.title e.regexPattern), []))
    | .Url =>
      (heap.readSource e.parsingSource).map
        (fun src => (.ok (ext.FirstMatchRegex src.url e.regexPattern), []))
    | .HtmlSource =>
      (heap.readSource e.parsingSource).map
        (fun src => ParsingElement.parseHtmlSource ext src.url e.regexPattern)
    | .Invalid => some (.ok "", [])

/-- `StreamProviderParserPrototype::parseTitle()` of the object at `this`. -/
def parseTitle (ext : Externals) (heap : Heap) (this : Nat) :
    Option (Except String String × List String) :=
  match heap[this]? with
  | none => none
  | some self =>
    match self.m_episodeTitleParsing.call ext heap with
    | none => none
    | some (.error message, fetched) => some (.error message, fetched)
    | some (.ok title, fetched) =>
      match self.m_episodeNumberParsing.call ext heap with
      | none => none
      | some (.error message, fetched2) => some (.error message, fetched ++ fetched2)
      | some (.ok number, fetched2) =>
        let title := if !number.isEmpty then title ++ (" Episode " ++ number) else title
        some (.ok title, fetched ++ fetched2)

/-- `ParsingElement::operator=`, for the element `this` (member `this.2` of the
object at `this.1`) and the element `other`. -/
def ParsingElement.assign (heap : Heap) (this other : Nat × ElementMember) : Option Heap :=
  if this = other then
    some heap
  else do
    let o ← heap.readElement other.1 other.2
    let heap ← heap.modifyObject this.1
      (fun obj => obj.modifyElement (fun e => { e with parseType := o.parseType }) this.2)
    let o ← heap.readElement other.1 other.2
    let heap ← heap.modifyObject this.1
      (fun obj => obj.modifyElement (fun e => { e with regexPattern := o.regexPattern }) this.2)
    let t ← heap.readElement this.1 this.2
    let o ← heap.readElement other.1 other.2
    let v ← heap.readSource o.parsingSource
    heap.writeSource t.parsingSource v

/-- The statement `newInstance->m.parsingSource = newInstance->m_parsingSource;`
(lines 81 and 83): an assignment through the reference member of element `m`. -/
def assignOwnSource (heap : Heap) (newInstance : Nat) (m : ElementMember) : Option Heap := do
  let e ← heap.readElement newInstance m
  let v ← heap.readSource newInstance
  heap.writeSource e.parsingSource v

/-- `StreamProviderParserPrototype::createNewInstance(url, title)` called on the
object at `this`: the heap afterwards and the pointer returned. -/
def createNewInstance (heap : Heap) (this : Nat) (url title : String) : Option (Heap × Nat) := do
  let self ← heap[this]?
  -- new StreamProviderParserPrototype(*this): the implicit copy constructor copies
  -- member by member; a reference member stays bound to the referent of the original
  let newInstance := heap.length
  let heap := heap ++ [self]
  let heap ← heap.modifyObject newInstance
    (fun o => { o with m_parsingSource := { o.m_parsingSource with url := url } })
  let heap ← heap.modifyObject newInstance
    (fun o => { o with m_parsingSource := { o.m_parsingSource with title := title } })
  let heap ← ParsingElement.assign heap (newInstance, .m_episodeTitleParsing)
    (this, .m_episodeTitleParsing)
  let heap ← assignOwnSource heap newInstance .m_episodeTitleParsing
  let heap ← ParsingElement.assign heap (newInstance, .m_episodeNumberParsing)
    (this, .m_episodeNumberParsing)
  let heap ← assignOwnSource heap newInstance .m_episodeNumberParsing
  some (heap, newInstance)

/-- `StreamProviderParserPrototype::supportsUrl(url)`. -/
def supportsUrl (ext : Externals) (heap : Heap) (this : Nat) (url : String) : Option Bool :=
  (heap[this]?).map (fun self => ext.SearchRegex url self.m_regexUrlSupported)

def setRegexUrlSupported (heap : Heap) (this : Nat) (regexPattern : String) : Option Heap :=
  heap.modifyObject this (fun o => { o with m_regexUrlSupported := regexPattern })

def setEpisodeTitleParsing (heap : Heap) (this : Nat) (regexPattern : String)
    (parseType : ParseSourceType) : Option Heap :=
  heap.modifyObject this (fun o => { o with
    m_episodeTitleParsing :=
      { o.m_episodeTitleParsing with regexPattern := regexPattern, parseType := parseType } })

def setEpisodeNumberParsing (heap : Heap) (this : Nat) (regexPattern : String)
    (parseType : ParseSourceType) : Option Heap :=
  heap.modifyObject this (fun o => { o with
    m_episodeNumberParsing :=
      { o.m_episodeNumberParsing with regexPattern := regexPattern, parseType := parseType } })

def setHumanReadableName (heap : Heap) (this : Nat) (humanReadableName : String) : Option Heap :=
  heap.modifyObject this (fun o => { o with m_humanReadableName := humanReadableName })

def setEnabled (heap : Heap) (this : Nat) (enabled : Int) : Option Heap :=
  heap.modifyObject this (fun o => { o with m_enabled := enabled })

/-! ### The handle and the factory -/

/-- `StreamProviderParserRaii`; the field `m_parserPointer` is the member named
`m_parser` in the source, and `none` is the null pointer.  The member
`m_handOverDeletion` is `none` while no constructor or setter has given it a
value. -/
structure StreamProviderParserRaii where
  m_parserPointer : Option Nat
  m_handOverDeletion : Option Bool
  m_delete : Bool
  deriving DecidableEq, Repr

/-- `StreamProviderParserRaii(IStreamProviderParser* parser)`. -/
def StreamProviderParserRaii.ctor (parser : Option Nat) : StreamProviderParserRaii :=
  { m_parserPointer := parser, m_handOverDeletion := some true, m_delete := true }

/-- `operator bool()`. -/
def StreamProviderParserRaii.toBool (r : StreamProviderParserRaii) : Bool :=
  r.m_parserPointer.isSome

/-- The copy constructor `StreamProviderParserRaii(StreamProviderParserRaii& other)`:
the new handle, and `other` as the constructor leaves it.  The constructor
assigns `m_parser` and `m_delete` of the new handle and leaves its
`m_handOverDeletion` without a value.  It reads `other.m_handOverDeletion`
twice; when that member has no value the read is undefined and the result is
`none`. -/
def StreamProviderParserRaii.copy (other : StreamProviderParserRaii) :
    Option (StreamProviderParserRaii × StreamProviderParserRaii) :=
  match other.m_handOverDeletion with
  | none => none
  | some handOver =>
    some ({ m_parserPointer := other.m_parserPointer
            m_handOverDeletion := none
            m_delete := if handOver then true else false },
          { other with m_delete := !handOver })

/-- `setHandOverDeletion(flag)`. -/
def StreamProviderParserRaii.setHandOverDeletion (h : StreamProviderParserRaii) (flag : Bool) :
    StreamProviderParserRaii :=
  { h with m_handOverDeletion := some flag }

/-- The destructor: the number of times it executes `delete m_parser`. -/
def StreamProviderParserRaii.dtor (h : StreamProviderParserRaii) : Nat :=
  if h.m_delete then 1 else 0

/-- An operation on the handles of one parser; a handle is named by its position
in the order of construction. -/
inductive HandleOp where
  /-- A new handle is copy-constructed from the handle `source`. -/
  | copy (source : Nat)
  /-- `setHandOverDeletion(flag)` is called on `handle`. -/
  | setHandOverDeletion (handle : Nat) (flag : Bool)
  deriving DecidableEq, Repr

/-- The handles after one operation; an operation on a handle that does not
exist does nothing, and a copy that reads a member without a value is `none`. -/
def HandleOp.apply (handles : List StreamProviderParserRaii) :
    HandleOp → Option (List StreamProviderParserRaii)
  | .copy source =>
    match handles[source]? with
    | some other =>
      match other.copy with
      | some (created, left) => some (handles.set source left ++ [created])
      | none => none
    | none => some handles
  | .setHandOverDeletion handle flag =>
    match handles[handle]? with
    | some h => some (handles.set handle (h.setHandOverDeletion flag))
    | none => some handles

/-- The handles after the given operations, in their order. -/
def runHandleOpsFrom (handles : List StreamProviderParserRaii) :
    List HandleOp → Option (List StreamProviderParserRaii)
  | [] => some handles
  | op :: rest =>
    match HandleOp.apply handles op with
    | some next => runHandleOpsFrom next rest
    | none => none

/-- The handles that exist after `StreamProviderParserRaii(parser)` and the given
operations, in their order. -/
def runHandleOps (parser : Option Nat) (ops : List HandleOp) :
    Option (List StreamProviderParserRaii) :=
  runHandleOpsFrom [StreamProviderParserRaii.ctor parser] ops

/-- How many times `delete m_parser` runs when all the handles are destroyed:
the number of handles whose delete flag is set. -/
def releases (handles : List StreamProviderParserRaii) : Nat :=
  (handles.map StreamProviderParserRaii.dtor).sum

/-- `StreamProviderParserFactory`: the vector of prototype pointers. -/
structure StreamProviderParserFactory where
  m_streamProvidersParsersPrototypes : List Nat
  deriving DecidableEq, Repr

def addStreamProviderParserPrototype (factory : StreamProviderParserFactory)
    (streamProviderParserPrototype : Nat) : StreamProviderParserFactory :=
  { m_streamProvidersParsersPrototypes :=
      factory.m_streamProvidersParsersPrototypes ++ [streamProviderParserPrototype] }

/-- The `for each` loop of `createStreamProviderParser` over the remaining
prototypes: the heap and the value of `newParser` when the loop is left. -/
def createStreamProviderParser_loop (ext : Externals) (heap : Heap) (url title : String) :
    List Nat → Option (Heap × Option Nat)
  | [] => some (heap, none)
  | prototype :: rest =>
    match supportsUrl ext heap prototype url with
    | none => none
    | some true =>
      (createNewInstance heap prototype url title).map (fun r => (r.1, some r.2))
    | some false => createStreamProviderParser_loop ext heap url title rest

/-- `StreamProviderParserFactory::createStreamProviderParser(url, title)`. -/
def createStreamProviderParser (ext : Externals) (heap : Heap)
    (factory : StreamProviderParserFactory) (url title : String) :
    Option (Heap × StreamProviderParserRaii) :=
  (createStreamProviderParser_loop ext heap url title
      factory.m_streamProvidersParsersPrototypes).map
    (fun r => (r.1, StreamProviderParserRaii.ctor r.2))

/-! ### The string mappings of `ParseSourceType` and `loadPrototypes`

`assert(c)` aborts the program when `c` is false, unless the macro `NDEBUG` is
defined at compile time, in which case it does nothing.  Whether `NDEBUG` is
defined is a parameter; an abort is `none`. -/

/-- The static map of `taigaParseSourceTypeToWString` after its initialization. -/
def taigaParseSourceTypeToWString_map : List (ParseSourceType × String) :=
  [ (ParseSourceType.Invalid, "invalid"),
    (ParseSourceType.WindowTitle, "window_title"),
    (ParseSourceType.Url, "url"),
    (ParseSourceType.HtmlSource, "html_source") ]

/-- `Track::taigaParseSourceTypeToWString(type)`. -/
def taigaParseSourceTypeToWString (NDEBUG : Bool) (type : ParseSourceType) : Option String :=
  let found := taigaParseSourceTypeToWString_map.find? (fun kv => kv.1 = type)
  if !NDEBUG && found.isNone then
    none
  else
    match found with
    | some kv => some kv.2
    | none => some ""

/-- The static map of `taigaWStringToParseSourceType` after its initialization. -/
def taigaWStringToParseSourceType_map : List (String × ParseSourceType) :=
  [ ("invalid", ParseSourceType.Invalid),
    ("window_title", ParseSourceType.WindowTitle),
    ("url", ParseSourceType.Url),
    ("html_source", ParseSourceType.HtmlSource) ]

/-- `Track::taigaWStringToParseSourceType(type)`. -/
def taigaWStringToParseSourceType (NDEBUG : Bool) (type : String) : Option ParseSourceType :=
  let it := taigaWStringToParseSourceType_map.find? (fun kv => kv.1 = type)
  if !NDEBUG && it.isNone then
    none
  else
    match it with
    | none => some ParseSourceType.Invalid
    | some kv => some kv.2

/-- A `<title>` or `<episode_number>` node: the value of its `source` attribute
(`as_string()` gives `""` when the attribute is missing) and its text. -/
structure XmlRule where
  source : String
  pattern : String
  deriving DecidableEq, Repr

/-- A `<provider>` node as `loadPrototypes` reads it. -/
structure XmlProvider where
  name : String
  url : String
  enabled : Int
  title : Option XmlRule
  episode_number : Option XmlRule
  deriving DecidableEq, Repr

/-- The body of the loop of `loadPrototypes` for one `<provider>` node. -/
def loadPrototypes_provider (NDEBUG : Bool) (heap : Heap)
    (factory : StreamProviderParserFactory) (provider : XmlProvider) :
    Option (Heap × StreamProviderParserFactory) := do
  let r := Heap.newPrototype heap
  let xmlProvider := r.2
  let heap ← setHumanReadableName r.1 xmlProvider provider.name
  let heap ← setRegexUrlSupported heap xmlProvider provider.url
  let heap ← setEnabled heap xmlProvider (if provider.enabled ≠ 0 then 1 else 0)
  let factory := addStreamProviderParserPrototype factory xmlProvider
  let heap ←
    match provider.title with
    | some title => do
      let parseType ← taigaWStringToParseSourceType NDEBUG title.source
      setEpisodeTitleParsing heap xmlProvider title.pattern parseType
    | none => some heap
  let heap ←
    match provider.episode_number with
    | some episode => do
      let parseType ← taigaWStringToParseSourceType NDEBUG episode.source
      setEpisodeNumberParsing heap xmlProvider episode.pattern parseType
    | none => some heap
  some (heap, factory)

/-- The loop of `loadPrototypes` over the `<provider>` nodes. -/
def loadPrototypes_loop (NDEBUG : Bool) (heap : Heap) (factory : StreamProviderParserFactory) :
    List XmlProvider → Option (Heap × StreamProviderParserFactory)
  | [] => some (heap, factory)
  | provider :: rest =>
    match loadPrototypes_provider NDEBUG heap factory provider with
    | none => none
    | some (heap, factory) => loadPrototypes_loop NDEBUG heap factory rest

/-- `StreamProviderParserFactory::loadPrototypes()`; `document` is `none` when
`load_file` does not report `status_ok`, else the `<provider>` nodes under
`<media_providers>` in document order. -/
def loadPrototypes (NDEBUG : Bool) (heap : Heap) (factory : StreamProviderParserFactory)
    (document : Option (List XmlProvider)) :
    Option (Bool × Heap × StreamProviderParserFactory) :=
  match document with
  | none => some (false, heap, factory)
  | some providers =>
    (loadPrototypes_loop NDEBUG heap factory providers).map (fun r => (true, r.1, r.2))

/-! ## The browser title resolver (`track/media_stream.cpp`) -/

/-- `BrowserAccessibilityData`: an expected `(name, role)` of an address bar. -/
structure BrowserAccessibilityData where
  name : String
  role : Nat
  deriving DecidableEq, Repr

/-- The global `std::map<WebBrowserEngine, std::vector<BrowserAccessibilityData>>`
as an association list with at most one entry per key. -/
abbrev BrowserData := List (WebBrowserEngine × List BrowserAccessibilityData)

/-- The vector stored under `key` (empty when the key is absent). -/
def BrowserData.lookup (browser_data : BrowserData) (key : WebBrowserEngine) :
    List BrowserAccessibilityData :=
  match browser_data.find? (fun kv => kv.1 = key) with
  | some kv => kv.2
  | none => []

/-- The effect of `browser_data[key]` on the map: an absent key is inserted with
an empty vector. -/
def BrowserData.index (browser_data : BrowserData) (key : WebBrowserEngine) : BrowserData :=
  if browser_data.any (fun kv => kv.1 = key) then browser_data else browser_data ++ [(key, [])]

/-- `AddBrowserData(browser, name, role)`. -/
def AddBrowserData (browser_data : BrowserData) (browser : WebBrowserEngine) (name : String)
    (role : Nat) : BrowserData :=
  (browser_data.index browser).map
    (fun kv => if kv.1 = browser then (kv.1, kv.2 ++ [{ name := name, role := role }]) else kv)

/-- `InitializeBrowserData()`. -/
def InitializeBrowserData (browser_data : BrowserData) : BrowserData :=
  if !browser_data.isEmpty then
    browser_data
  else
    let d := browser_data
    let d := AddBrowserData d .kWebEngineWebkit "Address and search bar" ROLE_SYSTEM_TEXT
    let d := AddBrowserData d .kWebEngineWebkit "Address and search bar" ROLE_SYSTEM_GROUPING
    let d := AddBrowserData d .kWebEngineWebkit "Address" ROLE_SYSTEM_GROUPING
    let d := AddBrowserData d .kWebEngineWebkit "Location" ROLE_SYSTEM_GROUPING
    let d := AddBrowserData d .kWebEngineWebkit "Address field" ROLE_SYSTEM_TEXT
    let d := AddBrowserData d .kWebEngineGecko "Search or enter address" ROLE_SYSTEM_TEXT
    let d := AddBrowserData d .kWebEngineGecko "Go to a Website" ROLE_SYSTEM_TEXT
    let d := AddBrowserData d .kWebEngineGecko "Go to a Web Site" ROLE_SYSTEM_TEXT
    let d := AddBrowserData d .kWebEngineTrident "Address and search using Bing" ROLE_SYSTEM_TEXT
    let d := AddBrowserData d .kWebEngineTrident "Address and search using Google" ROLE_SYSTEM_TEXT
    d

/-- What a call of `GetTitleFromBrowser` does that is visible outside of its
result: a record kept next to the state, in the order of execution. -/
inductive Event where
  /-- `acc_obj.FromWindow(hwnd)` and, on `S_OK`, `BuildChildren` and `Release`. -/
  | buildTree (web_engine : WebBrowserEngine)
  /-- A call `FindAccessibleChild(_, name, role)` made by `GetTitleFromBrowser`. -/
  | findChild (name : String) (role : Nat)
  /-- A call `m_streamProviderFactory.createStreamProviderParser(url, title)`. -/
  | createParser (url title : String)
  /-- A call `Base::taigaFetchHtmlPageSource(url)`. -/
  | fetch (url : String)
  deriving DecidableEq, Repr

/-- The state that outlives a call: the function-local static `lastWindowTitle`,
`acc_obj.children`, the global `browser_data`, the provider factory with the
objects it points to, and the record of events. -/
structure MediaPlayers where
  lastWindowTitle : String
  acc_obj_children : List AccessibleChild
  browser_data : BrowserData
  heap : Heap
  m_streamProviderFactory : StreamProviderParserFactory
  events : List Event

/-- What the collaborators of `GetTitleFromBrowser(hwnd)` answer during one call:
`GetWindowTitle(hwnd)`, `FindPlayer(current_player())->engine`, `current_title()`,
`CurrentEpisode.anime_id`, whether `acc_obj.FromWindow(hwnd) == S_OK`, and the
children that `BuildChildren(acc_obj.children, nullptr, web_engine)` stores. -/
structure Window where
  GetWindowTitle : String
  engine : String
  current_title : String
  anime_id : Int
  FromWindow : Bool
  BuildChildren : Int → List AccessibleChild

/-- `MediaPlayers::GetTitleFromStreamingMediaProvider(url, title)`. -/
def GetTitleFromStreamingMediaProvider (ext : Externals) (mp : MediaPlayers)
    (url title : String) : Option (Except String String × MediaPlayers) :=
  if url.isEmpty || title.isEmpty then
    some (.ok "", mp)
  else
    let mp := { mp with events := mp.events ++ [Event.createParser url title] }
    match createStreamProviderParser ext mp.heap mp.m_streamProviderFactory url title with
    | none => none
    | some (heap, parser) =>
      let mp := { mp with heap := heap }
      match parser.m_parserPointer with
      | some p =>
        match parseTitle ext mp.heap p with
        | none => none
        | some (result, fetched) =>
          some (result, { mp with events := mp.events ++ fetched.map Event.fetch })
      | none => some (.ok "", mp)

/-- The block "Check other tabs" (lines 205-230), run when
`CurrentEpisode.anime_id > 0`. -/
def GetTitleFromBrowser_checkOtherTabs (ext : Externals) (mp : MediaPlayers) (hwnd : Window)
    (web_engine : WebBrowserEngine) : Except String String × MediaPlayers :=
  let search : Option (String × Nat) :=
    match web_engine with
    | .kWebEngineWebkit => some ("", ROLE_SYSTEM_PAGETABLIST)
    | .kWebEngineGecko => some ("", ROLE_SYSTEM_PAGETABLIST)
    | .kWebEngineTrident => some ("Tab Row", 0)
    | .kWebEnginePresto => some ("", ROLE_SYSTEM_CLIENT)
    | .kWebEngineUnknown => none
  match search with
  | none => (.ok "", mp)
  | some (name, role) =>
    let child := FindAccessibleChild ext name role mp.acc_obj_children
    let mp := { mp with events := mp.events ++ [Event.findChild name role] }
    match child with
    | some child =>
      if child.children.any (fun it => decide (ext.InStr it.name hwnd.current_title > -1)) then
        (.ok hwnd.current_title, mp)
      else
        (.ok "", mp)
    | none => (.ok "", mp)

/-- The loop over `child_data` (lines 241-245): the value of `child` after the
loop and the searches made. -/
def GetTitleFromBrowser_hintLoop (ext : Externals) (children : List AccessibleChild) :
    List BrowserAccessibilityData → Option AccessibleChild × List Event
  | [] => (none, [])
  | it :: rest =>
    let child := FindAccessibleChild ext it.name it.role children
    if child.isSome then
      (child, [Event.findChild it.name it.role])
    else
      let r := GetTitleFromBrowser_hintLoop ext children rest
      (r.1, Event.findChild it.name it.role :: r.2)

/-- The Presto chain (lines 249-262): the value of `child` and the searches made. -/
def GetTitleFromBrowser_presto (ext : Externals) (children : List AccessibleChild) :
    Option AccessibleChild × List Event :=
  let ev1 := [Event.findChild "" ROLE_SYSTEM_CLIENT]
  match FindAccessibleChild ext "" ROLE_SYSTEM_CLIENT children with
  | none => (none, ev1)
  | some client =>
    match client.children with
    | [] => (some client, ev1)
    | first :: _ =>
      let ev2 := ev1 ++ [Event.findChild "" ROLE_SYSTEM_TOOLBAR]
      match FindAccessibleChild ext "" ROLE_SYSTEM_TOOLBAR first.children with
      | none => (none, ev2)
      | some toolbar =>
        if toolbar.children.isEmpty then
          (some toolbar, ev2)
        else
          let ev3 := ev2 ++ [Event.findChild "" ROLE_SYSTEM_COMBOBOX]
          match FindAccessibleChild ext "" ROLE_SYSTEM_COMBOBOX toolbar.children with
          | none => (none, ev3)
          | some combobox =>
            if combobox.children.isEmpty then
              (some combobox, ev3)
            else
              (FindAccessibleChild ext "" ROLE_SYSTEM_TEXT combobox.children,
                ev3 ++ [Event.findChild "" ROLE_SYSTEM_TEXT])

/-- The block "Find URL" and the end of the function (lines 233-271). -/
def GetTitleFromBrowser_findUrl (ext : Externals) (mp : MediaPlayers) (hwnd : Window)
    (web_engine : WebBrowserEngine) : Option (Except String String × MediaPlayers) :=
  let currentWindowTitle := hwnd.GetWindowTitle
  let viaHints (mp : MediaPlayers) : Option AccessibleChild × MediaPlayers :=
    let mp := { mp with browser_data := InitializeBrowserData mp.browser_data }
    let mp := { mp with browser_data := mp.browser_data.index web_engine }
    let child_data := mp.browser_data.lookup web_engine
    let r := GetTitleFromBrowser_hintLoop ext mp.acc_obj_children child_data
    (r.1, { mp with events := mp.events ++ r.2 })
  let found : Option AccessibleChild × MediaPlayers :=
    match web_engine with
    | .kWebEngineWebkit => viaHints mp
    | .kWebEngineGecko => viaHints mp
    | .kWebEngineTrident => viaHints mp
    | .kWebEnginePresto =>
      let r := GetTitleFromBrowser_presto ext mp.acc_obj_children
      (r.1, { mp with events := mp.events ++ r.2 })
    | .kWebEngineUnknown => (none, mp)
  match found with
  | (some child, mp) => GetTitleFromStreamingMediaProvider ext mp child.value currentWindowTitle
  | (none, mp) => some (.ok "", mp)

/-- `MediaPlayers::GetTitleFromBrowser(hwnd)`: the returned title (or the thrown
message) and the state afterwards. -/
def GetTitleFromBrowser (ext : Externals) (mp : MediaPlayers) (hwnd : Window) :
    Option (Except String String × MediaPlayers) :=
  let currentWindowTitle := hwnd.GetWindowTitle
  if mp.lastWindowTitle = currentWindowTitle then
    some (.ok hwnd.current_title, mp)
  else
    let mp := { mp with lastWindowTitle := currentWindowTitle }
    -- Select web browser engine
    let selected : Option WebBrowserEngine :=
      if hwnd.engine = "WebKit" then some .kWebEngineWebkit
      else if hwnd.engine = "Gecko" then some .kWebEngineGecko
      else if hwnd.engine = "Trident" then some .kWebEngineTrident
      else if hwnd.engine = "Presto" then some .kWebEnginePresto
      else none
    match selected with
    | none => some (.ok "", mp)
    | some web_engine =>
      -- Build accessibility data
      let mp := { mp with acc_obj_children := [],
                          events := mp.events ++ [Event.buildTree web_engine] }
      let mp :=
        if hwnd.FromWindow then
          { mp with acc_obj_children := hwnd.BuildChildren web_engine.toInt }
        else mp
      if hwnd.anime_id > 0 then
        some (GetTitleFromBrowser_checkOtherTabs ext mp hwnd web_engine)
      else
        GetTitleFromBrowser_findUrl ext mp hwnd web_engine

/-- The selection of the web browser engine (lines 180-194): the enumerator for
the four known engine names, `none` when `GetTitleFromBrowser` returns early. -/
def engineOfName (engine : String) : Option WebBrowserEngine :=
  if engine = "WebKit" then some .kWebEngineWebkit
  else if engine = "Gecko" then some .kWebEngineGecko
  else if engine = "Trident" then some .kWebEngineTrident
  else if engine = "Presto" then some .kWebEnginePresto
  else none

/-- The part of `GetTitleFromBrowser` that follows the selection of the engine
(lines 196-271), started in the state `mp` in which `lastWindowTitle` has been
overwritten. -/
def GetTitleFromBrowser_withEngine (ext : Externals) (mp : MediaPlayers) (hwnd : Window)
    (web_engine : WebBrowserEngine) : Option (Except String String × MediaPlayers) :=
  let mp := { mp with acc_obj_children := [],
                      events := mp.events ++ [Event.buildTree web_engine] }
  let mp :=
    if hwnd.FromWindow then
      { mp with acc_obj_children := hwnd.BuildChildren web_engine.toInt }
    else mp
  if hwnd.anime_id > 0 then
    some (GetTitleFromBrowser_checkOtherTabs ext mp hwnd web_engine)
  else
    GetTitleFromBrowser_findUrl ext mp hwnd web_engine

/-- The accessibility tree that `GetTitleFromBrowser` works on after the build
step: what `BuildChildren` stored when `FromWindow` gave `S_OK`, nothing
otherwise. -/
def Window.tree (hwnd : Window) (web_engine : WebBrowserEngine) : List AccessibleChild :=
  if hwnd.FromWindow then hwnd.BuildChildren web_engine.toInt else []

/-- The container searched by the block "Check other tabs", per engine. -/
def tabContainer (ext : Externals) (web_engine : WebBrowserEngine)
    (tree : List AccessibleChild) : Option AccessibleChild :=
  match web_engine with
  | .kWebEngineWebkit => FindAccessibleChild ext "" ROLE_SYSTEM_PAGETABLIST tree
  | .kWebEngineGecko => FindAccessibleChild ext "" ROLE_SYSTEM_PAGETABLIST tree
  | .kWebEngineTrident => FindAccessibleChild ext "Tab Row" 0 tree
  | .kWebEnginePresto => FindAccessibleChild ext "" ROLE_SYSTEM_CLIENT tree
  | .kWebEngineUnknown => none

/-- The state after the step "Build accessibility data" (lines 196-201). -/
def MediaPlayers.afterBuild (mp : MediaPlayers) (hwnd : Window)
    (web_engine : WebBrowserEngine) : MediaPlayers :=
  { mp with acc_obj_children := hwnd.tree web_engine,
            events := mp.events ++ [Event.buildTree web_engine] }

/-- The transfer of `url` does not end with `CURLE_OK`. -/
def fetchFails (ext : Externals) (url : String) : Prop :=
  (ext.curl_easy_perform url).1 ≠ CURLE_OK

instance (ext : Externals) (url : String) : Decidable (fetchFails ext url) :=
  inferInstanceAs (Decidable ((ext.curl_easy_perform url).1 ≠ CURLE_OK))

/-- The message thrown by `taigaFetchHtmlPageSource(url)` when the transfer fails:
the fixed text followed by the error text of the transport. -/
def fetchFailureMessage (ext : Externals) (url : String) : String :=
  "curl_easy_perform() failed: " ++ ext.curl_easy_strerror (ext.curl_easy_perform url).1

/-- The rule is valid and reads the page source. -/
def ParsingElement.isHtmlRule (e : ParsingElement) : Prop :=
  e.isValid = true ∧ e.parseType = ParseSourceType.HtmlSource

instance (e : ParsingElement) : Decidable e.isHtmlRule :=
  inferInstanceAs (Decidable (e.isValid = true ∧ e.parseType = ParseSourceType.HtmlSource))

/-- The value of a rule evaluated against a given `(url, title)`, with the urls
fetched: empty for an invalid rule, the first match in the title for a
WindowTitle rule, in the url for a Url rule, in the fetched page of the url for
an HtmlSource rule. -/
def ruleValue (ext : Externals) (rule : ParsingElement) (url title : String) :
    Except String String × List String :=
  if !rule.isValid then (.ok "", [])
  else
    match rule.parseType with
    | .WindowTitle => (.ok (ext.FirstMatchRegex title rule.regexPattern), [])
    | .Url => (.ok (ext.FirstMatchRegex url rule.regexPattern), [])
    | .HtmlSource => ParsingElement.parseHtmlSource ext url rule.regexPattern
    | .Invalid => (.ok "", [])

/-- The title that the two rules of `self` give against a given `(url, title)`:
the value of the title rule, followed by `" Episode "` and the value of the
episode-number rule when that value is not empty. -/
def parseTitleOn (ext : Externals) (self : StreamProviderParserPrototype) (url title : String) :
    Except String String × List String :=
  match ruleValue ext self.m_episodeTitleParsing url title with
  | (.error message, fetched) => (.error message, fetched)
  | (.ok t, fetched) =>
    match ruleValue ext self.m_episodeNumberParsing url title with
    | (.error message, fetched2) => (.error message, fetched ++ fetched2)
    | (.ok n, fetched2) =>
      (.ok (if !n.isEmpty then t ++ (" Episode " ++ n) else t), fetched ++ fetched2)

/-- The object with its enabled flag cleared. -/
def clearEnabled (o : StreamProviderParserPrototype) : StreamProviderParserPrototype :=
  { o with m_enabled := 0 }

/-- The heap with every enabled flag cleared: two heaps with the same image
differ in enabled flags only. -/
def Heap.eraseEnabled (heap : Heap) : Heap :=
  heap.map clearEnabled

/-! ## Well-formed heaps -/

/-- Every reference member of every object is bound to an allocated object. -/
def Heap.WF (heap : Heap) : Prop :=
  ∀ o ∈ heap, o.m_episodeTitleParsing.parsingSource < heap.length
    ∧ o.m_episodeNumberParsing.parsingSource < heap.length

/-- The update `f` leaves the reference members as they are. -/
def KeepsRefs (f : StreamProviderParserPrototype → StreamProviderParserPrototype) : Prop :=
  ∀ o, (f o).m_episodeTitleParsing.parsingSource = o.m_episodeTitleParsing.parsingSource
    ∧ (f o).m_episodeNumberParsing.parsingSource = o.m_episodeNumberParsing.parsingSource

/-! ## A concrete choice of the external primitives

Used only to evaluate the definitions on examples.  The sample regex engine
knows the patterns `.*` and `(.*)` (the whole subject), `[0-9]+$` (the digits at
the end of the subject) and `(.+) Episode` (the text before the first
` Episode`); any other pattern is searched for literally.  Every transfer of the
sample libcurl fails with code 7. -/

/-- The index of the first occurrence of `needle` in `str`. -/
def sampleIndexOf (str needle : String) : Option Nat :=
  str.data.tails.findIdx? (fun t => needle.data.isPrefixOf t)

def sampleExternals : Externals where
  SearchRegex := fun str pattern =>
    pattern == ".*" || pattern == "(.*)" || (sampleIndexOf str pattern).isSome
  FirstMatchRegex := fun str pattern =>
    if pattern == ".*" || pattern == "(.*)" then str
    else if pattern == "[0-9]+$" then
      String.mk (str.data.reverse.takeWhile Char.isDigit).reverse
    else if pattern == "(.+) Episode" then
      match sampleIndexOf str " Episode" with
      | some i => String.mk (str.data.take i)
      | none => ""
    else if (sampleIndexOf str pattern).isSome then pattern
    else ""
  IsEqual := fun str1 str2 => str1.data.map Char.toLower == str2.data.map Char.toLower
  InStr := fun str1 str2 =>
    match sampleIndexOf str1 str2 with
    | some i => (i : Int)
    | none => -1
  curl_easy_perform := fun _ => (7, "")
  curl_easy_strerror := fun _ => "Couldn't connect to server"

/-- One provider template, as `loadPrototypes` builds it from the record
`<name>Example</name> <enabled>1</enabled> <url>example.org</url>
<title source="window_title">(.+) Episode</title>
<episode_number source="window_title">[0-9]+$</episode_number>`. -/
def sampleTemplate : StreamProviderParserPrototype :=
  { m_parsingSource := { url := INVALID, title := INVALID }
    m_enabled := 1
    m_regexUrlSupported := "example.org"
    m_humanReadableName := "Example"
    m_episodeTitleParsing :=
      { regexPattern := "(.+) Episode", parseType := ParseSourceType.WindowTitle,
        parsingSource := 0 }
    m_episodeNumberParsing :=
      { regexPattern := "[0-9]+$", parseType := ParseSourceType.WindowTitle,
        parsingSource := 0 } }

/-- The heap after loading the one template (at address 0). -/
def sampleHeap : Heap := [sampleTemplate]

/-- The catalog holding the one template. -/
def sampleFactory : StreamProviderParserFactory :=
  { m_streamProvidersParsersPrototypes := [0] }

/-- A small Gecko-like forest: a toolbar holding the address field, then a tab list. -/
def sampleForest : List AccessibleChild :=
  [ .mk "Navigation" ROLE_SYSTEM_TOOLBAR ""
      [ .mk "Search or enter address" ROLE_SYSTEM_TEXT "http://example.org/watch/5" [] ],
    .mk "Tabs" ROLE_SYSTEM_PAGETABLIST ""
      [ .mk "search OR enter address" ROLE_SYSTEM_TEXT "second" [],
        .mk "Show Name Episode 5" ROLE_SYSTEM_TEXT "" [] ] ]

/-- Two copies of the sample template in one catalog: both support every
`example.org` url. -/
def sampleHeap2 : Heap :=
  [sampleTemplate,
   { sampleTemplate with
      m_humanReadableName := "Example (second)"
      m_episodeTitleParsing := { sampleTemplate.m_episodeTitleParsing with parsingSource := 1 }
      m_episodeNumberParsing :=
        { sampleTemplate.m_episodeNumberParsing with parsingSource := 1 } }]

/-- A resolver state right after start-up with the sample catalog loaded. -/
def sampleMediaPlayers : MediaPlayers :=
  { lastWindowTitle := ""
    acc_obj_children := []
    browser_data := []
    heap := sampleHeap
    m_streamProviderFactory := sampleFactory
    events := [] }

/-- An instance of the sample template bound to the window title
`"Show Name Episode 5"`, as `createNewInstance` leaves the heap. -/
def sampleInstanceHeap : Heap :=
  [ { sampleTemplate with
        m_parsingSource := { url := "http://example.org/watch/5", title := "Show Name Episode 5" } },
    { sampleTemplate with
        m_parsingSource := { url := "http://example.org/watch/5", title := "Show Name Episode 5" } } ]

/-- A Gecko window showing the sample forest, with no tracked episode. -/
def sampleWindow : Window :=
  { GetWindowTitle := "Show Name Episode 5"
    engine := "Gecko"
    current_title := "Show Name Episode 5"
    anime_id := 0
    FromWindow := true
    BuildChildren := fun _ => sampleForest }

/-- A window of a player whose engine name is not one of the four known names,
while another title is held as the current title. -/
def sampleUnknownWindow : Window :=
  { GetWindowTitle := "Some page - Browser"
    engine := "Blink"
    current_title := "Show Name Episode 5"
    anime_id := 0
    FromWindow := true
    BuildChildren := fun _ => sampleForest }

/-- The resolver state after the first call on `sampleWindow`. -/
def sampleMediaPlayersAfter : MediaPlayers :=
  { lastWindowTitle := "Show Name Episode 5"
    acc_obj_children := sampleForest
    browser_data := InitializeBrowserData []
    heap := sampleInstanceHeap
    m_streamProviderFactory := sampleFactory
    events :=
      [ Event.buildTree WebBrowserEngine.kWebEngineGecko,
        Event.findChild "Search or enter address" ROLE_SYSTEM_TEXT,
        Event.createParser "http://example.org/watch/5" "Show Name Episode 5" ] }

/-- A Gecko window whose active tab is another page while an episode is
tracked; the tab of the episode is still in the tab list. -/
def sampleTrackedWindow : Window :=
  { GetWindowTitle := "Another page - Mozilla Firefox"
    engine := "Gecko"
    current_title := "Show Name Episode 5"
    anime_id := 5
    FromWindow := true
    BuildChildren := fun _ => sampleForest }

/-- The address-bar hints of an engine in the order in which
`InitializeBrowserData` declares them. -/
def engineUiHints : WebBrowserEngine → List BrowserAccessibilityData
  | .kWebEngineWebkit =>
    [ { name := "Address and search bar", role := ROLE_SYSTEM_TEXT },
      { name := "Address and search bar", role := ROLE_SYSTEM_GROUPING },
      { name := "Address", role := ROLE_SYSTEM_GROUPING },
      { name := "Location", role := ROLE_SYSTEM_GROUPING },
      { name := "Address field", role := ROLE_SYSTEM_TEXT } ]
  | .kWebEngineGecko =>
    [ { name := "Search or enter address", role := ROLE_SYSTEM_TEXT },
      { name := "Go to a Website", role := ROLE_SYSTEM_TEXT },
      { name := "Go to a Web Site", role := ROLE_SYSTEM_TEXT } ]
  | .kWebEngineTrident =>
    [ { name := "Address and search using Bing", role := ROLE_SYSTEM_TEXT },
      { name := "Address and search using Google", role := ROLE_SYSTEM_TEXT } ]
  | .kWebEnginePresto => []
  | .kWebEngineUnknown => []

/-- The address element that the block "Find URL" passes on (the value of
`child` at line 266): for Webkit, Gecko and Trident the first non-null search
over the hints of the engine, for Presto the outcome of the chain. -/
def addressElement (ext : Externals) (web_engine : WebBrowserEngine)
    (tree : List AccessibleChild) : Option AccessibleChild :=
  match web_engine with
  | .kWebEngineWebkit =>
    (engineUiHints .kWebEngineWebkit).findSome?
      (fun h => FindAccessibleChild ext h.name h.role tree)
  | .kWebEngineGecko =>
    (engineUiHints .kWebEngineGecko).findSome?
      (fun h => FindAccessibleChild ext h.name h.role tree)
  | .kWebEngineTrident =>
    (engineUiHints .kWebEngineTrident).findSome?
      (fun h => FindAccessibleChild ext h.name h.role tree)
  | .kWebEnginePresto => (GetTitleFromBrowser_presto ext tree).1
  | .kWebEngineUnknown => none

/-- A Gecko forest in which the node of the second hint comes before the node
of the first hint. -/
def sampleHintForest : List AccessibleChild :=
  [ .mk "Go to a Website" ROLE_SYSTEM_TEXT "http://other.net/x" [],
    .mk "Search or enter address" ROLE_SYSTEM_TEXT "http://example.org/watch/5" [] ]

/-- A Gecko window showing `sampleHintForest`, with no tracked episode. -/
def sampleHintWindow : Window :=
  { GetWindowTitle := "Show Name Episode 5"
    engine := "Gecko"
    current_title := ""
    anime_id := 0
    FromWindow := true
    BuildChildren := fun _ => sampleHintForest }

/-- A Presto forest whose client-area node has no children and carries a url
as its value. -/
def samplePrestoForest : List AccessibleChild :=
  [ .mk "Opera" ROLE_SYSTEM_CLIENT "http://example.org/watch/5" [] ]

/-- A Presto window showing `samplePrestoForest`, with no tracked episode. -/
def samplePrestoWindow : Window :=
  { GetWindowTitle := "Show Name Episode 5"
    engine := "Presto"
    current_title := ""
    anime_id := 0
    FromWindow := true
    BuildChildren := fun _ => samplePrestoForest }

/-- The sample provider record, and the same record without the `source`
attribute on its `<title>` node. -/
def sampleXmlProvider : XmlProvider :=
  { name := "Example"
    url := "example.org"
    enabled := 1
    title := some { source := "window_title", pattern := "(.+) Episode" }
    episode_number := some { source := "window_title", pattern := "[0-9]+$" } }

def sampleXmlProviderNoSource : XmlProvider :=
  { sampleXmlProvider with title := some { source := "", pattern := "(.+) Episode" } }

/-- The sample externals with a libcurl that delivers the page of one url and
cannot resolve any other host. -/
def sampleOnlineExternals : Externals :=
  { sampleExternals with
    curl_easy_perform := fun url =>
      if url == "http://example.org/watch/5" then (0, "Show Name Episode 5") else (6, "")
    curl_easy_strerror := fun code =>
      if code == 6 then "Couldn't resolve host name" else "Couldn't connect to server" }

/-- The sample template with both rules reading the page source. -/
def sampleHtmlTemplate : StreamProviderParserPrototype :=
  { sampleTemplate with
    m_episodeTitleParsing :=
      { regexPattern := "(.+) Episode", parseType := ParseSourceType.HtmlSource,
        parsingSource := 0 }
    m_episodeNumberParsing :=
      { regexPattern := "[0-9]+$", parseType := ParseSourceType.HtmlSource,
        parsingSource := 0 } }

/-- The catalog with the page-source template alone. -/
def sampleHtmlHeap : Heap := [sampleHtmlTemplate]

/-- An instance of the page-source template for `http://example.org/watch/5`, as
`createNewInstance` leaves the heap. -/
def sampleHtmlInstanceHeap : Heap :=
  [ { sampleHtmlTemplate with
        m_parsingSource := { url := "http://example.org/watch/5", title := "Some tab" } },
    { sampleHtmlTemplate with
        m_parsingSource := { url := "http://example.org/watch/5", title := "Some tab" } } ]

/-- The sample catalog with its template disabled. -/
def sampleDisabledHeap : Heap := [{ sampleTemplate with m_enabled := 0 }]

/-- A resolver state whose one template supports every url, the empty one
included. -/
def sampleAnyUrlMediaPlayers : MediaPlayers :=
  { sampleMediaPlayers with heap := [{ sampleTemplate with m_regexUrlSupported := ".*" }] }

/-- A Gecko window whose accessibility tree is empty, so that no address
element is found, while another title is held as the current title. -/
def sampleNoAddressWindow : Window :=
  { GetWindowTitle := "Blank page"
    engine := "Gecko"
    current_title := "Show Name Episode 5"
    anime_id := 0
    FromWindow := true
    BuildChildren := fun _ => [] }

/-- The resolver state after the first call on `sampleNoAddressWindow`. -/
def sampleMediaPlayersNoAddress : MediaPlayers :=
  { lastWindowTitle := "Blank page"
    acc_obj_children := []
    browser_data := InitializeBrowserData []
    heap := sampleHeap
    m_streamProviderFactory := sampleFactory
    events :=
      [ Event.buildTree WebBrowserEngine.kWebEngineGecko,
        Event.findChild "Search or enter address" ROLE_SYSTEM_TEXT,
        Event.findChild "Go to a Website" ROLE_SYSTEM_TEXT,
        Event.findChild "Go to a Web Site" ROLE_SYSTEM_TEXT ] }

/-! # Theorems -/

/-! ## Accessibility node search -/

mutual
/-- One loop iteration finds the first matching node among a node and its
descendants. -/
theorem FindAccessibleChild_iteration_eq_find (ext : Externals) (name : String) (role : Nat) :
    ∀ it : AccessibleChild, FindAccessibleChild_iteration ext name role it
      = (preorderNode it).find? (nodeMatches ext name role)
  | .mk n r v cs => by
    have ih := FindAccessibleChild_eq_find ext name role cs
    rw [FindAccessibleChild_iteration, preorderNode, List.find?_cons]
    by_cases h1 : (name.isEmpty || ext.IsEqual name n) = true
    · by_cases h2 : (role == 0 || role == r) = true
      · simp [nodeMatches, AccessibleChild.name, AccessibleChild.role, h1, h2]
      · cases cs with
        | nil =>
          simp [nodeMatches, AccessibleChild.name, AccessibleChild.role, h1, h2,
            FindAccessibleChild, preorder]
        | cons c cs' =>
          simp [nodeMatches, AccessibleChild.name, AccessibleChild.role, h1, h2, ih]
    · cases cs with
      | nil =>
        simp [nodeMatches, AccessibleChild.name, AccessibleChild.role, h1,
          FindAccessibleChild, preorder]
      | cons c cs' => simp [nodeMatches, AccessibleChild.name, AccessibleChild.role, h1, ih]
/-- The search is `List.find?` over the pre-order flattening. -/
theorem FindAccessibleChild_eq_find (ext : Externals) (name : String) (role : Nat) :
    ∀ children : List AccessibleChild, FindAccessibleChild ext name role children
      = (preorder children).find? (nodeMatches ext name role)
  | [] => rfl
  | it :: rest => by
    have h1 := FindAccessibleChild_iteration_eq_find ext name role it
    have h2 := FindAccessibleChild_eq_find ext name role rest
    rw [FindAccessibleChild, preorder, List.find?_append, h1, h2]
    cases List.find? (nodeMatches ext name role) (preorderNode it) <;> simp
end

/-- C7: `FindAccessibleChild` returns the first node of the pre-order depth-first
flattening of the forest that satisfies (name empty or `IsEqual` to the node's
name) and (role 0 or equal to the node's role); whenever the flattening is
`before ++ node :: after` with no match in `before` and `node` matching, the
result is `node`, whatever `after` (which holds the descendants of `node` and
all later nodes) contains. -/
theorem FindAccessibleChild_first_in_preorder (ext : Externals)
    (children : List AccessibleChild) (name : String) (role : Nat) :
    FindAccessibleChild ext name role children
        = (preorder children).find?
            (fun it => (name.isEmpty || ext.IsEqual name it.name) && (role == 0 || role == it.role))
      ∧ ∀ (before : List AccessibleChild) (node : AccessibleChild) (after : List AccessibleChild),
          preorder children = before ++ node :: after →
          (∀ x ∈ before, nodeMatches ext name role x = false) →
          nodeMatches ext name role node = true →
          FindAccessibleChild ext name role children = some node := by
  refine ⟨FindAccessibleChild_eq_find ext name role children, ?_⟩
  intro before node after hflat hbefore hnode
  rw [FindAccessibleChild_eq_find, hflat, List.find?_append]
  have hnone : List.find? (nodeMatches ext name role) before = none := by
    rw [List.find?_eq_none]
    intro x hx
    simp [hbefore x hx]
  simp [hnone, List.find?_cons, hnode]

/-- C7 at a sample forest: the address field inside the toolbar is returned, not
the later node of the same name and role. -/
theorem FindAccessibleChild_first_in_preorder_witness :
    FindAccessibleChild sampleExternals "Search or enter address" ROLE_SYSTEM_TEXT sampleForest
      = some (.mk "Search or enter address" ROLE_SYSTEM_TEXT "http://example.org/watch/5" []) :=
  (FindAccessibleChild_first_in_preorder sampleExternals sampleForest
      "Search or enter address" ROLE_SYSTEM_TEXT).2
    [.mk "Navigation" ROLE_SYSTEM_TOOLBAR ""
      [ .mk "Search or enter address" ROLE_SYSTEM_TEXT "http://example.org/watch/5" [] ]]
    (.mk "Search or enter address" ROLE_SYSTEM_TEXT "http://example.org/watch/5" [])
    [ .mk "Tabs" ROLE_SYSTEM_PAGETABLIST ""
        [ .mk "search OR enter address" ROLE_SYSTEM_TEXT "second" [],
          .mk "Show Name Episode 5" ROLE_SYSTEM_TEXT "" [] ],
      .mk "search OR enter address" ROLE_SYSTEM_TEXT "second" [],
      .mk "Show Name Episode 5" ROLE_SYSTEM_TEXT "" [] ]
    rfl
    (by intro x hx; simp at hx; subst hx; decide)
    (by decide)

/-- C8: the search is a total function of the forest; it returns `none` exactly
when no node of the forest, at any depth, satisfies the name/role test, and a
node it returns is a node of the forest that satisfies the test. -/
theorem FindAccessibleChild_sound_complete (ext : Externals)
    (children : List AccessibleChild) (name : String) (role : Nat) :
    (FindAccessibleChild ext name role children = none
        ↔ ∀ node ∈ preorder children, nodeMatches ext name role node = false)
      ∧ ∀ node : AccessibleChild, FindAccessibleChild ext name role children = some node →
          node ∈ preorder children ∧ nodeMatches ext name role node = true := by
  rw [FindAccessibleChild_eq_find]
  constructor
  · rw [List.find?_eq_none]
    simp
  · intro node h
    exact ⟨List.mem_of_find?_eq_some h, List.find?_some h⟩

/-- C8 at a sample forest: a search that returns a node returns a matching node
of the forest. -/
theorem FindAccessibleChild_sound_complete_witness :
    (.mk "Tabs" ROLE_SYSTEM_PAGETABLIST ""
        [ .mk "search OR enter address" ROLE_SYSTEM_TEXT "second" [],
          .mk "Show Name Episode 5" ROLE_SYSTEM_TEXT "" [] ] : AccessibleChild)
        ∈ preorder sampleForest
      ∧ nodeMatches sampleExternals "" ROLE_SYSTEM_PAGETABLIST
          (.mk "Tabs" ROLE_SYSTEM_PAGETABLIST ""
            [ .mk "search OR enter address" ROLE_SYSTEM_TEXT "second" [],
              .mk "Show Name Episode 5" ROLE_SYSTEM_TEXT "" [] ]) = true :=
  (FindAccessibleChild_sound_complete sampleExternals sampleForest "" ROLE_SYSTEM_PAGETABLIST).2
    _ rfl

/-! ## Engine traversal policy -/

/-- C9: the traversal policy table.  Unknown: never; Webkit: exactly the roles
CLIENT, GROUPING, PAGETABLIST, TEXT, TOOLBAR, WINDOW; Gecko: exactly APPLICATION,
COMBOBOX, PAGETABLIST, TOOLBAR (so DOCUMENT is rejected); Trident: all but PANE
and SCROLLBAR; Presto: all but DOCUMENT and PANE. -/
theorem AllowChildTraverse_policy_table (child : AccessibleChild) :
    AllowChildTraverse child WebBrowserEngine.kWebEngineUnknown.toInt = false
      ∧ (AllowChildTraverse child WebBrowserEngine.kWebEngineWebkit.toInt = true
          ↔ child.role ∈ [ROLE_SYSTEM_CLIENT, ROLE_SYSTEM_GROUPING, ROLE_SYSTEM_PAGETABLIST,
              ROLE_SYSTEM_TEXT, ROLE_SYSTEM_TOOLBAR, ROLE_SYSTEM_WINDOW])
      ∧ (AllowChildTraverse child WebBrowserEngine.kWebEngineGecko.toInt = true
          ↔ child.role ∈ [ROLE_SYSTEM_APPLICATION, ROLE_SYSTEM_COMBOBOX,
              ROLE_SYSTEM_PAGETABLIST, ROLE_SYSTEM_TOOLBAR])
      ∧ (child.role = ROLE_SYSTEM_DOCUMENT →
          AllowChildTraverse child WebBrowserEngine.kWebEngineGecko.toInt = false)
      ∧ (AllowChildTraverse child WebBrowserEngine.kWebEngineTrident.toInt = false
          ↔ child.role = ROLE_SYSTEM_PANE ∨ child.role = ROLE_SYSTEM_SCROLLBAR)
      ∧ (AllowChildTraverse child WebBrowserEngine.kWebEnginePresto.toInt = false
          ↔ child.role = ROLE_SYSTEM_DOCUMENT ∨ child.role = ROLE_SYSTEM_PANE) := by
  refine ⟨?_, ?_, ?_, ?_, ?_, ?_⟩
  · simp [AllowChildTraverse]
  · simp [AllowChildTraverse, WebBrowserEngine.toInt]
  · simp [AllowChildTraverse, WebBrowserEngine.toInt]
  · intro h
    simp [AllowChildTraverse, WebBrowserEngine.toInt, h, ROLE_SYSTEM_DOCUMENT,
      ROLE_SYSTEM_APPLICATION, ROLE_SYSTEM_COMBOBOX, ROLE_SYSTEM_PAGETABLIST, ROLE_SYSTEM_TOOLBAR]
  · simp only [AllowChildTraverse, WebBrowserEngine.toInt]
    by_cases h : child.role = ROLE_SYSTEM_PANE ∨ child.role = ROLE_SYSTEM_SCROLLBAR <;> simp [h]
  · simp only [AllowChildTraverse, WebBrowserEngine.toInt]
    by_cases h : child.role = ROLE_SYSTEM_DOCUMENT ∨ child.role = ROLE_SYSTEM_PANE <;> simp [h]

/-- C9 at a sample node: a DOCUMENT node is not traversed under Gecko. -/
theorem AllowChildTraverse_policy_table_witness :
    AllowChildTraverse (.mk "page" ROLE_SYSTEM_DOCUMENT "" [])
      WebBrowserEngine.kWebEngineGecko.toInt = false :=
  (AllowChildTraverse_policy_table (.mk "page" ROLE_SYSTEM_DOCUMENT "" [])).2.2.2.1 rfl

/-! ## Heap operations -/

theorem Heap.modifyObject_some (heap : Heap) (p : Nat)
    (f : StreamProviderParserPrototype → StreamProviderParserPrototype)
    (hwf : heap.WF) (hp : p < heap.length) (hf : KeepsRefs f) :
    ∃ heap' : Heap, heap.modifyObject p f = some heap' ∧ heap'.WF
      ∧ heap'.length = heap.length := by
  refine ⟨heap.set p (f heap[p]), ?_, ?_, by simp⟩
  · simp [Heap.modifyObject, List.getElem?_eq_getElem hp]
  · intro o ho
    rw [List.length_set]
    rcases List.mem_or_eq_of_mem_set ho with h | h
    · exact hwf o h
    · subst h
      rw [(hf heap[p]).1, (hf heap[p]).2]
      exact hwf _ (List.getElem_mem hp)

theorem Heap.readElement_some (heap : Heap) (p : Nat) (m : ElementMember)
    (hwf : heap.WF) (hp : p < heap.length) :
    ∃ e : ParsingElement, heap.readElement p m = some e ∧ e.parsingSource < heap.length := by
  refine ⟨heap[p].element m, ?_, ?_⟩
  · simp [Heap.readElement, List.getElem?_eq_getElem hp]
  · have := hwf _ (List.getElem_mem hp)
    cases m
    · exact this.1
    · exact this.2

theorem Heap.readSource_some (heap : Heap) (r : Nat) (hr : r < heap.length) :
    ∃ v : ParsingSource, heap.readSource r = some v :=
  ⟨heap[r].m_parsingSource, by simp [Heap.readSource, List.getElem?_eq_getElem hr]⟩

theorem keepsRefs_source (v : ParsingSource) :
    KeepsRefs (fun o => { o with m_parsingSource := v }) :=
  fun _ => ⟨rfl, rfl⟩

theorem keepsRefs_modifyElement (g : ParsingElement → ParsingElement) (m : ElementMember)
    (hg : ∀ e, (g e).parsingSource = e.parsingSource) :
    KeepsRefs (fun obj => obj.modifyElement g m) := by
  intro o
  cases m <;> simp [StreamProviderParserPrototype.modifyElement, hg]

theorem Heap.writeSource_some (heap : Heap) (r : Nat) (v : ParsingSource)
    (hwf : heap.WF) (hr : r < heap.length) :
    ∃ heap' : Heap, heap.writeSource r v = some heap' ∧ heap'.WF
      ∧ heap'.length = heap.length :=
  Heap.modifyObject_some heap r _ hwf hr (keepsRefs_source v)

theorem ParsingElement.assign_some (heap : Heap) (this other : Nat × ElementMember)
    (hwf : heap.WF) (h1 : this.1 < heap.length) (h2 : other.1 < heap.length) :
    ∃ heap' : Heap, ParsingElement.assign heap this other = some heap' ∧ heap'.WF
      ∧ heap'.length = heap.length := by
  unfold ParsingElement.assign
  split
  · exact ⟨heap, rfl, hwf, rfl⟩
  · obtain ⟨o, ho, _⟩ := Heap.readElement_some heap other.1 other.2 hwf h2
    obtain ⟨ha, ea, wa, la⟩ := Heap.modifyObject_some heap this.1
      (fun obj => obj.modifyElement (fun e => { e with parseType := o.parseType }) this.2) hwf h1
      (keepsRefs_modifyElement _ _ (fun _ => rfl))
    obtain ⟨o', ho', _⟩ := Heap.readElement_some ha other.1 other.2 wa (by omega)
    obtain ⟨hb, eb, wb, lb⟩ := Heap.modifyObject_some ha this.1
      (fun obj => obj.modifyElement (fun e => { e with regexPattern := o'.regexPattern }) this.2)
      wa (by omega) (keepsRefs_modifyElement _ _ (fun _ => rfl))
    obtain ⟨t, ht, htr⟩ := Heap.readElement_some hb this.1 this.2 wb (by omega)
    obtain ⟨o'', ho'', hor⟩ := Heap.readElement_some hb other.1 other.2 wb (by omega)
    obtain ⟨v, hv⟩ := Heap.readSource_some hb o''.parsingSource hor
    obtain ⟨hc, ec, wc, lc⟩ := Heap.writeSource_some hb t.parsingSource v wb htr
    refine ⟨hc, ?_, wc, by omega⟩
    simp [ho, ea, ho', eb, ht, ho'', hv, ec]

theorem assignOwnSource_some (heap : Heap) (newInstance : Nat) (m : ElementMember)
    (hwf : heap.WF) (h1 : newInstance < heap.length) :
    ∃ heap' : Heap, assignOwnSource heap newInstance m = some heap' ∧ heap'.WF
      ∧ heap'.length = heap.length := by
  obtain ⟨e, he, her⟩ := Heap.readElement_some heap newInstance m hwf h1
  obtain ⟨v, hv⟩ := Heap.readSource_some heap newInstance h1
  obtain ⟨hc, ec, wc, lc⟩ := Heap.writeSource_some heap e.parsingSource v hwf her
  exact ⟨hc, by simp [assignOwnSource, he, hv, ec], wc, lc⟩

theorem Heap.WF_append (heap : Heap) (self : StreamProviderParserPrototype)
    (hwf : heap.WF) (hself : self ∈ heap) : Heap.WF (heap ++ [self]) := by
  intro o ho
  rw [List.length_append]
  rcases List.mem_append.mp ho with h | h
  · have := hwf o h
    constructor <;> omega
  · simp at h
    subst h
    have := hwf o hself
    constructor <;> omega

/-- In a well-formed heap `createNewInstance` on an allocated object returns: it
allocates exactly one object, at the next free address. -/
theorem createNewInstance_some (heap : Heap) (this : Nat) (url title : String)
    (hwf : heap.WF) (hp : this < heap.length) :
    ∃ heap' : Heap, createNewInstance heap this url title = some (heap', heap.length)
      ∧ heap'.WF ∧ heap'.length = heap.length + 1 := by
  have hw0 := Heap.WF_append heap heap[this] hwf (List.getElem_mem hp)
  have hl0 : (heap ++ [heap[this]]).length = heap.length + 1 := by simp
  obtain ⟨ha, ea, wa, la⟩ := Heap.modifyObject_some (heap ++ [heap[this]]) heap.length
    (fun o => { o with m_parsingSource := { o.m_parsingSource with url := url } })
    hw0 (by omega) (fun _ => ⟨rfl, rfl⟩)
  obtain ⟨hb, eb, wb, lb⟩ := Heap.modifyObject_some ha heap.length
    (fun o => { o with m_parsingSource := { o.m_parsingSource with title := title } })
    wa (by omega) (fun _ => ⟨rfl, rfl⟩)
  obtain ⟨hc, ec, wc, lc⟩ := ParsingElement.assign_some hb
    (heap.length, .m_episodeTitleParsing) (this, .m_episodeTitleParsing) wb
    (by simp; omega) (by simp; omega)
  obtain ⟨hd, ed, wd, ld⟩ := assignOwnSource_some hc heap.length .m_episodeTitleParsing wc
    (by omega)
  obtain ⟨he, ee, we, le⟩ := ParsingElement.assign_some hd
    (heap.length, .m_episodeNumberParsing) (this, .m_episodeNumberParsing) wd
    (by simp; omega) (by simp; omega)
  obtain ⟨hf, ef, wf, lf⟩ := assignOwnSource_some he heap.length .m_episodeNumberParsing we
    (by omega)
  refine ⟨hf, ?_, wf, by omega⟩
  simp [createNewInstance, List.getElem?_eq_getElem hp, ea, eb, ec, ed, ee, ef]

/-- What `createNewInstance` does on an object whose parsing elements are bound to
its own `m_parsingSource` (every object made by the default constructor is such
an object): the assignments of lines 81 and 83 go through the references copied
from the original, so they store `(url, title)` in the ORIGINAL object, and the
new object is a copy whose elements are still bound to the original. -/
theorem createNewInstance_self_bound (heap : Heap) (this : Nat) (url title : String)
    (T : StreamProviderParserPrototype) (hT : heap[this]? = some T)
    (h1 : T.m_episodeTitleParsing.parsingSource = this)
    (h2 : T.m_episodeNumberParsing.parsingSource = this) :
    createNewInstance heap this url title
      = some (heap.set this { T with m_parsingSource := { url := url, title := title } }
                ++ [{ T with m_parsingSource := { url := url, title := title } }],
              heap.length) := by
  have hp : this < heap.length := by
    rcases List.getElem?_eq_some_iff.mp hT with ⟨h, _⟩
    exact h
  have hne : heap.length ≠ this := by omega
  have hne2 : this ≠ heap.length := by omega
  simp [createNewInstance, hT, ParsingElement.assign, hne, hne2, hp,
    Heap.readElement, Heap.modifyObject, List.getElem?_append, List.set_append,
    List.getElem?_set, List.length_set,
    StreamProviderParserPrototype.element, StreamProviderParserPrototype.modifyElement,
    Heap.readSource, Heap.writeSource, h1, h2, assignOwnSource]
  constructor
  · rw [← h1]
  · rw [← h2]

/-- The sample heap and catalog are what the calls made by `loadPrototypes` for
one provider record produce, starting from nothing. -/
theorem sampleHeap_loaded :
    (do
      let r := Heap.newPrototype []
      let heap ← setHumanReadableName r.1 r.2 "Example"
      let heap ← setRegexUrlSupported heap r.2 "example.org"
      let heap ← setEnabled heap r.2 1
      let factory := addStreamProviderParserPrototype
        { m_streamProvidersParsersPrototypes := [] } r.2
      let heap ← setEpisodeTitleParsing heap r.2 "(.+) Episode" ParseSourceType.WindowTitle
      let heap ← setEpisodeNumberParsing heap r.2 "[0-9]+$" ParseSourceType.WindowTitle
      some (heap, factory))
      = some (sampleHeap, sampleFactory) := by
  decide

theorem sampleHeap_WF : sampleHeap.WF := by
  intro o ho
  simp [sampleHeap] at ho
  subst ho
  decide

/-! ## Provider rule model -/

/-- C1 (the code departs from the claim): two instances of one template are not
isolated.  On the sample template, the first instance resolves
`"Show A Episode 1"` right after its creation; once a second instance has been
created for another window, the FIRST instance resolves the second window's
title `"Show B Episode 2"`. -/
theorem createNewInstance_second_instance_changes_first :
    ∃ heap1 heap2 : Heap,
      createNewInstance sampleHeap 0 "http://example.org/a" "Show A Episode 1"
          = some (heap1, 1)
        ∧ parseTitle sampleExternals heap1 1 = some (.ok "Show A Episode 1", [])
        ∧ createNewInstance heap1 0 "http://example.org/b" "Show B Episode 2"
          = some (heap2, 2)
        ∧ parseTitle sampleExternals heap2 1 = some (.ok "Show B Episode 2", [])
        ∧ parseTitle sampleExternals heap2 2 = some (.ok "Show B Episode 2", []) :=
  ⟨_, _, rfl, rfl, rfl, rfl, rfl⟩

/-- C2 (the code departs from the claim): a resolution writes into the template.
The sample template holds the unset source `(INVALID, INVALID)` after loading;
after `createStreamProviderParser` has matched it, the template's own
`m_parsingSource` is the `(url, title)` of the request. -/
theorem createStreamProviderParser_mutates_template :
    (sampleHeap[0]?).map (fun T => T.m_parsingSource) = some ParsingSource.ctor
      ∧ ∃ heap' : Heap,
          createStreamProviderParser sampleExternals sampleHeap sampleFactory
              "http://example.org/a" "Show A Episode 1"
            = some (heap', StreamProviderParserRaii.ctor (some 1))
          ∧ (heap'[0]?).map (fun T => T.m_parsingSource)
            = some { url := "http://example.org/a", title := "Show A Episode 1" } :=
  ⟨by decide, _, rfl, by decide⟩

/-! ## Provider factory -/

theorem supportsUrl_some (ext : Externals) (heap : Heap) (this : Nat) (url : String)
    (hp : this < heap.length) : ∃ b : Bool, supportsUrl ext heap this url = some b :=
  ⟨ext.SearchRegex url heap[this].m_regexUrlSupported,
    by simp [supportsUrl, List.getElem?_eq_getElem hp]⟩

/-- When no remaining template supports the url the loop ends with a null
`newParser` and an untouched heap. -/
theorem createStreamProviderParser_loop_none (ext : Externals) (heap : Heap)
    (url title : String) (l : List Nat)
    (h : ∀ p ∈ l, supportsUrl ext heap p url = some false) :
    createStreamProviderParser_loop ext heap url title l = some (heap, none) := by
  induction l with
  | nil => rfl
  | cons p rest ih =>
    rw [createStreamProviderParser_loop, h p (List.mem_cons_self _ _)]
    exact ih (fun q hq => h q (List.mem_cons_of_mem _ hq))

/-- The loop instantiates the template at the smallest index that supports the
url, and nothing else. -/
theorem createStreamProviderParser_loop_first (ext : Externals) (heap : Heap)
    (url title : String) (l : List Nat) (hwf : heap.WF) (hvalid : ∀ p ∈ l, p < heap.length)
    (hex : ∃ p ∈ l, supportsUrl ext heap p url = some true) :
    ∃ (i : Nat) (prototype : Nat) (heap' : Heap),
      l[i]? = some prototype
        ∧ supportsUrl ext heap prototype url = some true
        ∧ (∀ (j : Nat) (earlier : Nat), j < i → l[j]? = some earlier →
            supportsUrl ext heap earlier url = some false)
        ∧ createNewInstance heap prototype url title = some (heap', heap.length)
        ∧ createStreamProviderParser_loop ext heap url title l
            = some (heap', some heap.length)
        ∧ heap'.length = heap.length + 1 := by
  induction l with
  | nil =>
    obtain ⟨p, hp, _⟩ := hex
    exact absurd hp (List.not_mem_nil p)
  | cons p rest ih =>
    obtain ⟨b, hb⟩ := supportsUrl_some ext heap p url (hvalid p (List.mem_cons_self _ _))
    cases b with
    | true =>
      obtain ⟨heap', hc, _, hl⟩ := createNewInstance_some heap p url title hwf
        (hvalid p (List.mem_cons_self _ _))
      refine ⟨0, p, heap', by simp, hb, ?_, hc, ?_, hl⟩
      · intro j earlier hj
        omega
      · simp [createStreamProviderParser_loop, hb, hc]
    | false =>
      have hex' : ∃ q ∈ rest, supportsUrl ext heap q url = some true := by
        obtain ⟨q, hq, hs⟩ := hex
        rcases List.mem_cons.mp hq with h | h
        · subst h
          rw [hb] at hs
          simp at hs
        · exact ⟨q, h, hs⟩
      obtain ⟨i, q, heap', h0, h1, h2, h3, h4, h5⟩ :=
        ih (fun q hq => hvalid q (List.mem_cons_of_mem _ hq)) hex'
      refine ⟨i + 1, q, heap', by simpa using h0, h1, ?_, h3, ?_, h5⟩
      · intro j earlier hj hje
        cases j with
        | zero =>
          simp at hje
          subst hje
          exact hb
        | succ k => exact h2 k earlier (by omega) (by simpa using hje)
      · simp [createStreamProviderParser_loop, hb, h4]

/-- C3: catalog matching is order-sensitive, first match wins.  In a well-formed
heap, when some template of the catalog supports the url,
`createStreamProviderParser` returns the instance that `createNewInstance`
makes from the template with the smallest declaration index whose `supportsUrl`
is true; every earlier template does not support the url, and exactly one
object is allocated, so no later template is instantiated. -/
theorem createStreamProviderParser_first_match (ext : Externals) (heap : Heap)
    (factory : StreamProviderParserFactory) (url title : String) (hwf : heap.WF)
    (hvalid : ∀ p ∈ factory.m_streamProvidersParsersPrototypes, p < heap.length)
    (hex : ∃ p ∈ factory.m_streamProvidersParsersPrototypes,
      supportsUrl ext heap p url = some true) :
    ∃ (i : Nat) (prototype : Nat) (heap' : Heap),
      factory.m_streamProvidersParsersPrototypes[i]? = some prototype
        ∧ supportsUrl ext heap prototype url = some true
        ∧ (∀ (j : Nat) (earlier : Nat), j < i →
            factory.m_streamProvidersParsersPrototypes[j]? = some earlier →
            supportsUrl ext heap earlier url = some false)
        ∧ createNewInstance heap prototype url title = some (heap', heap.length)
        ∧ createStreamProviderParser ext heap factory url title
            = some (heap', StreamProviderParserRaii.ctor (some heap.length))
        ∧ heap'.length = heap.length + 1 := by
  obtain ⟨i, q, heap', h0, h1, h2, h3, h4, h5⟩ :=
    createStreamProviderParser_loop_first ext heap url title _ hwf hvalid hex
  exact ⟨i, q, heap', h0, h1, h2, h3, by simp [createStreamProviderParser, h4], h5⟩

theorem sampleHeap2_WF : sampleHeap2.WF := by
  intro o ho
  simp [sampleHeap2] at ho
  rcases ho with h | h <;> subst h <;> decide

/-- C3 at a catalog of two templates that both support the url: an instance is
returned and one object is allocated. -/
theorem createStreamProviderParser_first_match_witness :
    ∃ (i : Nat) (prototype : Nat) (heap' : Heap),
      ({ m_streamProvidersParsersPrototypes := [0, 1] } :
          StreamProviderParserFactory).m_streamProvidersParsersPrototypes[i]? = some prototype
        ∧ supportsUrl sampleExternals sampleHeap2 prototype "http://example.org/a" = some true
        ∧ (∀ (j : Nat) (earlier : Nat), j < i →
            ({ m_streamProvidersParsersPrototypes := [0, 1] } :
              StreamProviderParserFactory).m_streamProvidersParsersPrototypes[j]? = some earlier →
            supportsUrl sampleExternals sampleHeap2 earlier "http://example.org/a" = some false)
        ∧ createNewInstance sampleHeap2 prototype "http://example.org/a" "Show A Episode 1"
            = some (heap', sampleHeap2.length)
        ∧ createStreamProviderParser sampleExternals sampleHeap2
              { m_streamProvidersParsersPrototypes := [0, 1] }
              "http://example.org/a" "Show A Episode 1"
            = some (heap', StreamProviderParserRaii.ctor (some sampleHeap2.length))
        ∧ heap'.length = sampleHeap2.length + 1 :=
  createStreamProviderParser_first_match sampleExternals sampleHeap2
    { m_streamProvidersParsersPrototypes := [0, 1] } "http://example.org/a" "Show A Episode 1"
    sampleHeap2_WF
    (by intro p hp; simp at hp; rcases hp with h | h <;> subst h <;> decide)
    ⟨1, by simp, by decide⟩

/-- C4: no provider match is an empty result, not an error.  In a well-formed
heap `createStreamProviderParser` returns, and the handle is null exactly when
no template of the catalog supports the url (so always for the empty catalog);
with a null handle `GetTitleFromStreamingMediaProvider` returns the empty
string, without throwing and without touching the heap. -/
theorem createStreamProviderParser_null_iff_no_match (ext : Externals) (mp : MediaPlayers)
    (url title : String) (hwf : mp.heap.WF)
    (hvalid : ∀ p ∈ mp.m_streamProviderFactory.m_streamProvidersParsersPrototypes,
      p < mp.heap.length) :
    ∃ (heap' : Heap) (parser : StreamProviderParserRaii),
      createStreamProviderParser ext mp.heap mp.m_streamProviderFactory url title
          = some (heap', parser)
        ∧ (parser.m_parserPointer = none
            ↔ ∀ p ∈ mp.m_streamProviderFactory.m_streamProvidersParsersPrototypes,
                supportsUrl ext mp.heap p url = some false)
        ∧ (mp.m_streamProviderFactory.m_streamProvidersParsersPrototypes = [] →
            parser.m_parserPointer = none)
        ∧ (parser.m_parserPointer = none →
            ∃ mp' : MediaPlayers,
              GetTitleFromStreamingMediaProvider ext mp url title = some (.ok "", mp')
                ∧ mp'.heap = mp.heap) := by
  by_cases hex : ∃ p ∈ mp.m_streamProviderFactory.m_streamProvidersParsersPrototypes,
      supportsUrl ext mp.heap p url = some true
  · obtain ⟨i, q, heap', h0, h1, _, _, hloop, _⟩ :=
      createStreamProviderParser_loop_first ext mp.heap url title
        mp.m_streamProviderFactory.m_streamProvidersParsersPrototypes hwf hvalid hex
    have h4 : createStreamProviderParser ext mp.heap mp.m_streamProviderFactory url title
        = some (heap', StreamProviderParserRaii.ctor (some mp.heap.length)) := by
      simp [createStreamProviderParser, hloop]
    refine ⟨heap', _, h4, ?_, ?_, ?_⟩
    · constructor
      · intro h
        simp [StreamProviderParserRaii.ctor] at h
      · intro h
        have := h q (List.getElem?_mem h0)
        rw [h1] at this
        simp at this
    · intro h
      rw [h] at h0
      simp at h0
    · intro h
      simp [StreamProviderParserRaii.ctor] at h
  · have hall : ∀ p ∈ mp.m_streamProviderFactory.m_streamProvidersParsersPrototypes,
        supportsUrl ext mp.heap p url = some false := by
      intro p hp
      obtain ⟨b, hb⟩ := supportsUrl_some ext mp.heap p url (hvalid p hp)
      cases b with
      | true => exact absurd ⟨p, hp, hb⟩ hex
      | false => exact hb
    have hloop := createStreamProviderParser_loop_none ext mp.heap url title _ hall
    have hcreate : createStreamProviderParser ext mp.heap mp.m_streamProviderFactory url title
        = some (mp.heap, StreamProviderParserRaii.ctor none) := by
      simp [createStreamProviderParser, hloop]
    refine ⟨mp.heap, _, hcreate, ?_, ?_, ?_⟩
    · constructor
      · intro _
        exact hall
      · intro _
        rfl
    · intro _
      rfl
    · intro _
      unfold GetTitleFromStreamingMediaProvider
      split
      · exact ⟨mp, rfl, rfl⟩
      · simp only [hcreate]
        exact ⟨_, rfl, rfl⟩

/-- C4 at the sample catalog and a url that its template does not support. -/
theorem createStreamProviderParser_null_iff_no_match_witness :
    ∃ (heap' : Heap) (parser : StreamProviderParserRaii),
      createStreamProviderParser sampleExternals sampleMediaPlayers.heap
          sampleMediaPlayers.m_streamProviderFactory "http://other.net/x" "Some page"
          = some (heap', parser)
        ∧ (parser.m_parserPointer = none
            ↔ ∀ p ∈ sampleMediaPlayers.m_streamProviderFactory.m_streamProvidersParsersPrototypes,
                supportsUrl sampleExternals sampleMediaPlayers.heap p "http://other.net/x"
                  = some false)
        ∧ (sampleMediaPlayers.m_streamProviderFactory.m_streamProvidersParsersPrototypes = [] →
            parser.m_parserPointer = none)
        ∧ (parser.m_parserPointer = none →
            ∃ mp' : MediaPlayers,
              GetTitleFromStreamingMediaProvider sampleExternals sampleMediaPlayers
                  "http://other.net/x" "Some page" = some (.ok "", mp')
                ∧ mp'.heap = sampleMediaPlayers.heap) :=
  createStreamProviderParser_null_iff_no_match sampleExternals sampleMediaPlayers
    "http://other.net/x" "Some page" sampleHeap_WF
    (by intro p hp; simp [sampleMediaPlayers, sampleFactory] at hp; subst hp; decide)

theorem string_isEmpty_iff (s : String) : s.isEmpty = true ↔ s = "" := by
  constructor
  · intro h
    have h1 : s.utf8ByteSize = 0 := by
      simpa [String.isEmpty, String.endPos, String.Pos.ext_iff] using h
    cases s with
    | mk data =>
      cases data with
      | nil => rfl
      | cons c cs =>
        exfalso
        simp [String.utf8ByteSize, String.utf8ByteSize.go] at h1
        have := Char.utf8Size_pos c
        omega
  · intro h
    subst h
    rfl

/-- C5: `parseTitle` composition.  With `t` the value of the title rule and `n`
the value of the episode-number rule, `parseTitle()` is `t` when `n` is empty
and `t ++ " Episode " ++ n` otherwise; so `"Show Name"` and `"5"` give exactly
`"Show Name Episode 5"`. -/
theorem parseTitle_composition (ext : Externals) (heap : Heap) (this : Nat)
    (self : StreamProviderParserPrototype) (t n : String) (fetched1 fetched2 : List String)
    (hself : heap[this]? = some self)
    (ht : self.m_episodeTitleParsing.call ext heap = some (.ok t, fetched1))
    (hn : self.m_episodeNumberParsing.call ext heap = some (.ok n, fetched2)) :
    (n = "" → parseTitle ext heap this = some (.ok t, fetched1 ++ fetched2))
      ∧ (n ≠ "" →
          parseTitle ext heap this = some (.ok (t ++ " Episode " ++ n), fetched1 ++ fetched2))
      ∧ (t = "Show Name" → n = "5" →
          parseTitle ext heap this = some (.ok "Show Name Episode 5", fetched1 ++ fetched2)) := by
  have key : parseTitle ext heap this
      = some (.ok (if !n.isEmpty then t ++ (" Episode " ++ n) else t), fetched1 ++ fetched2) := by
    simp [parseTitle, hself, ht, hn]
  refine ⟨?_, ?_, ?_⟩
  · intro h
    subst h
    rw [key]
    rfl
  · intro h
    have h' : n.isEmpty = false := by
      cases hb : n.isEmpty with
      | false => rfl
      | true => exact absurd ((string_isEmpty_iff n).mp hb) h
    rw [key]
    simp [h', String.append_assoc]
  · intro h1 h2
    subst h1
    subst h2
    rw [key]
    rfl

/-- C5 at an instance whose window title is `"Show Name Episode 5"`: the title
rule gives `"Show Name"`, the episode rule gives `"5"`. -/
theorem parseTitle_composition_witness :
    parseTitle sampleExternals sampleInstanceHeap 1 = some (.ok "Show Name Episode 5", []) :=
  (parseTitle_composition sampleExternals sampleInstanceHeap 1
    { sampleTemplate with
        m_parsingSource := { url := "http://example.org/watch/5", title := "Show Name Episode 5" } }
    "Show Name" "5" [] [] rfl rfl rfl).2.2 rfl rfl

/-- C6: an invalid rule evaluates to the empty string.  An element whose source
type is Invalid or whose pattern is the unset sentinel returns `""` for every
heap (every bound url and title) and every behaviour of the externals (every
page content), throws nothing and fetches nothing; the elements of a
default-constructed prototype are such elements. -/
theorem ParsingElement_invalid_call (ext : Externals) (heap : Heap) (e : ParsingElement)
    (h : e.parseType = ParseSourceType.Invalid ∨ e.regexPattern = INVALID) :
    e.call ext heap = some (.ok "", [])
      ∧ (∀ parsingSource : Nat,
          (ParsingElement.ctor parsingSource).call ext heap = some (.ok "", []))
      ∧ (∀ this : Nat,
          (StreamProviderParserPrototype.ctor this).m_episodeTitleParsing.call ext heap
              = some (.ok "", [])
            ∧ (StreamProviderParserPrototype.ctor this).m_episodeNumberParsing.call ext heap
              = some (.ok "", [])) := by
  refine ⟨?_, ?_, ?_⟩
  · rcases h with h | h <;> simp [ParsingElement.call, ParsingElement.isValid, h]
  · intro r
    simp [ParsingElement.call, ParsingElement.isValid, ParsingElement.ctor]
  · intro p
    simp [ParsingElement.call, ParsingElement.isValid, ParsingElement.ctor,
      StreamProviderParserPrototype.ctor]

/-- C6 at a rule with a url pattern but an Invalid source type, bound to a
dangling reference, and at a rule with a source type but no pattern. -/
theorem ParsingElement_invalid_call_witness :
    ParsingElement.call sampleExternals sampleInstanceHeap
        { regexPattern := "(.*)", parseType := ParseSourceType.Invalid, parsingSource := 7 }
        = some (.ok "", [])
      ∧ ParsingElement.call sampleExternals sampleInstanceHeap
        { regexPattern := INVALID, parseType := ParseSourceType.HtmlSource, parsingSource := 0 }
        = some (.ok "", []) :=
  ⟨(ParsingElement_invalid_call sampleExternals sampleInstanceHeap
      { regexPattern := "(.*)", parseType := ParseSourceType.Invalid, parsingSource := 7 }
      (Or.inl rfl)).1,
   (ParsingElement_invalid_call sampleExternals sampleInstanceHeap
      { regexPattern := INVALID, parseType := ParseSourceType.HtmlSource, parsingSource := 0 }
      (Or.inr rfl)).1⟩

/-! ## Browser title resolver -/

theorem GetTitleFromStreamingMediaProvider_lastWindowTitle (ext : Externals) (mp : MediaPlayers)
    (url title : String) (r : Except String String) (mp' : MediaPlayers)
    (h : GetTitleFromStreamingMediaProvider ext mp url title = some (r, mp')) :
    mp'.lastWindowTitle = mp.lastWindowTitle := by
  unfold GetTitleFromStreamingMediaProvider at h
  dsimp only at h
  split at h
  · simp only [Option.some.injEq, Prod.mk.injEq] at h
    rw [← h.2]
  · split at h
    · simp at h
    · split at h
      · split at h
        · simp at h
        · simp only [Option.some.injEq, Prod.mk.injEq] at h
          rw [← h.2]
      · simp only [Option.some.injEq, Prod.mk.injEq] at h
        rw [← h.2]

theorem GetTitleFromBrowser_checkOtherTabs_lastWindowTitle (ext : Externals) (mp : MediaPlayers)
    (hwnd : Window) (web_engine : WebBrowserEngine) :
    (GetTitleFromBrowser_checkOtherTabs ext mp hwnd web_engine).2.lastWindowTitle
      = mp.lastWindowTitle := by
  unfold GetTitleFromBrowser_checkOtherTabs
  cases web_engine <;> dsimp only <;> (try split) <;> (try split)
  all_goals rfl

theorem GetTitleFromBrowser_findUrl_lastWindowTitle (ext : Externals) (mp : MediaPlayers)
    (hwnd : Window) (web_engine : WebBrowserEngine) (r : Except String String)
    (mp' : MediaPlayers) (h : GetTitleFromBrowser_findUrl ext mp hwnd web_engine = some (r, mp')) :
    mp'.lastWindowTitle = mp.lastWindowTitle := by
  unfold GetTitleFromBrowser_findUrl at h
  cases web_engine <;> dsimp only at h
  · simp only [Option.some.injEq, Prod.mk.injEq] at h
    rw [← h.2]
  all_goals
    split at h
    · rename_i heq
      have h2 := GetTitleFromStreamingMediaProvider_lastWindowTitle _ _ _ _ _ _ h
      rw [h2]
      simp only [Prod.mk.injEq] at heq
      rw [← heq.2]
    · rename_i heq
      simp only [Option.some.injEq, Prod.mk.injEq] at h
      rw [← h.2]
      simp only [Prod.mk.injEq] at heq
      rw [← heq.2]

/-- After a call that returns or throws, the memoized `lastWindowTitle` is the
window title read by that call. -/
theorem GetTitleFromBrowser_lastWindowTitle (ext : Externals) (mp : MediaPlayers)
    (hwnd : Window) (r : Except String String) (mp' : MediaPlayers)
    (h : GetTitleFromBrowser ext mp hwnd = some (r, mp')) :
    mp'.lastWindowTitle = hwnd.GetWindowTitle := by
  unfold GetTitleFromBrowser at h
  dsimp only at h
  split at h
  · rename_i heq
    simp only [Option.some.injEq, Prod.mk.injEq] at h
    rw [← h.2, heq]
  · split at h
    · simp only [Option.some.injEq, Prod.mk.injEq] at h
      rw [← h.2]
    · split at h
      · simp only [Option.some.injEq] at h
        have h3 := congrArg (fun x : Except String String × MediaPlayers => x.2.lastWindowTitle) h
        dsimp only at h3
        rw [GetTitleFromBrowser_checkOtherTabs_lastWindowTitle] at h3
        rw [← h3]
        split <;> rfl
      · rw [GetTitleFromBrowser_findUrl_lastWindowTitle _ _ _ _ _ _ h]
        split <;> rfl

/-- C10 (as stated, refuted): two consecutive calls on a window whose title is
the same need not return the same title.  The first call (window title changed,
engine name unknown) returns the empty string; the second call returns the
current title held outside the function, `"Show Name Episode 5"`. -/
theorem GetTitleFromBrowser_debounce_counterexample :
    ∃ mp1 : MediaPlayers,
      GetTitleFromBrowser sampleExternals sampleMediaPlayers sampleUnknownWindow
          = some (.ok "", mp1)
        ∧ GetTitleFromBrowser sampleExternals mp1 sampleUnknownWindow
          = some (.ok "Show Name Episode 5", mp1)
        ∧ (Except.ok "Show Name Episode 5" : Except String String) ≠ Except.ok "" :=
  ⟨_, rfl, rfl, by simp⟩

/-- C10 (amended): debounce.  When a call has returned (or thrown) and the next
call reads the same window title, the next call returns `current_title()`, the
title held outside the function at that moment, and leaves the whole state as
it was: `acc_obj.children` is not rebuilt, and the record of events gains no
tree build, no search and no catalog lookup.  When the title held outside is
the result of the first call, both calls return the same title. -/
theorem GetTitleFromBrowser_debounce (ext : Externals) (mp : MediaPlayers)
    (hwnd1 hwnd2 : Window) (r1 : Except String String) (mp1 : MediaPlayers)
    (h1 : GetTitleFromBrowser ext mp hwnd1 = some (r1, mp1))
    (hsame : hwnd2.GetWindowTitle = hwnd1.GetWindowTitle) :
    GetTitleFromBrowser ext mp1 hwnd2 = some (.ok hwnd2.current_title, mp1)
      ∧ (r1 = .ok hwnd2.current_title → GetTitleFromBrowser ext mp1 hwnd2 = some (r1, mp1)) := by
  have hmemo := GetTitleFromBrowser_lastWindowTitle ext mp hwnd1 r1 mp1 h1
  have key : GetTitleFromBrowser ext mp1 hwnd2 = some (.ok hwnd2.current_title, mp1) := by
    unfold GetTitleFromBrowser
    simp [hmemo, hsame]
  exact ⟨key, fun h => by rw [key, h]⟩

/-- C10 (amended) at the sample Gecko window: the first call resolves
`"Show Name Episode 5"` through the catalog, the second call returns the held
title and leaves the state, with its three recorded events, unchanged. -/
theorem GetTitleFromBrowser_debounce_witness :
    GetTitleFromBrowser sampleExternals sampleMediaPlayersAfter sampleWindow
      = some (.ok "Show Name Episode 5", sampleMediaPlayersAfter) :=
  (GetTitleFromBrowser_debounce sampleExternals sampleMediaPlayers sampleWindow sampleWindow
    (.ok "Show Name Episode 5") sampleMediaPlayersAfter rfl rfl).1

/-- C19: wildcard search.  With an empty name and role 0 the search returns the
first element of `children` when there is one, whatever its own children are,
and `none` for the empty list. -/
theorem FindAccessibleChild_wildcard (ext : Externals) (children : List AccessibleChild) :
    FindAccessibleChild ext "" 0 children = children.head?
      ∧ (children = [] → FindAccessibleChild ext "" 0 children = none)
      ∧ (∀ (first : AccessibleChild) (rest : List AccessibleChild), children = first :: rest →
          FindAccessibleChild ext "" 0 children = some first) := by
  have key : ∀ (first : AccessibleChild) (rest : List AccessibleChild),
      FindAccessibleChild ext "" 0 (first :: rest) = some first := by
    intro first rest
    cases first with
    | mk n r v cs =>
      have hempty : ("" : String).isEmpty = true := by decide
      simp [FindAccessibleChild, FindAccessibleChild_iteration, hempty]
  refine ⟨?_, ?_, ?_⟩
  · cases children with
    | nil => rfl
    | cons first rest => exact key first rest
  · intro h
    subst h
    rfl
  · intro first rest h
    subst h
    exact key first rest

/-- C19 at the sample forest: the toolbar, its first element, is returned. -/
theorem FindAccessibleChild_wildcard_witness :
    FindAccessibleChild sampleExternals "" 0 sampleForest
      = some (.mk "Navigation" ROLE_SYSTEM_TOOLBAR ""
          [ .mk "Search or enter address" ROLE_SYSTEM_TEXT "http://example.org/watch/5" [] ]) :=
  (FindAccessibleChild_wildcard sampleExternals sampleForest).2.2 _ _ rfl

/-- A call that reads a changed window title overwrites `lastWindowTitle`, selects
the engine by name and continues with `GetTitleFromBrowser_withEngine`. -/
theorem GetTitleFromBrowser_changed (ext : Externals) (mp : MediaPlayers) (hwnd : Window)
    (hchanged : mp.lastWindowTitle ≠ hwnd.GetWindowTitle) :
    GetTitleFromBrowser ext mp hwnd
      = match engineOfName hwnd.engine with
        | none => some (.ok "", { mp with lastWindowTitle := hwnd.GetWindowTitle })
        | some web_engine =>
          GetTitleFromBrowser_withEngine ext
            { mp with lastWindowTitle := hwnd.GetWindowTitle } hwnd web_engine := by
  unfold GetTitleFromBrowser engineOfName GetTitleFromBrowser_withEngine
  simp only [hchanged, if_false]

/-- C14: an unknown engine aborts the resolution.  When the window title differs
from the memoized one and the engine name is none of `"WebKit"`, `"Gecko"`,
`"Trident"`, `"Presto"`, the result is the empty string and only
`lastWindowTitle` changes: no tree is built, nothing is searched, no provider is
consulted, whatever `anime_id` is.  The four names select Webkit, Gecko, Trident
and Presto, with which the call continues. -/
theorem GetTitleFromBrowser_unknown_engine (ext : Externals) (mp : MediaPlayers) (hwnd : Window)
    (hchanged : mp.lastWindowTitle ≠ hwnd.GetWindowTitle) :
    ((hwnd.engine ≠ "WebKit" ∧ hwnd.engine ≠ "Gecko" ∧ hwnd.engine ≠ "Trident"
          ∧ hwnd.engine ≠ "Presto") →
        GetTitleFromBrowser ext mp hwnd
          = some (.ok "", { mp with lastWindowTitle := hwnd.GetWindowTitle }))
      ∧ (hwnd.engine = "WebKit" →
          GetTitleFromBrowser ext mp hwnd
            = GetTitleFromBrowser_withEngine ext
                { mp with lastWindowTitle := hwnd.GetWindowTitle } hwnd .kWebEngineWebkit)
      ∧ (hwnd.engine = "Gecko" →
          GetTitleFromBrowser ext mp hwnd
            = GetTitleFromBrowser_withEngine ext
                { mp with lastWindowTitle := hwnd.GetWindowTitle } hwnd .kWebEngineGecko)
      ∧ (hwnd.engine = "Trident" →
          GetTitleFromBrowser ext mp hwnd
            = GetTitleFromBrowser_withEngine ext
                { mp with lastWindowTitle := hwnd.GetWindowTitle } hwnd .kWebEngineTrident)
      ∧ (hwnd.engine = "Presto" →
          GetTitleFromBrowser ext mp hwnd
            = GetTitleFromBrowser_withEngine ext
                { mp with lastWindowTitle := hwnd.GetWindowTitle } hwnd .kWebEnginePresto) := by
  rw [GetTitleFromBrowser_changed ext mp hwnd hchanged]
  refine ⟨?_, ?_, ?_, ?_, ?_⟩
  · rintro ⟨h1, h2, h3, h4⟩
    simp [engineOfName, h1, h2, h3, h4]
  · intro h
    simp [engineOfName, h]
  · intro h
    simp [engineOfName, h]
  · intro h
    simp [engineOfName, h]
  · intro h
    simp [engineOfName, h]

/-- C14 at the sample window of an unknown engine, with a tracked episode or
without: the empty string, and nothing but `lastWindowTitle` changes. -/
theorem GetTitleFromBrowser_unknown_engine_witness :
    GetTitleFromBrowser sampleExternals sampleMediaPlayers { sampleUnknownWindow with anime_id := 7 }
      = some (.ok "", { sampleMediaPlayers with lastWindowTitle := "Some page - Browser" }) :=
  (GetTitleFromBrowser_unknown_engine sampleExternals sampleMediaPlayers
      { sampleUnknownWindow with anime_id := 7 } (by decide)).1
    (by decide)

theorem engineOfName_ne_unknown (engine : String) (web_engine : WebBrowserEngine)
    (h : engineOfName engine = some web_engine) :
    web_engine ≠ WebBrowserEngine.kWebEngineUnknown := by
  unfold engineOfName at h
  intro hu
  subst hu
  split at h
  · simp at h
  · split at h
    · simp at h
    · split at h
      · simp at h
      · split at h <;> simp at h

/-- The continuation after the engine selection, in terms of the state after the
build step. -/
theorem GetTitleFromBrowser_withEngine_eq (ext : Externals) (mp : MediaPlayers) (hwnd : Window)
    (web_engine : WebBrowserEngine) :
    GetTitleFromBrowser_withEngine ext mp hwnd web_engine
      = if hwnd.anime_id > 0 then
          some (GetTitleFromBrowser_checkOtherTabs ext (mp.afterBuild hwnd web_engine) hwnd
            web_engine)
        else
          GetTitleFromBrowser_findUrl ext (mp.afterBuild hwnd web_engine) hwnd web_engine := by
  unfold GetTitleFromBrowser_withEngine MediaPlayers.afterBuild Window.tree
  cases hwnd.FromWindow <;> rfl

/-- The block "Check other tabs" in terms of the container of the engine. -/
theorem GetTitleFromBrowser_checkOtherTabs_eq (ext : Externals) (mp : MediaPlayers)
    (hwnd : Window) (web_engine : WebBrowserEngine)
    (hne : web_engine ≠ WebBrowserEngine.kWebEngineUnknown) :
    ∃ (name : String) (role : Nat),
      GetTitleFromBrowser_checkOtherTabs ext mp hwnd web_engine
        = (.ok (match tabContainer ext web_engine mp.acc_obj_children with
                | some container =>
                  if container.children.any
                      (fun it => decide (ext.InStr it.name hwnd.current_title > -1))
                  then hwnd.current_title else ""
                | none => ""),
           { mp with events := mp.events ++ [Event.findChild name role] }) := by
  cases web_engine with
  | kWebEngineUnknown => exact absurd rfl hne
  | kWebEngineWebkit =>
    refine ⟨"", ROLE_SYSTEM_PAGETABLIST, ?_⟩
    simp only [GetTitleFromBrowser_checkOtherTabs, tabContainer]
    cases FindAccessibleChild ext "" ROLE_SYSTEM_PAGETABLIST mp.acc_obj_children with
    | none => rfl
    | some c => dsimp only; split <;> rfl
  | kWebEngineGecko =>
    refine ⟨"", ROLE_SYSTEM_PAGETABLIST, ?_⟩
    simp only [GetTitleFromBrowser_checkOtherTabs, tabContainer]
    cases FindAccessibleChild ext "" ROLE_SYSTEM_PAGETABLIST mp.acc_obj_children with
    | none => rfl
    | some c => dsimp only; split <;> rfl
  | kWebEngineTrident =>
    refine ⟨"Tab Row", 0, ?_⟩
    simp only [GetTitleFromBrowser_checkOtherTabs, tabContainer]
    cases FindAccessibleChild ext "Tab Row" 0 mp.acc_obj_children with
    | none => rfl
    | some c => dsimp only; split <;> rfl
  | kWebEnginePresto =>
    refine ⟨"", ROLE_SYSTEM_CLIENT, ?_⟩
    simp only [GetTitleFromBrowser_checkOtherTabs, tabContainer]
    cases FindAccessibleChild ext "" ROLE_SYSTEM_CLIENT mp.acc_obj_children with
    | none => rfl
    | some c => dsimp only; split <;> rfl

/-- C11: tracked-episode presence check.  For a call with a changed window title,
a recognised engine and `anime_id > 0`, the result is the current title when
the container of the engine is found (Webkit/Gecko: first node of role
PAGETABLIST; Trident: first node named "Tab Row"; Presto: first node of role
CLIENT) and some direct child of it has a name in which `InStr` finds the
current title; otherwise it is the empty string.  The heap and the catalog are
untouched, and the only events are the tree build and one search. -/
theorem GetTitleFromBrowser_tracked_episode (ext : Externals) (mp : MediaPlayers)
    (hwnd : Window) (web_engine : WebBrowserEngine)
    (hchanged : mp.lastWindowTitle ≠ hwnd.GetWindowTitle)
    (hengine : engineOfName hwnd.engine = some web_engine)
    (hanime : hwnd.anime_id > 0) :
    ∃ (result : String) (mp' : MediaPlayers),
      GetTitleFromBrowser ext mp hwnd = some (.ok result, mp')
        ∧ ((∃ container : AccessibleChild,
              tabContainer ext web_engine (hwnd.tree web_engine) = some container
                ∧ ∃ it ∈ container.children, ext.InStr it.name hwnd.current_title > -1) →
            result = hwnd.current_title)
        ∧ ((¬ ∃ container : AccessibleChild,
              tabContainer ext web_engine (hwnd.tree web_engine) = some container
                ∧ ∃ it ∈ container.children, ext.InStr it.name hwnd.current_title > -1) →
            result = "")
        ∧ mp'.heap = mp.heap
        ∧ mp'.m_streamProviderFactory = mp.m_streamProviderFactory
        ∧ ∃ (name : String) (role : Nat),
            mp'.events = mp.events ++ [Event.buildTree web_engine, Event.findChild name role] := by
  have hne := engineOfName_ne_unknown _ _ hengine
  rw [GetTitleFromBrowser_changed ext mp hwnd hchanged, hengine]
  simp only [GetTitleFromBrowser_withEngine_eq, hanime, if_true]
  obtain ⟨name, role, heq⟩ := GetTitleFromBrowser_checkOtherTabs_eq ext
    (MediaPlayers.afterBuild { mp with lastWindowTitle := hwnd.GetWindowTitle } hwnd web_engine)
    hwnd web_engine hne
  have htree : (MediaPlayers.afterBuild { mp with lastWindowTitle := hwnd.GetWindowTitle }
      hwnd web_engine).acc_obj_children = hwnd.tree web_engine := rfl
  rw [htree] at heq
  rw [heq]
  refine ⟨_, _, rfl, ?_, ?_, ?_, ?_, name, role, ?_⟩
  · rintro ⟨container, hc, it, hit, hin⟩
    rw [hc]
    have : container.children.any
        (fun it => decide (ext.InStr it.name hwnd.current_title > -1)) = true :=
      List.any_eq_true.mpr ⟨it, hit, by simpa using hin⟩
    simp only [this, if_true]
  · intro hno
    cases hc : tabContainer ext web_engine (hwnd.tree web_engine) with
    | none => rfl
    | some container =>
      have : container.children.any
          (fun it => decide (ext.InStr it.name hwnd.current_title > -1)) = false := by
        cases hb : container.children.any
            (fun it => decide (ext.InStr it.name hwnd.current_title > -1)) with
        | false => rfl
        | true =>
          obtain ⟨it, hit, hin⟩ := List.any_eq_true.mp hb
          exact absurd ⟨container, hc, it, hit, by simpa using hin⟩ hno
      simp [this]
  · rfl
  · rfl
  · simp [MediaPlayers.afterBuild]

/-- C11 at a Gecko window with a tracked episode whose tab is open but not
active: the current title is returned. -/
theorem GetTitleFromBrowser_tracked_episode_witness :
    ∃ mp' : MediaPlayers,
      GetTitleFromBrowser sampleExternals sampleMediaPlayers sampleTrackedWindow
          = some (.ok "Show Name Episode 5", mp')
        ∧ mp'.heap = sampleHeap := by
  obtain ⟨result, mp', h, hyes, _, hheap, _⟩ :=
    GetTitleFromBrowser_tracked_episode sampleExternals sampleMediaPlayers sampleTrackedWindow
      .kWebEngineGecko (by decide) (by decide) (by decide)
  have hres : result = "Show Name Episode 5" :=
    hyes ⟨.mk "Tabs" ROLE_SYSTEM_PAGETABLIST ""
            [ .mk "search OR enter address" ROLE_SYSTEM_TEXT "second" [],
              .mk "Show Name Episode 5" ROLE_SYSTEM_TEXT "" [] ],
          rfl, .mk "Show Name Episode 5" ROLE_SYSTEM_TEXT "" [],
          by simp [AccessibleChild.children], by decide⟩
  subst hres
  exact ⟨mp', h, hheap⟩

/-- The loop over the hints returns the result of the first search that is not
null. -/
theorem GetTitleFromBrowser_hintLoop_eq (ext : Externals) (children : List AccessibleChild)
    (table : List BrowserAccessibilityData) :
    (GetTitleFromBrowser_hintLoop ext children table).1
      = table.findSome? (fun h => FindAccessibleChild ext h.name h.role children) := by
  induction table with
  | nil => rfl
  | cons h rest ih =>
    rw [GetTitleFromBrowser_hintLoop, List.findSome?_cons]
    cases hf : FindAccessibleChild ext h.name h.role children with
    | none => simpa using ih
    | some c => simp

/-- Every event recorded by the loop over the hints is a search. -/
theorem GetTitleFromBrowser_hintLoop_events (ext : Externals) (children : List AccessibleChild)
    (table : List BrowserAccessibilityData) :
    ∀ ev ∈ (GetTitleFromBrowser_hintLoop ext children table).2,
      ∃ (name : String) (role : Nat), ev = Event.findChild name role := by
  induction table with
  | nil =>
    intro ev hev
    simp [GetTitleFromBrowser_hintLoop] at hev
  | cons h rest ih =>
    intro ev hev
    rw [GetTitleFromBrowser_hintLoop] at hev
    cases hf : FindAccessibleChild ext h.name h.role children with
    | none =>
      simp only [hf, Option.isSome_none, Bool.false_eq_true, if_false, List.mem_cons] at hev
      rcases hev with h1 | h1
      · exact ⟨_, _, h1⟩
      · exact ih ev h1
    | some c =>
      simp only [hf, Option.isSome_some, if_true, List.mem_singleton] at hev
      exact ⟨_, _, hev⟩

/-- Whether the table was empty or already populated, after
`InitializeBrowserData()` and `browser_data[web_engine]` it is the declared
table. -/
theorem browser_data_initialized (browser_data : BrowserData) (web_engine : WebBrowserEngine)
    (hdata : browser_data = [] ∨ browser_data = InitializeBrowserData [])
    (hhint : web_engine = .kWebEngineWebkit ∨ web_engine = .kWebEngineGecko
      ∨ web_engine = .kWebEngineTrident) :
    (InitializeBrowserData browser_data).index web_engine = InitializeBrowserData []
      ∧ (InitializeBrowserData []).lookup web_engine = engineUiHints web_engine := by
  rcases hdata with h | h <;> rcases hhint with e | e | e <;> subst h <;> subst e <;>
    exact ⟨by decide, by decide⟩

/-- The block "Find URL" for the engines that use the hint table. -/
theorem GetTitleFromBrowser_findUrl_hints (ext : Externals) (mp : MediaPlayers) (hwnd : Window)
    (web_engine : WebBrowserEngine)
    (hhint : web_engine = .kWebEngineWebkit ∨ web_engine = .kWebEngineGecko
      ∨ web_engine = .kWebEngineTrident)
    (hdata : mp.browser_data = [] ∨ mp.browser_data = InitializeBrowserData []) :
    GetTitleFromBrowser_findUrl ext mp hwnd web_engine
      = match (engineUiHints web_engine).findSome?
            (fun h => FindAccessibleChild ext h.name h.role mp.acc_obj_children) with
        | some child =>
          GetTitleFromStreamingMediaProvider ext
            { mp with
                browser_data := InitializeBrowserData []
                events := mp.events ++
                  (GetTitleFromBrowser_hintLoop ext mp.acc_obj_children
                    (engineUiHints web_engine)).2 }
            child.value hwnd.GetWindowTitle
        | none =>
          some (.ok "",
            { mp with
                browser_data := InitializeBrowserData []
                events := mp.events ++
                  (GetTitleFromBrowser_hintLoop ext mp.acc_obj_children
                    (engineUiHints web_engine)).2 }) := by
  obtain ⟨h1, h2⟩ := browser_data_initialized mp.browser_data web_engine hdata hhint
  rw [← GetTitleFromBrowser_hintLoop_eq]
  unfold GetTitleFromBrowser_findUrl
  rcases hhint with e | e | e <;> subst e <;> simp only [h1, h2] <;>
    cases (GetTitleFromBrowser_hintLoop ext mp.acc_obj_children (engineUiHints _)).1 <;> rfl

/-- C13: the order of the hint table decides the address element.  For Webkit,
Gecko and Trident with a changed window title and no tracked episode, the
address element is the result of `FindAccessibleChild(tree, h.name, h.role)` for
the first hint `h` of the engine's declared table whose search is not null;
its `value` and the window title read at the start of the call go to
`GetTitleFromStreamingMediaProvider`, whose result is the result of the call;
when no hint finds a node the result is the empty string.  The state `mp1` in
which the provider step starts differs from `mp` only in `lastWindowTitle`, the
tree, the populated hint table and the recorded build and searches. -/
theorem GetTitleFromBrowser_hint_order (ext : Externals) (mp : MediaPlayers) (hwnd : Window)
    (web_engine : WebBrowserEngine)
    (hchanged : mp.lastWindowTitle ≠ hwnd.GetWindowTitle)
    (hengine : engineOfName hwnd.engine = some web_engine)
    (hhint : web_engine = .kWebEngineWebkit ∨ web_engine = .kWebEngineGecko
      ∨ web_engine = .kWebEngineTrident)
    (hanime : ¬ hwnd.anime_id > 0)
    (hdata : mp.browser_data = [] ∨ mp.browser_data = InitializeBrowserData []) :
    ∃ mp1 : MediaPlayers,
      mp1.heap = mp.heap
        ∧ mp1.m_streamProviderFactory = mp.m_streamProviderFactory
        ∧ mp1.lastWindowTitle = hwnd.GetWindowTitle
        ∧ mp1.acc_obj_children = hwnd.tree web_engine
        ∧ mp1.browser_data.lookup web_engine = engineUiHints web_engine
        ∧ (∃ searches : List Event,
            mp1.events = mp.events ++ Event.buildTree web_engine :: searches
              ∧ ∀ ev ∈ searches, ∃ (name : String) (role : Nat), ev = Event.findChild name role)
        ∧ GetTitleFromBrowser ext mp hwnd
            = (match (engineUiHints web_engine).findSome?
                  (fun h => FindAccessibleChild ext h.name h.role (hwnd.tree web_engine)) with
               | some child =>
                 GetTitleFromStreamingMediaProvider ext mp1 child.value hwnd.GetWindowTitle
               | none => some (.ok "", mp1))
        ∧ ∀ (before : List BrowserAccessibilityData) (h : BrowserAccessibilityData)
            (after : List BrowserAccessibilityData) (child : AccessibleChild),
            engineUiHints web_engine = before ++ h :: after →
            (∀ x ∈ before, FindAccessibleChild ext x.name x.role (hwnd.tree web_engine) = none) →
            FindAccessibleChild ext h.name h.role (hwnd.tree web_engine) = some child →
            GetTitleFromBrowser ext mp hwnd
              = GetTitleFromStreamingMediaProvider ext mp1 child.value hwnd.GetWindowTitle := by
  have hfind := GetTitleFromBrowser_findUrl_hints ext
    (MediaPlayers.afterBuild { mp with lastWindowTitle := hwnd.GetWindowTitle } hwnd web_engine)
    hwnd web_engine hhint hdata
  have hcall : GetTitleFromBrowser ext mp hwnd
      = GetTitleFromBrowser_findUrl ext
          (MediaPlayers.afterBuild { mp with lastWindowTitle := hwnd.GetWindowTitle } hwnd
            web_engine) hwnd web_engine := by
    rw [GetTitleFromBrowser_changed ext mp hwnd hchanged, hengine]
    simp only [GetTitleFromBrowser_withEngine_eq, hanime, if_false]
  rw [hfind] at hcall
  refine ⟨{ lastWindowTitle := hwnd.GetWindowTitle
            acc_obj_children := hwnd.tree web_engine
            browser_data := InitializeBrowserData []
            heap := mp.heap
            m_streamProviderFactory := mp.m_streamProviderFactory
            events := (mp.events ++ [Event.buildTree web_engine]) ++
              (GetTitleFromBrowser_hintLoop ext (hwnd.tree web_engine)
                (engineUiHints web_engine)).2 },
    rfl, rfl, rfl, rfl, ?_, ?_, hcall, ?_⟩
  · exact (browser_data_initialized [] web_engine (Or.inl rfl) hhint).2
  · refine ⟨_, ?_, GetTitleFromBrowser_hintLoop_events ext (hwnd.tree web_engine)
      (engineUiHints web_engine)⟩
    simp
  · intro before h after child htable hbefore hh
    rw [hcall]
    have : (engineUiHints web_engine).findSome?
        (fun h => FindAccessibleChild ext h.name h.role (hwnd.tree web_engine)) = some child := by
      rw [htable, List.findSome?_append]
      have hnone : before.findSome?
          (fun h => FindAccessibleChild ext h.name h.role (hwnd.tree web_engine)) = none := by
        rw [List.findSome?_eq_none_iff]
        exact hbefore
      simp [hnone, List.findSome?_cons, hh]
    have this2 : (engineUiHints web_engine).findSome?
        (fun h => FindAccessibleChild ext h.name h.role
          (MediaPlayers.afterBuild { mp with lastWindowTitle := hwnd.GetWindowTitle } hwnd
            web_engine).acc_obj_children) = some child := this
    rw [this2]
    rfl

/-- C13 at a Gecko window in which the node of the second hint precedes the node
of the first hint: the value of the node of the first hint is what goes to the
provider step, together with the window title. -/
theorem GetTitleFromBrowser_hint_order_witness :
    ∃ mp1 : MediaPlayers,
      mp1.heap = sampleHeap
        ∧ GetTitleFromBrowser sampleExternals sampleMediaPlayers sampleHintWindow
          = GetTitleFromStreamingMediaProvider sampleExternals mp1
              "http://example.org/watch/5" "Show Name Episode 5" := by
  obtain ⟨mp1, hheap, _, _, _, _, _, _, hfirst⟩ :=
    GetTitleFromBrowser_hint_order sampleExternals sampleMediaPlayers sampleHintWindow
      .kWebEngineGecko (by decide) (by decide) (Or.inr (Or.inl rfl)) (by decide) (Or.inl rfl)
  exact ⟨mp1, hheap,
    hfirst [] { name := "Search or enter address", role := ROLE_SYSTEM_TEXT }
      [ { name := "Go to a Website", role := ROLE_SYSTEM_TEXT },
        { name := "Go to a Web Site", role := ROLE_SYSTEM_TEXT } ]
      (.mk "Search or enter address" ROLE_SYSTEM_TEXT "http://example.org/watch/5" [])
      rfl (by simp) rfl⟩

/-- A call with a changed window title, a recognised engine and no tracked
episode: the address element is located, and either its `value` goes to the
provider step together with the window title read at the start, and the
result of that step (a title or a thrown message) is the result of the call, or
there is no address element and the result is the empty string. -/
theorem GetTitleFromBrowser_untracked (ext : Externals) (mp : MediaPlayers) (hwnd : Window)
    (web_engine : WebBrowserEngine)
    (hchanged : mp.lastWindowTitle ≠ hwnd.GetWindowTitle)
    (hengine : engineOfName hwnd.engine = some web_engine)
    (hanime : ¬ hwnd.anime_id > 0)
    (hdata : mp.browser_data = [] ∨ mp.browser_data = InitializeBrowserData []) :
    ∃ mp1 : MediaPlayers,
      mp1.heap = mp.heap
        ∧ mp1.m_streamProviderFactory = mp.m_streamProviderFactory
        ∧ mp1.lastWindowTitle = hwnd.GetWindowTitle
        ∧ GetTitleFromBrowser ext mp hwnd
            = match addressElement ext web_engine (hwnd.tree web_engine) with
              | some child =>
                GetTitleFromStreamingMediaProvider ext mp1 child.value hwnd.GetWindowTitle
              | none => some (.ok "", mp1) := by
  have hcall : GetTitleFromBrowser ext mp hwnd
      = GetTitleFromBrowser_findUrl ext
          (MediaPlayers.afterBuild { mp with lastWindowTitle := hwnd.GetWindowTitle } hwnd
            web_engine) hwnd web_engine := by
    rw [GetTitleFromBrowser_changed ext mp hwnd hchanged, hengine]
    simp only [GetTitleFromBrowser_withEngine_eq, hanime, if_false]
  have hne := engineOfName_ne_unknown _ _ hengine
  cases web_engine with
  | kWebEngineUnknown => exact absurd rfl hne
  | kWebEngineWebkit =>
    rw [GetTitleFromBrowser_findUrl_hints ext
      (MediaPlayers.afterBuild { mp with lastWindowTitle := hwnd.GetWindowTitle } hwnd
        .kWebEngineWebkit) hwnd _ (Or.inl rfl) hdata] at hcall
    refine ⟨_, ?_, ?_, ?_, hcall⟩ <;> rfl
  | kWebEngineGecko =>
    rw [GetTitleFromBrowser_findUrl_hints ext
      (MediaPlayers.afterBuild { mp with lastWindowTitle := hwnd.GetWindowTitle } hwnd
        .kWebEngineGecko) hwnd _ (Or.inr (Or.inl rfl)) hdata] at hcall
    refine ⟨_, ?_, ?_, ?_, hcall⟩ <;> rfl
  | kWebEngineTrident =>
    rw [GetTitleFromBrowser_findUrl_hints ext
      (MediaPlayers.afterBuild { mp with lastWindowTitle := hwnd.GetWindowTitle } hwnd
        .kWebEngineTrident) hwnd _ (Or.inr (Or.inr rfl)) hdata] at hcall
    refine ⟨_, ?_, ?_, ?_, hcall⟩ <;> rfl
  | kWebEnginePresto =>
    refine ⟨{ lastWindowTitle := hwnd.GetWindowTitle
              acc_obj_children := hwnd.tree .kWebEnginePresto
              browser_data := mp.browser_data
              heap := mp.heap
              m_streamProviderFactory := mp.m_streamProviderFactory
              events := (mp.events ++ [Event.buildTree .kWebEnginePresto]) ++
                (GetTitleFromBrowser_presto ext (hwnd.tree .kWebEnginePresto)).2 },
      rfl, rfl, rfl, ?_⟩
    rw [hcall]
    unfold GetTitleFromBrowser_findUrl addressElement
    simp only [MediaPlayers.afterBuild]
    cases (GetTitleFromBrowser_presto ext (hwnd.tree .kWebEnginePresto)).1 <;> rfl

/-- The Presto chain stops at a client-area node without children and keeps it
as the address element; it gives no address element when there is no
client-area node. -/
theorem GetTitleFromBrowser_presto_client (ext : Externals) (tree : List AccessibleChild) :
    (∀ client : AccessibleChild,
        FindAccessibleChild ext "" ROLE_SYSTEM_CLIENT tree = some client →
        client.children = [] →
        addressElement ext .kWebEnginePresto tree = some client)
      ∧ (FindAccessibleChild ext "" ROLE_SYSTEM_CLIENT tree = none →
          addressElement ext .kWebEnginePresto tree = none) := by
  constructor
  · intro client h hc
    simp [addressElement, GetTitleFromBrowser_presto, h, hc]
  · intro h
    simp [addressElement, GetTitleFromBrowser_presto, h]

/-- C12 (the code departs from the claim): the Presto chain does not abort when a
node that was found has no children.  The client-area node of the sample
forest has no children; `child` keeps pointing to it, its `value` goes to the
provider step, and the call resolves `"Show Name Episode 5"` instead of the
empty string. -/
theorem GetTitleFromBrowser_presto_childless_client :
    GetTitleFromBrowser_presto sampleExternals samplePrestoForest
        = (some (.mk "Opera" ROLE_SYSTEM_CLIENT "http://example.org/watch/5" []),
           [Event.findChild "" ROLE_SYSTEM_CLIENT])
      ∧ ∃ mp' : MediaPlayers,
          GetTitleFromBrowser sampleExternals sampleMediaPlayers samplePrestoWindow
              = some (.ok "Show Name Episode 5", mp')
            ∧ mp'.events
              = [ Event.buildTree WebBrowserEngine.kWebEnginePresto,
                  Event.findChild "" ROLE_SYSTEM_CLIENT,
                  Event.createParser "http://example.org/watch/5" "Show Name Episode 5" ] :=
  ⟨rfl, _, rfl, rfl⟩

/-! ## Source tags and loading -/

/-- With assertions compiled out, `taigaWStringToParseSourceType` maps the three
source tags to their types and every other string to Invalid; the three tags
(and `"invalid"`) are mapped in the same way when assertions are compiled in. -/
theorem taigaWStringToParseSourceType_ndebug (type : String) :
    (∀ NDEBUG : Bool,
        taigaWStringToParseSourceType NDEBUG "window_title" = some ParseSourceType.WindowTitle
          ∧ taigaWStringToParseSourceType NDEBUG "url" = some ParseSourceType.Url
          ∧ taigaWStringToParseSourceType NDEBUG "html_source" = some ParseSourceType.HtmlSource
          ∧ taigaWStringToParseSourceType NDEBUG "invalid" = some ParseSourceType.Invalid)
      ∧ ((type ≠ "window_title" ∧ type ≠ "url" ∧ type ≠ "html_source") →
          taigaWStringToParseSourceType true type = some ParseSourceType.Invalid) := by
  constructor
  · intro b
    cases b <;> decide
  · rintro ⟨h1, h2, h3⟩
    by_cases h0 : type = "invalid"
    · subst h0
      decide
    · have e0 : ¬ "invalid" = type := fun h => h0 h.symm
      have e1 : ¬ "window_title" = type := fun h => h1 h.symm
      have e2 : ¬ "url" = type := fun h => h2 h.symm
      have e3 : ¬ "html_source" = type := fun h => h3 h.symm
      simp [taigaWStringToParseSourceType, taigaWStringToParseSourceType_map, List.find?, e0, e1,
        e2, e3]

/-- With assertions compiled out, a title rule loaded with an unrecognised source
tag is stored with type Invalid, and such a rule evaluates to the empty string
whatever the heap and the externals are. -/
theorem loaded_unrecognised_tag_ndebug (ext : Externals) (heap : Heap) (tag pattern : String)
    (bound : Nat)
    (htag : tag ≠ "window_title" ∧ tag ≠ "url" ∧ tag ≠ "html_source") :
    ∃ parseType : ParseSourceType,
      taigaWStringToParseSourceType true tag = some parseType
        ∧ ParsingElement.call ext heap
            { regexPattern := pattern, parseType := parseType, parsingSource := bound }
          = some (.ok "", []) := by
  refine ⟨ParseSourceType.Invalid, (taigaWStringToParseSourceType_ndebug tag).2 htag, ?_⟩
  simp [ParsingElement.call, ParsingElement.isValid]

/-- C15 (the code departs from the claim): with assertions compiled in, an
unrecognised source tag does not map to Invalid; the assertion of lines 56-57
fails.  The empty string, which a missing `source` attribute produces, aborts
`taigaWStringToParseSourceType` and with it `loadPrototypes`; the same input
gives Invalid, and a loaded catalog, when `NDEBUG` is defined. -/
theorem taigaWStringToParseSourceType_assert_fails :
    taigaWStringToParseSourceType false "" = none
      ∧ loadPrototypes false [] { m_streamProvidersParsersPrototypes := [] }
          (some [sampleXmlProviderNoSource]) = none
      ∧ taigaWStringToParseSourceType true "" = some ParseSourceType.Invalid
      ∧ (loadPrototypes true [] { m_streamProvidersParsersPrototypes := [] }
          (some [sampleXmlProviderNoSource])).isSome = true := by
  decide

/-- The sample catalog is what `loadPrototypes` builds from the sample record. -/
theorem sampleHeap_loadPrototypes (NDEBUG : Bool) :
    loadPrototypes NDEBUG [] { m_streamProvidersParsersPrototypes := [] }
        (some [sampleXmlProvider]) = some (true, sampleHeap, sampleFactory) := by
  cases NDEBUG <;> decide

/-! ## Page-source rules -/

theorem sampleHtmlInstanceHeap_created :
    createNewInstance sampleHtmlHeap 0 "http://example.org/watch/5" "Some tab"
      = some (sampleHtmlInstanceHeap, 1) := by
  decide

theorem ParsingElement.parseHtmlSource_fetched (ext : Externals) (url pattern : String) :
    (ParsingElement.parseHtmlSource ext url pattern).2 = [url] := by
  unfold ParsingElement.parseHtmlSource
  split <;> rfl

/-- A valid page-source rule evaluates by `parseHtmlSource` on the bound url. -/
theorem ParsingElement.call_html (ext : Externals) (heap : Heap) (e : ParsingElement)
    (src : ParsingSource) (hv : e.isValid = true) (ht : e.parseType = ParseSourceType.HtmlSource)
    (hs : heap.readSource e.parsingSource = some src) :
    e.call ext heap = some (ParsingElement.parseHtmlSource ext src.url e.regexPattern) := by
  simp [ParsingElement.call, hv, ht, hs]

/-- A rule that is not a valid page-source rule evaluates without a fetch and
without throwing. -/
theorem ParsingElement.call_not_html (ext : Externals) (heap : Heap) (e : ParsingElement)
    (src : ParsingSource)
    (hn : ¬ (e.isValid = true ∧ e.parseType = ParseSourceType.HtmlSource))
    (hs : heap.readSource e.parsingSource = some src) :
    ∃ value : String, e.call ext heap = some (.ok value, []) := by
  unfold ParsingElement.call
  cases hv : e.isValid with
  | false => exact ⟨"", by simp⟩
  | true =>
    cases ht : e.parseType with
    | HtmlSource => exact absurd ⟨hv, ht⟩ hn
    | Invalid => exact ⟨"", by simp⟩
    | WindowTitle => exact ⟨ext.FirstMatchRegex src.title e.regexPattern, by simp [hs]⟩
    | Url => exact ⟨ext.FirstMatchRegex src.url e.regexPattern, by simp [hs]⟩

/-- The value of `parseTitle()` when both rules return. -/
theorem parseTitle_ok (ext : Externals) (heap : Heap) (this : Nat)
    (self : StreamProviderParserPrototype) (t n : String) (fetched1 fetched2 : List String)
    (hself : heap[this]? = some self)
    (ht : self.m_episodeTitleParsing.call ext heap = some (.ok t, fetched1))
    (hn : self.m_episodeNumberParsing.call ext heap = some (.ok n, fetched2)) :
    parseTitle ext heap this
      = some (.ok (if !n.isEmpty then t ++ (" Episode " ++ n) else t), fetched1 ++ fetched2) := by
  simp [parseTitle, hself, ht, hn]

/-- C20: page-source evaluation is not cached.  Every evaluation of a valid
HtmlSource rule fetches the bound url exactly once; a `parseTitle()` whose two
rules are valid HtmlSource rules bound to the same url fetches that url exactly
twice when the transfer succeeds; a `parseTitle()` with no valid HtmlSource
rule fetches nothing. -/
theorem HtmlSource_not_cached (ext : Externals) (heap : Heap) :
    (∀ (e : ParsingElement) (src : ParsingSource),
        e.isValid = true → e.parseType = ParseSourceType.HtmlSource →
        heap.readSource e.parsingSource = some src →
        ∃ result : Except String String, e.call ext heap = some (result, [src.url]))
      ∧ (∀ (this : Nat) (self : StreamProviderParserPrototype) (src1 src2 : ParsingSource)
          (htmlSource : String),
          heap[this]? = some self →
          self.m_episodeTitleParsing.isValid = true →
          self.m_episodeTitleParsing.parseType = ParseSourceType.HtmlSource →
          self.m_episodeNumberParsing.isValid = true →
          self.m_episodeNumberParsing.parseType = ParseSourceType.HtmlSource →
          heap.readSource self.m_episodeTitleParsing.parsingSource = some src1 →
          heap.readSource self.m_episodeNumberParsing.parsingSource = some src2 →
          src2.url = src1.url →
          taigaFetchHtmlPageSource ext src1.url = .ok htmlSource →
          ∃ title : String,
            parseTitle ext heap this = some (.ok title, [src1.url, src1.url]))
      ∧ (∀ (this : Nat) (self : StreamProviderParserPrototype) (src1 src2 : ParsingSource),
          heap[this]? = some self →
          ¬ (self.m_episodeTitleParsing.isValid = true
              ∧ self.m_episodeTitleParsing.parseType = ParseSourceType.HtmlSource) →
          ¬ (self.m_episodeNumberParsing.isValid = true
              ∧ self.m_episodeNumberParsing.parseType = ParseSourceType.HtmlSource) →
          heap.readSource self.m_episodeTitleParsing.parsingSource = some src1 →
          heap.readSource self.m_episodeNumberParsing.parsingSource = some src2 →
          ∃ title : String, parseTitle ext heap this = some (.ok title, [])) := by
  refine ⟨?_, ?_, ?_⟩
  · intro e src hv ht hs
    refine ⟨(ParsingElement.parseHtmlSource ext src.url e.regexPattern).1, ?_⟩
    rw [ParsingElement.call_html ext heap e src hv ht hs,
      ← ParsingElement.parseHtmlSource_fetched ext src.url e.regexPattern]
  · intro this self src1 src2 html hself hv1 ht1 hv2 ht2 hs1 hs2 hurl hfetch
    have c1 := ParsingElement.call_html ext heap _ src1 hv1 ht1 hs1
    have c2 := ParsingElement.call_html ext heap _ src2 hv2 ht2 hs2
    rw [hurl] at c2
    simp only [ParsingElement.parseHtmlSource, hfetch] at c1 c2
    exact ⟨_, parseTitle_ok ext heap this self _ _ _ _ hself c1 c2⟩
  · intro this self src1 src2 hself hn1 hn2 hs1 hs2
    obtain ⟨v1, c1⟩ := ParsingElement.call_not_html ext heap _ src1 hn1 hs1
    obtain ⟨v2, c2⟩ := ParsingElement.call_not_html ext heap _ src2 hn2 hs2
    exact ⟨_, parseTitle_ok ext heap this self _ _ _ _ hself c1 c2⟩

/-- C20 at an instance of the page-source template: one `parseTitle()` fetches
the url of the instance twice. -/
theorem HtmlSource_not_cached_witness :
    ∃ title : String,
      parseTitle sampleOnlineExternals sampleHtmlInstanceHeap 1
        = some (.ok title, ["http://example.org/watch/5", "http://example.org/watch/5"]) :=
  (HtmlSource_not_cached sampleOnlineExternals sampleHtmlInstanceHeap).2.1 1
    { sampleHtmlTemplate with
        m_parsingSource := { url := "http://example.org/watch/5", title := "Some tab" } }
    { url := "http://example.org/watch/5", title := "Some tab" }
    { url := "http://example.org/watch/5", title := "Some tab" }
    "Show Name Episode 5" rfl rfl rfl rfl rfl rfl rfl rfl rfl

theorem taigaFetchHtmlPageSource_fails (ext : Externals) (url : String)
    (h : fetchFails ext url) :
    taigaFetchHtmlPageSource ext url = .error (fetchFailureMessage ext url) := by
  unfold fetchFails at h
  simp [taigaFetchHtmlPageSource, fetchFailureMessage, h]

theorem taigaFetchHtmlPageSource_succeeds (ext : Externals) (url : String)
    (h : ¬ fetchFails ext url) :
    taigaFetchHtmlPageSource ext url = .ok (ext.curl_easy_perform url).2 := by
  unfold fetchFails at h
  simp only [ne_eq, Decidable.not_not] at h
  simp [taigaFetchHtmlPageSource, h]

/-- A rule throws exactly when it is a valid page-source rule whose fetch fails,
and then it throws the message of the fetch. -/
theorem ParsingElement.call_cases (ext : Externals) (heap : Heap) (e : ParsingElement)
    (src : ParsingSource) (hs : heap.readSource e.parsingSource = some src) :
    ((e.isHtmlRule ∧ fetchFails ext src.url) →
        e.call ext heap = some (.error (fetchFailureMessage ext src.url), [src.url]))
      ∧ (¬ (e.isHtmlRule ∧ fetchFails ext src.url) →
          ∃ (value : String) (fetched : List String), e.call ext heap = some (.ok value, fetched)) := by
  constructor
  · rintro ⟨⟨hv, ht⟩, hf⟩
    rw [ParsingElement.call_html ext heap e src hv ht hs]
    simp [ParsingElement.parseHtmlSource, taigaFetchHtmlPageSource_fails ext _ hf]
  · intro hn
    by_cases hh : e.isHtmlRule
    · have hf : ¬ fetchFails ext src.url := fun hf => hn ⟨hh, hf⟩
      rw [ParsingElement.call_html ext heap e src hh.1 hh.2 hs]
      exact ⟨ext.FirstMatchRegex (ext.curl_easy_perform src.url).2 e.regexPattern, [src.url], by
        simp only [ParsingElement.parseHtmlSource, taigaFetchHtmlPageSource_succeeds ext _ hf]⟩
    · obtain ⟨v, hv⟩ := ParsingElement.call_not_html ext heap e src hh hs
      exact ⟨v, [], hv⟩

/-- The result of the provider step depends on the state only through the heap
and the catalog. -/
theorem GetTitleFromStreamingMediaProvider_result_congr (ext : Externals)
    (mp mp1 : MediaPlayers) (url title : String) (hheap : mp1.heap = mp.heap)
    (hfactory : mp1.m_streamProviderFactory = mp.m_streamProviderFactory) :
    (GetTitleFromStreamingMediaProvider ext mp1 url title).map (fun r => r.1)
      = (GetTitleFromStreamingMediaProvider ext mp url title).map (fun r => r.1) := by
  unfold GetTitleFromStreamingMediaProvider
  simp only [hheap, hfactory]
  split
  · rfl
  · cases createStreamProviderParser ext mp.heap mp.m_streamProviderFactory url title with
    | none => rfl
    | some r =>
      obtain ⟨heap, parser⟩ := r
      dsimp only
      cases parser.m_parserPointer with
      | none => rfl
      | some p =>
        dsimp only
        cases parseTitle ext heap p with
        | none => rfl
        | some q => rfl

/-- C18: a failed page fetch propagates.  `parseTitle()` throws exactly when one of
its two rules is a valid HtmlSource rule and the fetch of the url bound to it
fails; the message thrown is `"curl_easy_perform() failed: "` followed by the
error text of the transport for that url.  `GetTitleFromStreamingMediaProvider`
throws what `parseTitle()` of the new instance throws, and `GetTitleFromBrowser`
throws what the provider step throws for the address element: nothing turns
the failure into an empty title. -/
theorem parseTitle_fetch_failure_propagates (ext : Externals) (heap : Heap) (this : Nat)
    (self : StreamProviderParserPrototype) (src1 src2 : ParsingSource)
    (hself : heap[this]? = some self)
    (hs1 : heap.readSource self.m_episodeTitleParsing.parsingSource = some src1)
    (hs2 : heap.readSource self.m_episodeNumberParsing.parsingSource = some src2) :
    (∃ (result : Except String String) (fetched : List String),
        parseTitle ext heap this = some (result, fetched)
          ∧ ((∃ message : String, result = .error message)
              ↔ (self.m_episodeTitleParsing.isHtmlRule ∧ fetchFails ext src1.url)
                ∨ (self.m_episodeNumberParsing.isHtmlRule ∧ fetchFails ext src2.url))
          ∧ ∀ message : String, result = .error message →
              ∃ url : String, (url = src1.url ∨ url = src2.url) ∧ fetchFails ext url
                ∧ message = "curl_easy_perform() failed: "
                    ++ ext.curl_easy_strerror (ext.curl_easy_perform url).1)
      ∧ (∀ (mp : MediaPlayers) (url title : String) (heap' : Heap) (p : Nat) (message : String)
          (fetched : List String),
          url.isEmpty = false → title.isEmpty = false →
          createStreamProviderParser ext mp.heap mp.m_streamProviderFactory url title
            = some (heap', StreamProviderParserRaii.ctor (some p)) →
          parseTitle ext heap' p = some (.error message, fetched) →
          (GetTitleFromStreamingMediaProvider ext mp url title).map (fun r => r.1)
            = some (.error message))
      ∧ (∀ (mp : MediaPlayers) (hwnd : Window) (web_engine : WebBrowserEngine)
          (child : AccessibleChild) (message : String),
          mp.lastWindowTitle ≠ hwnd.GetWindowTitle →
          engineOfName hwnd.engine = some web_engine →
          ¬ hwnd.anime_id > 0 →
          (mp.browser_data = [] ∨ mp.browser_data = InitializeBrowserData []) →
          addressElement ext web_engine (hwnd.tree web_engine) = some child →
          (GetTitleFromStreamingMediaProvider ext mp child.value hwnd.GetWindowTitle).map
              (fun r => r.1) = some (.error message) →
          (GetTitleFromBrowser ext mp hwnd).map (fun r => r.1) = some (.error message)) := by
  refine ⟨?_, ?_, ?_⟩
  · obtain ⟨a1, a2⟩ := ParsingElement.call_cases ext heap _ src1 hs1
    obtain ⟨b1, b2⟩ := ParsingElement.call_cases ext heap _ src2 hs2
    by_cases hA : self.m_episodeTitleParsing.isHtmlRule ∧ fetchFails ext src1.url
    · refine ⟨.error (fetchFailureMessage ext src1.url), [src1.url], ?_, ?_, ?_⟩
      · simp [parseTitle, hself, a1 hA]
      · exact ⟨fun _ => Or.inl hA, fun _ => ⟨_, rfl⟩⟩
      · intro message hm
        refine ⟨src1.url, Or.inl rfl, hA.2, ?_⟩
        simp only [Except.error.injEq] at hm
        rw [← hm]
        rfl
    · obtain ⟨t, f1, ht⟩ := a2 hA
      by_cases hB : self.m_episodeNumberParsing.isHtmlRule ∧ fetchFails ext src2.url
      · refine ⟨.error (fetchFailureMessage ext src2.url), f1 ++ [src2.url], ?_, ?_, ?_⟩
        · simp [parseTitle, hself, ht, b1 hB]
        · exact ⟨fun _ => Or.inr hB, fun _ => ⟨_, rfl⟩⟩
        · intro message hm
          refine ⟨src2.url, Or.inr rfl, hB.2, ?_⟩
          simp only [Except.error.injEq] at hm
          rw [← hm]
          rfl
      · obtain ⟨n, f2, hn⟩ := b2 hB
        refine ⟨_, _, parseTitle_ok ext heap this self t n f1 f2 hself ht hn, ?_, ?_⟩
        · constructor
          · rintro ⟨message, hm⟩
            simp at hm
          · rintro (h | h)
            · exact absurd h hA
            · exact absurd h hB
        · intro message hm
          simp at hm
  · intro mp url title heap' p message fetched hu ht hc hp
    simp [GetTitleFromStreamingMediaProvider, hu, ht, hc, StreamProviderParserRaii.ctor, hp]
  · intro mp hwnd web_engine child message hchanged hengine hanime hdata haddr hprov
    obtain ⟨mp1, hheap, hfactory, _, hcall⟩ :=
      GetTitleFromBrowser_untracked ext mp hwnd web_engine hchanged hengine hanime hdata
    rw [hcall, haddr]
    dsimp only
    rw [GetTitleFromStreamingMediaProvider_result_congr ext mp mp1 _ _ hheap hfactory, hprov]

/-- C18 at an instance of the page-source template when every transfer fails:
`parseTitle()` throws the message with the error text of the transport. -/
theorem parseTitle_fetch_failure_propagates_witness :
    ∃ fetched : List String,
      parseTitle sampleExternals sampleHtmlInstanceHeap 1
        = some (.error "curl_easy_perform() failed: Couldn't connect to server", fetched) := by
  obtain ⟨⟨result, fetched, hp, hiff, hmsg⟩, _, _⟩ :=
    parseTitle_fetch_failure_propagates sampleExternals sampleHtmlInstanceHeap 1
      { sampleHtmlTemplate with
          m_parsingSource := { url := "http://example.org/watch/5", title := "Some tab" } }
      { url := "http://example.org/watch/5", title := "Some tab" }
      { url := "http://example.org/watch/5", title := "Some tab" } rfl rfl rfl
  obtain ⟨message, hm⟩ := hiff.mpr (Or.inl ⟨⟨rfl, rfl⟩, by decide⟩)
  obtain ⟨url, _, _, htext⟩ := hmsg message hm
  rw [hm, htext] at hp
  exact ⟨fetched, hp⟩

/-! ## Fresh instances -/

theorem set_of_getElem_some {α : Type} (l : List α) (i : Nat) (a : α) (h : l[i]? = some a) :
    l.set i a = l := by
  apply List.ext_getElem?
  intro j
  rw [List.getElem?_set]
  by_cases hij : i = j
  · subst hij
    have hlt : i < l.length := (List.getElem?_eq_some_iff.mp h).1
    simp [hlt, h]
  · simp [hij]

theorem Heap.modifyObject_id (heap : Heap) (p : Nat) (o : StreamProviderParserPrototype)
    (f : StreamProviderParserPrototype → StreamProviderParserPrototype)
    (h : heap[p]? = some o) (hf : f o = o) : heap.modifyObject p f = some heap := by
  simp [Heap.modifyObject, h, hf, set_of_getElem_some heap p o h]

theorem Heap.writeSource_eq (heap : Heap) (r : Nat) (v : ParsingSource)
    (o : StreamProviderParserPrototype) (h : heap[r]? = some o) :
    heap.writeSource r v = some (heap.set r { o with m_parsingSource := v }) := by
  simp [Heap.writeSource, Heap.modifyObject, h]

theorem modifyElement_id (o : StreamProviderParserPrototype) (m : ElementMember)
    (g : ParsingElement → ParsingElement) (hg : g (o.element m) = o.element m) :
    o.modifyElement g m = o := by
  cases m <;> simp only [StreamProviderParserPrototype.element] at hg <;>
    simp [StreamProviderParserPrototype.modifyElement, hg]

/-- `operator=` between an element and the element it was copied from changes
nothing: pattern and type are equal already, and the source is assigned to
itself through the common reference. -/
theorem ParsingElement.assign_copy (heap : Heap) (n this : Nat) (m : ElementMember)
    (e : ParsingElement) (hne : n ≠ this)
    (h1 : heap.readElement n m = some e) (h2 : heap.readElement this m = some e)
    (hr : e.parsingSource < heap.length) :
    ParsingElement.assign heap (n, m) (this, m) = some heap := by
  obtain ⟨I, hI, hIe⟩ : ∃ I, heap[n]? = some I ∧ I.element m = e := by
    simpa [Heap.readElement] using h1
  have hmod1 : heap.modifyObject n
      (fun obj => obj.modifyElement (fun e' => { e' with parseType := e.parseType }) m)
      = some heap :=
    Heap.modifyObject_id heap n I _ hI (modifyElement_id I m _ (by rw [hIe]))
  have hmod2 : heap.modifyObject n
      (fun obj => obj.modifyElement (fun e' => { e' with regexPattern := e.regexPattern }) m)
      = some heap :=
    Heap.modifyObject_id heap n I _ hI (modifyElement_id I m _ (by rw [hIe]))
  have hsrc : heap.readSource e.parsingSource = some heap[e.parsingSource].m_parsingSource := by
    simp [Heap.readSource, List.getElem?_eq_getElem hr]
  have hwrite : heap.writeSource e.parsingSource heap[e.parsingSource].m_parsingSource
      = some heap :=
    Heap.modifyObject_id heap _ heap[e.parsingSource] _ (List.getElem?_eq_getElem hr) rfl
  have hneq : ¬ ((n, m) = (this, m)) := by
    intro h
    exact hne (congrArg Prod.fst h)
  simp [ParsingElement.assign, hneq, h1, h2, hmod1, hmod2, hsrc, hwrite]

/-- A rule evaluates to its value against the source it is bound to. -/
theorem ParsingElement.call_eq_ruleValue (ext : Externals) (heap : Heap) (e : ParsingElement)
    (src : ParsingSource) (hs : heap.readSource e.parsingSource = some src) :
    e.call ext heap = some (ruleValue ext e src.url src.title) := by
  unfold ParsingElement.call ruleValue
  cases hv : e.isValid with
  | false => simp
  | true => cases ht : e.parseType <;> simp [hs]

theorem parseTitle_eq_parseTitleOn (ext : Externals) (heap : Heap) (this : Nat)
    (self : StreamProviderParserPrototype) (src : ParsingSource)
    (hself : heap[this]? = some self)
    (hs1 : heap.readSource self.m_episodeTitleParsing.parsingSource = some src)
    (hs2 : heap.readSource self.m_episodeNumberParsing.parsingSource = some src) :
    parseTitle ext heap this = some (parseTitleOn ext self src.url src.title) := by
  have c1 := ParsingElement.call_eq_ruleValue ext heap _ src hs1
  have c2 := ParsingElement.call_eq_ruleValue ext heap _ src hs2
  unfold parseTitle parseTitleOn
  simp only [hself, c1, c2]
  rcases ruleValue ext self.m_episodeTitleParsing src.url src.title with ⟨r1 | t, f1⟩
  · rfl
  · rcases ruleValue ext self.m_episodeNumberParsing src.url src.title with ⟨r2 | n, f2⟩ <;> rfl

theorem Heap.readElement_set_source (heap : Heap) (r i : Nat) (m : ElementMember)
    (o : StreamProviderParserPrototype) (v : ParsingSource) (h : heap[r]? = some o) :
    Heap.readElement (heap.set r { o with m_parsingSource := v }) i m = heap.readElement i m := by
  have hlt : r < heap.length := (List.getElem?_eq_some_iff.mp h).1
  unfold Heap.readElement
  rw [List.getElem?_set]
  by_cases hri : r = i
  · subst hri
    simp only [if_true, hlt, h, Option.map_some']
    cases m <;> rfl
  · simp [hri]

theorem Heap.readSource_set_source (heap : Heap) (r i : Nat)
    (o : StreamProviderParserPrototype) (v : ParsingSource) (h : heap[r]? = some o) :
    Heap.readSource (heap.set r { o with m_parsingSource := v }) i
      = if r = i then some v else heap.readSource i := by
  have hlt : r < heap.length := (List.getElem?_eq_some_iff.mp h).1
  unfold Heap.readSource
  rw [List.getElem?_set]
  by_cases hri : r = i
  · subst hri
    simp [hlt]
  · simp [hri]

/-- The heap after `createNewInstance`, for any allocated object of a well-formed
heap: the copy with source `(url, title)` is appended, and `(url, title)` is
stored in the objects to which the two rules of the original are bound. -/
theorem createNewInstance_eq (heap : Heap) (this : Nat) (url title : String)
    (T : StreamProviderParserPrototype) (hwf : heap.WF) (hT : heap[this]? = some T) :
    ∃ (o1 o2 : StreamProviderParserPrototype),
      (heap ++ [{ T with m_parsingSource := { url := url, title := title } }])[
          T.m_episodeTitleParsing.parsingSource]? = some o1
        ∧ ((heap ++ [{ T with m_parsingSource := { url := url, title := title } }]).set
            T.m_episodeTitleParsing.parsingSource
            { o1 with m_parsingSource := { url := url, title := title } })[
          T.m_episodeNumberParsing.parsingSource]? = some o2
        ∧ createNewInstance heap this url title
          = some
              (((heap ++ [{ T with m_parsingSource := { url := url, title := title } }]).set
                  T.m_episodeTitleParsing.parsingSource
                  { o1 with m_parsingSource := { url := url, title := title } }).set
                T.m_episodeNumberParsing.parsingSource
                { o2 with m_parsingSource := { url := url, title := title } },
               heap.length) := by
  have hp : this < heap.length := (List.getElem?_eq_some_iff.mp hT).1
  have hTmem : T ∈ heap := List.getElem?_mem hT
  obtain ⟨hr1, hr2⟩ := hwf T hTmem
  -- the copy and the two assignments to its own source
  have ea : Heap.modifyObject (heap ++ [T]) heap.length
      (fun o => { o with m_parsingSource := { o.m_parsingSource with url := url } })
      = some (heap ++ [{ T with m_parsingSource := { T.m_parsingSource with url := url } }]) := by
    simp [Heap.modifyObject]
  have eb : Heap.modifyObject
      (heap ++ [{ T with m_parsingSource := { T.m_parsingSource with url := url } }]) heap.length
      (fun o => { o with m_parsingSource := { o.m_parsingSource with title := title } })
      = some (heap ++ [{ T with m_parsingSource := { url := url, title := title } }]) := by
    simp [Heap.modifyObject]
  obtain ⟨H0, hH0⟩ : ∃ H0 : Heap,
      H0 = heap ++ [{ T with m_parsingSource := { url := url, title := title } }] := ⟨_, rfl⟩
  rw [← hH0] at eb
  have hlen0 : H0.length = heap.length + 1 := by
    rw [hH0]
    simp
  have h0n : H0[heap.length]?
      = some { T with m_parsingSource := { url := url, title := title } } := by
    rw [hH0]
    simp
  have h0this : H0[this]? = some T := by
    rw [hH0, List.getElem?_append_left hp, hT]
  have hne : heap.length ≠ this := by omega
  -- line 80
  have ec : ParsingElement.assign H0 (heap.length, .m_episodeTitleParsing)
      (this, .m_episodeTitleParsing) = some H0 :=
    ParsingElement.assign_copy H0 heap.length this .m_episodeTitleParsing
      T.m_episodeTitleParsing hne (by simp [Heap.readElement, h0n, StreamProviderParserPrototype.element])
      (by simp [Heap.readElement, h0this, StreamProviderParserPrototype.element]) (by omega)
  -- line 81
  obtain ⟨o1, ho1⟩ : ∃ o1, H0[T.m_episodeTitleParsing.parsingSource]? = some o1 :=
    ⟨_, List.getElem?_eq_getElem (by omega)⟩
  have ed : assignOwnSource H0 heap.length .m_episodeTitleParsing
      = some (H0.set T.m_episodeTitleParsing.parsingSource
          { o1 with m_parsingSource := { url := url, title := title } }) := by
    simp [assignOwnSource, Heap.readElement, Heap.readSource, h0n,
      StreamProviderParserPrototype.element, Heap.writeSource_eq H0 _ _ o1 ho1]
  obtain ⟨H1, hH1⟩ : ∃ H1 : Heap,
      H1 = H0.set T.m_episodeTitleParsing.parsingSource
        { o1 with m_parsingSource := { url := url, title := title } } := ⟨_, rfl⟩
  rw [← hH1] at ed
  have hlen1 : H1.length = heap.length + 1 := by
    rw [hH1]
    simp [hlen0]
  have h1elem : ∀ i m, H1.readElement i m = H0.readElement i m := by
    intro i m
    rw [hH1]
    exact Heap.readElement_set_source H0 _ i m o1 _ ho1
  have h1n : H1.readSource heap.length = some { url := url, title := title } := by
    rw [hH1, Heap.readSource_set_source H0 _ _ o1 _ ho1]
    have : T.m_episodeTitleParsing.parsingSource ≠ heap.length := by omega
    simp [this, Heap.readSource, h0n]
  -- line 82
  have ee : ParsingElement.assign H1 (heap.length, .m_episodeNumberParsing)
      (this, .m_episodeNumberParsing) = some H1 :=
    ParsingElement.assign_copy H1 heap.length this .m_episodeNumberParsing
      T.m_episodeNumberParsing hne
      (by rw [h1elem]; simp [Heap.readElement, h0n, StreamProviderParserPrototype.element])
      (by rw [h1elem]; simp [Heap.readElement, h0this, StreamProviderParserPrototype.element])
      (by omega)
  -- line 83
  obtain ⟨o2, ho2⟩ : ∃ o2, H1[T.m_episodeNumberParsing.parsingSource]? = some o2 :=
    ⟨_, List.getElem?_eq_getElem (by omega)⟩
  have ef : assignOwnSource H1 heap.length .m_episodeNumberParsing
      = some (H1.set T.m_episodeNumberParsing.parsingSource
          { o2 with m_parsingSource := { url := url, title := title } }) := by
    have hel : H1.readElement heap.length .m_episodeNumberParsing
        = some T.m_episodeNumberParsing := by
      rw [h1elem]
      simp [Heap.readElement, h0n, StreamProviderParserPrototype.element]
    simp [assignOwnSource, hel, h1n, Heap.writeSource_eq H1 _ _ o2 ho2]
  rw [hH0] at ho1
  refine ⟨o1, o2, ho1, ?_, ?_⟩
  · rw [← hH0, ← hH1]
    exact ho2
  · rw [← hH0, ← hH1]
    simp [createNewInstance, hT, ea, eb, ec, ed, ee, ef]

/-- C17: a fresh instance evaluates against its arguments.  For an allocated
object `T` of a well-formed heap, `createNewInstance(url, title)` returns a new
object `I` with the display name, enabled flag, url pattern and rule patterns
and source types of `T`; the `ParsingSource` of `I` is `(url, title)`; and the
source that each of its rules is bound to holds `(url, title)`, so that each
rule, and `parseTitle()`, evaluated right after the creation, gives the first
match in the given title (WindowTitle rule) or in the given url (Url rule), not
in the unset sentinel values. -/
theorem createNewInstance_fresh_instance (ext : Externals) (heap : Heap) (this : Nat)
    (url title : String) (T : StreamProviderParserPrototype)
    (hwf : heap.WF) (hT : heap[this]? = some T) :
    ∃ (heap' : Heap) (I : StreamProviderParserPrototype),
      createNewInstance heap this url title = some (heap', heap.length)
        ∧ heap'[heap.length]? = some I
        ∧ I.m_humanReadableName = T.m_humanReadableName
        ∧ I.m_enabled = T.m_enabled
        ∧ I.m_regexUrlSupported = T.m_regexUrlSupported
        ∧ I.m_episodeTitleParsing.regexPattern = T.m_episodeTitleParsing.regexPattern
        ∧ I.m_episodeTitleParsing.parseType = T.m_episodeTitleParsing.parseType
        ∧ I.m_episodeNumberParsing.regexPattern = T.m_episodeNumberParsing.regexPattern
        ∧ I.m_episodeNumberParsing.parseType = T.m_episodeNumberParsing.parseType
        ∧ I.m_parsingSource = { url := url, title := title }
        ∧ heap'.readSource I.m_episodeTitleParsing.parsingSource
            = some { url := url, title := title }
        ∧ heap'.readSource I.m_episodeNumberParsing.parsingSource
            = some { url := url, title := title }
        ∧ (∀ rule : ParsingElement,
            (rule = I.m_episodeTitleParsing ∨ rule = I.m_episodeNumberParsing) →
            rule.isValid = true →
            (rule.parseType = ParseSourceType.WindowTitle →
                rule.call ext heap' = some (.ok (ext.FirstMatchRegex title rule.regexPattern), []))
              ∧ (rule.parseType = ParseSourceType.Url →
                rule.call ext heap' = some (.ok (ext.FirstMatchRegex url rule.regexPattern), [])))
        ∧ parseTitle ext heap' heap.length = some (parseTitleOn ext T url title) := by
  obtain ⟨o1, o2, ho1, ho2, hcreate⟩ := createNewInstance_eq heap this url title T hwf hT
  have hTmem : T ∈ heap := List.getElem?_mem hT
  obtain ⟨hr1, hr2⟩ := hwf T hTmem
  have hn1 : T.m_episodeTitleParsing.parsingSource ≠ heap.length := by omega
  have hn2 : T.m_episodeNumberParsing.parsingSource ≠ heap.length := by omega
  obtain ⟨H2, hH2⟩ : ∃ H2 : Heap, H2
      = ((heap ++ [{ T with m_parsingSource := { url := url, title := title } }]).set
          T.m_episodeTitleParsing.parsingSource
          { o1 with m_parsingSource := { url := url, title := title } }).set
        T.m_episodeNumberParsing.parsingSource
        { o2 with m_parsingSource := { url := url, title := title } } := ⟨_, rfl⟩
  rw [← hH2] at hcreate
  have hI : H2[heap.length]?
      = some { T with m_parsingSource := { url := url, title := title } } := by
    rw [hH2, List.getElem?_set_ne hn2, List.getElem?_set_ne hn1]
    simp
  have hsrc2 : H2.readSource T.m_episodeNumberParsing.parsingSource
      = some { url := url, title := title } := by
    rw [hH2, Heap.readSource_set_source _ _ _ o2 _ ho2]
    simp
  have hsrc1 : H2.readSource T.m_episodeTitleParsing.parsingSource
      = some { url := url, title := title } := by
    rw [hH2, Heap.readSource_set_source _ _ _ o2 _ ho2,
      Heap.readSource_set_source _ _ _ o1 _ ho1]
    simp
  refine ⟨H2, _, hcreate, hI, rfl, rfl, rfl, rfl, rfl, rfl, rfl, rfl, hsrc1, hsrc2, ?_, ?_⟩
  · intro rule hrule hvalid
    have hs : H2.readSource rule.parsingSource = some { url := url, title := title } := by
      rcases hrule with h | h <;> subst h
      · exact hsrc1
      · exact hsrc2
    have hcall := ParsingElement.call_eq_ruleValue ext H2 rule _ hs
    constructor
    · intro ht
      rw [hcall]
      simp [ruleValue, hvalid, ht]
    · intro ht
      rw [hcall]
      simp [ruleValue, hvalid, ht]
  · exact parseTitle_eq_parseTitleOn ext H2 heap.length
      { T with m_parsingSource := { url := url, title := title } }
      { url := url, title := title } hI hsrc1 hsrc2

/-- C17 at the sample template: the instance made for the window title
`"Show Name Episode 5"` resolves exactly that title. -/
theorem createNewInstance_fresh_instance_witness :
    ∃ heap' : Heap,
      createNewInstance sampleHeap 0 "http://example.org/watch/5" "Show Name Episode 5"
          = some (heap', 1)
        ∧ parseTitle sampleExternals heap' 1 = some (.ok "Show Name Episode 5", []) := by
  obtain ⟨heap', I, hc, _, _, _, _, _, _, _, _, _, _, _, _, hparse⟩ :=
    createNewInstance_fresh_instance sampleExternals sampleHeap 0
      "http://example.org/watch/5" "Show Name Episode 5" sampleTemplate sampleHeap_WF rfl
  exact ⟨heap', hc, hparse.trans rfl⟩

/-! ## The enabled flag -/

theorem Heap.eraseEnabled_getElem? (heap : Heap) (p : Nat) :
    heap.eraseEnabled[p]? = (heap[p]?).map clearEnabled := by
  simp [Heap.eraseEnabled]

theorem Heap.modifyObject_eraseEnabled (heap : Heap) (p : Nat)
    (f : StreamProviderParserPrototype → StreamProviderParserPrototype)
    (hf : ∀ o, f (clearEnabled o) = clearEnabled (f o)) :
    Heap.modifyObject heap.eraseEnabled p f
      = (Heap.modifyObject heap p f).map Heap.eraseEnabled := by
  unfold Heap.modifyObject
  rw [Heap.eraseEnabled_getElem?]
  cases heap[p]? with
  | none => rfl
  | some o => simp [Heap.eraseEnabled, List.map_set, hf]

theorem Heap.readElement_eraseEnabled (heap : Heap) (p : Nat) (m : ElementMember) :
    Heap.readElement heap.eraseEnabled p m = Heap.readElement heap p m := by
  unfold Heap.readElement
  rw [Heap.eraseEnabled_getElem?]
  cases heap[p]? with
  | none => rfl
  | some o => cases m <;> rfl

theorem Heap.readSource_eraseEnabled (heap : Heap) (p : Nat) :
    Heap.readSource heap.eraseEnabled p = Heap.readSource heap p := by
  unfold Heap.readSource
  rw [Heap.eraseEnabled_getElem?]
  cases heap[p]? <;> rfl

theorem Heap.writeSource_eraseEnabled (heap : Heap) (r : Nat) (v : ParsingSource) :
    Heap.writeSource heap.eraseEnabled r v
      = (Heap.writeSource heap r v).map Heap.eraseEnabled :=
  Heap.modifyObject_eraseEnabled heap r _ (fun _ => rfl)

theorem modifyElement_clearEnabled (g : ParsingElement → ParsingElement) (m : ElementMember)
    (o : StreamProviderParserPrototype) :
    (clearEnabled o).modifyElement g m = clearEnabled (o.modifyElement g m) := by
  cases m <;> rfl

theorem ParsingElement.assign_eraseEnabled (heap : Heap) (this other : Nat × ElementMember) :
    ParsingElement.assign heap.eraseEnabled this other
      = (ParsingElement.assign heap this other).map Heap.eraseEnabled := by
  unfold ParsingElement.assign
  split
  · rfl
  · simp only [Heap.readElement_eraseEnabled, Option.bind_eq_bind]
    cases heap.readElement other.1 other.2 with
    | none => rfl
    | some o =>
      simp only [Option.some_bind]
      rw [Heap.modifyObject_eraseEnabled _ _ _ (modifyElement_clearEnabled _ _)]
      cases heap.modifyObject this.1
          (fun obj => obj.modifyElement (fun e => { e with parseType := o.parseType }) this.2) with
      | none => rfl
      | some h1 =>
        simp only [Option.map_some', Option.some_bind, Heap.readElement_eraseEnabled]
        cases h1.readElement other.1 other.2 with
        | none => rfl
        | some o' =>
          simp only [Option.some_bind]
          rw [Heap.modifyObject_eraseEnabled _ _ _ (modifyElement_clearEnabled _ _)]
          cases h1.modifyObject this.1
              (fun obj => obj.modifyElement
                (fun e => { e with regexPattern := o'.regexPattern }) this.2) with
          | none => rfl
          | some h2 =>
            simp only [Option.map_some', Option.some_bind, Heap.readElement_eraseEnabled,
              Heap.readSource_eraseEnabled, Heap.writeSource_eraseEnabled]
            cases h2.readElement this.1 this.2 with
            | none => rfl
            | some t =>
              cases h2.readElement other.1 other.2 with
              | none => rfl
              | some o'' =>
                simp only [Option.some_bind]
                cases h2.readSource o''.parsingSource with
                | none => rfl
                | some v => rfl

theorem assignOwnSource_eraseEnabled (heap : Heap) (newInstance : Nat) (m : ElementMember) :
    assignOwnSource heap.eraseEnabled newInstance m
      = (assignOwnSource heap newInstance m).map Heap.eraseEnabled := by
  unfold assignOwnSource
  simp only [Heap.readElement_eraseEnabled, Heap.readSource_eraseEnabled,
    Heap.writeSource_eraseEnabled, Option.bind_eq_bind]
  cases heap.readElement newInstance m with
  | none => rfl
  | some e =>
    simp only [Option.some_bind]
    cases heap.readSource newInstance with
    | none => rfl
    | some v => rfl

theorem Heap.eraseEnabled_length (heap : Heap) : heap.eraseEnabled.length = heap.length := by
  simp [Heap.eraseEnabled]

/-- `createNewInstance` does the same on a heap and on the heap with the flags
cleared. -/
theorem createNewInstance_eraseEnabled (heap : Heap) (this : Nat) (url title : String) :
    createNewInstance heap.eraseEnabled this url title
      = (createNewInstance heap this url title).map (fun r => (r.1.eraseEnabled, r.2)) := by
  unfold createNewInstance
  simp only [Heap.eraseEnabled_getElem?, Heap.eraseEnabled_length, Option.bind_eq_bind]
  cases heap[this]? with
  | none => rfl
  | some self =>
    simp only [Option.map_some', Option.some_bind]
    have happ : heap.eraseEnabled ++ [clearEnabled self] = Heap.eraseEnabled (heap ++ [self]) := by
      simp [Heap.eraseEnabled]
    rw [happ, Heap.modifyObject_eraseEnabled (heap ++ [self]) heap.length
      (fun o => { o with m_parsingSource := { o.m_parsingSource with url := url } })
      (fun _ => rfl)]
    cases (heap ++ [self]).modifyObject heap.length
        (fun o => { o with m_parsingSource := { o.m_parsingSource with url := url } }) with
    | none => rfl
    | some h1 =>
      simp only [Option.map_some', Option.some_bind]
      rw [Heap.modifyObject_eraseEnabled h1 heap.length
        (fun o => { o with m_parsingSource := { o.m_parsingSource with title := title } })
        (fun _ => rfl)]
      cases h1.modifyObject heap.length
          (fun o => { o with m_parsingSource := { o.m_parsingSource with title := title } }) with
      | none => rfl
      | some h2 =>
        simp only [Option.map_some', Option.some_bind, ParsingElement.assign_eraseEnabled]
        cases ParsingElement.assign h2 (heap.length, .m_episodeTitleParsing)
            (this, .m_episodeTitleParsing) with
        | none => rfl
        | some h3 =>
          simp only [Option.map_some', Option.some_bind, assignOwnSource_eraseEnabled]
          cases assignOwnSource h3 heap.length .m_episodeTitleParsing with
          | none => rfl
          | some h4 =>
            simp only [Option.map_some', Option.some_bind, ParsingElement.assign_eraseEnabled]
            cases ParsingElement.assign h4 (heap.length, .m_episodeNumberParsing)
                (this, .m_episodeNumberParsing) with
            | none => rfl
            | some h5 =>
              simp only [Option.map_some', Option.some_bind, assignOwnSource_eraseEnabled]
              cases assignOwnSource h5 heap.length .m_episodeNumberParsing with
              | none => rfl
              | some h6 => rfl

theorem supportsUrl_eraseEnabled (ext : Externals) (heap : Heap) (this : Nat) (url : String) :
    supportsUrl ext heap.eraseEnabled this url = supportsUrl ext heap this url := by
  unfold supportsUrl
  rw [Heap.eraseEnabled_getElem?]
  cases heap[this]? <;> rfl

theorem createStreamProviderParser_loop_eraseEnabled (ext : Externals) (heap : Heap)
    (url title : String) (l : List Nat) :
    createStreamProviderParser_loop ext heap.eraseEnabled url title l
      = (createStreamProviderParser_loop ext heap url title l).map
          (fun r => (r.1.eraseEnabled, r.2)) := by
  induction l with
  | nil => rfl
  | cons p rest ih =>
    rw [createStreamProviderParser_loop, createStreamProviderParser_loop,
      supportsUrl_eraseEnabled]
    cases supportsUrl ext heap p url with
    | none => rfl
    | some b =>
      cases b with
      | false => exact ih
      | true =>
        simp only [createNewInstance_eraseEnabled]
        cases createNewInstance heap p url title <;> rfl

theorem createStreamProviderParser_eraseEnabled (ext : Externals) (heap : Heap)
    (factory : StreamProviderParserFactory) (url title : String) :
    createStreamProviderParser ext heap.eraseEnabled factory url title
      = (createStreamProviderParser ext heap factory url title).map
          (fun r => (r.1.eraseEnabled, r.2)) := by
  unfold createStreamProviderParser
  rw [createStreamProviderParser_loop_eraseEnabled]
  cases createStreamProviderParser_loop ext heap url title
    factory.m_streamProvidersParsersPrototypes <;> rfl

theorem ParsingElement.call_eraseEnabled (ext : Externals) (heap : Heap) (e : ParsingElement) :
    e.call ext heap.eraseEnabled = e.call ext heap := by
  unfold ParsingElement.call
  simp only [Heap.readSource_eraseEnabled]

theorem parseTitle_eraseEnabled (ext : Externals) (heap : Heap) (this : Nat) :
    parseTitle ext heap.eraseEnabled this = parseTitle ext heap this := by
  unfold parseTitle
  rw [Heap.eraseEnabled_getElem?]
  cases heap[this]? with
  | none => rfl
  | some self =>
    simp only [Option.map_some', ParsingElement.call_eraseEnabled]
    rfl

/-- The result of the provider step does not change when the flags are cleared. -/
theorem GetTitleFromStreamingMediaProvider_eraseEnabled (ext : Externals) (mp : MediaPlayers)
    (url title : String) :
    (GetTitleFromStreamingMediaProvider ext { mp with heap := mp.heap.eraseEnabled } url
        title).map (fun r => r.1)
      = (GetTitleFromStreamingMediaProvider ext mp url title).map (fun r => r.1) := by
  unfold GetTitleFromStreamingMediaProvider
  split
  · rfl
  · simp only [createStreamProviderParser_eraseEnabled]
    cases createStreamProviderParser ext mp.heap mp.m_streamProviderFactory url title with
    | none => rfl
    | some r =>
      obtain ⟨heap, parser⟩ := r
      simp only [Option.map_some']
      cases parser.m_parserPointer with
      | none => rfl
      | some p =>
        simp only [parseTitle_eraseEnabled]
        cases parseTitle ext heap p with
        | none => rfl
        | some q => rfl

/-- The loop instantiates the first template that supports the url. -/
theorem createStreamProviderParser_loop_at (ext : Externals) (heap : Heap) (url title : String)
    (before : List Nat) (p : Nat) (after : List Nat)
    (hbefore : ∀ q ∈ before, supportsUrl ext heap q url = some false)
    (hp : supportsUrl ext heap p url = some true) :
    createStreamProviderParser_loop ext heap url title (before ++ p :: after)
      = (createNewInstance heap p url title).map (fun r => (r.1, some r.2)) := by
  induction before with
  | nil => simp [createStreamProviderParser_loop, hp]
  | cons q rest ih =>
    rw [List.cons_append, createStreamProviderParser_loop, hbefore q (List.mem_cons_self _ _)]
    exact ih (fun x hx => hbefore x (List.mem_cons_of_mem _ hx))

/-- C16: the enabled flag does not gate matching.  When `heap2` differs from
`heap` in enabled flags only, every template supports the same urls in both,
`createStreamProviderParser` selects the same template and returns the same
pointer, leaving heaps that again differ in enabled flags only, and the
provider step resolves the same title; and a template that is disabled is
instantiated when it is the first of the catalog that supports the url. -/
theorem enabled_flag_does_not_gate (ext : Externals) (heap heap2 : Heap)
    (factory : StreamProviderParserFactory) (url title : String)
    (hsame : heap2.eraseEnabled = heap.eraseEnabled) :
    (∀ p : Nat, supportsUrl ext heap2 p url = supportsUrl ext heap p url)
      ∧ (createStreamProviderParser ext heap2 factory url title).map
            (fun r => (r.1.eraseEnabled, r.2))
          = (createStreamProviderParser ext heap factory url title).map
            (fun r => (r.1.eraseEnabled, r.2))
      ∧ (∀ mp mp2 : MediaPlayers,
          mp.heap = heap → mp2.heap = heap2 →
          mp.m_streamProviderFactory = factory → mp2.m_streamProviderFactory = factory →
          (GetTitleFromStreamingMediaProvider ext mp2 url title).map (fun r => r.1)
            = (GetTitleFromStreamingMediaProvider ext mp url title).map (fun r => r.1))
      ∧ (∀ (before : List Nat) (p : Nat) (after : List Nat) (T : StreamProviderParserPrototype),
          factory.m_streamProvidersParsersPrototypes = before ++ p :: after →
          (∀ q ∈ before, supportsUrl ext heap q url = some false) →
          heap[p]? = some T → T.m_enabled = 0 →
          ext.SearchRegex url T.m_regexUrlSupported = true →
          createStreamProviderParser ext heap factory url title
            = (createNewInstance heap p url title).map
                (fun r => (r.1, StreamProviderParserRaii.ctor (some r.2)))) := by
  refine ⟨?_, ?_, ?_, ?_⟩
  · intro p
    rw [← supportsUrl_eraseEnabled ext heap2, ← supportsUrl_eraseEnabled ext heap, hsame]
  · rw [← createStreamProviderParser_eraseEnabled, ← createStreamProviderParser_eraseEnabled,
      hsame]
  · intro mp mp2 h1 h2 h3 h4
    rw [← GetTitleFromStreamingMediaProvider_eraseEnabled ext mp2,
      ← GetTitleFromStreamingMediaProvider_eraseEnabled ext mp]
    apply GetTitleFromStreamingMediaProvider_result_congr
    · show mp2.heap.eraseEnabled = mp.heap.eraseEnabled
      rw [h1, h2, hsame]
    · show mp2.m_streamProviderFactory = mp.m_streamProviderFactory
      rw [h3, h4]
  · intro before p after T hcat hbefore hT _ hsearch
    have hp : supportsUrl ext heap p url = some true := by
      simp [supportsUrl, hT, hsearch]
    unfold createStreamProviderParser
    rw [hcat, createStreamProviderParser_loop_at ext heap url title before p after hbefore hp]
    cases createNewInstance heap p url title <;> rfl

/-- C16 at the sample catalog with its template enabled and disabled: the same
template is instantiated, and the disabled template is selected. -/
theorem enabled_flag_does_not_gate_witness :
    (createStreamProviderParser sampleExternals sampleHeap sampleFactory
          "http://example.org/watch/5" "Show Name Episode 5").map
        (fun r => (r.1.eraseEnabled, r.2))
      = (createStreamProviderParser sampleExternals sampleDisabledHeap sampleFactory
          "http://example.org/watch/5" "Show Name Episode 5").map
        (fun r => (r.1.eraseEnabled, r.2))
      ∧ createStreamProviderParser sampleExternals sampleDisabledHeap sampleFactory
          "http://example.org/watch/5" "Show Name Episode 5"
        = (createNewInstance sampleDisabledHeap 0 "http://example.org/watch/5"
            "Show Name Episode 5").map
            (fun r => (r.1, StreamProviderParserRaii.ctor (some r.2))) :=
  ⟨(enabled_flag_does_not_gate sampleExternals sampleDisabledHeap sampleHeap sampleFactory
      "http://example.org/watch/5" "Show Name Episode 5" (by decide)).2.1,
   (enabled_flag_does_not_gate sampleExternals sampleDisabledHeap sampleHeap sampleFactory
      "http://example.org/watch/5" "Show Name Episode 5" (by decide)).2.2.2 [] 0 []
      { sampleTemplate with m_enabled := 0 } rfl (by simp) rfl rfl (by decide)⟩

/-! ## The remaining properties of the mappings and of the provider step -/

/-- C22: the two string mappings of `ParseSourceType` are mutually inverse on the
enumeration.  Whether assertions are compiled in or not, both functions return
on these inputs (so their assertions hold); mapping a source type to its string
and back gives the source type, and mapping one of the four strings to its
source type and back gives the string. -/
theorem ParseSourceType_mappings_inverse (NDEBUG : Bool) :
    (∀ t : ParseSourceType,
        ∃ s : String,
          taigaParseSourceTypeToWString NDEBUG t = some s
            ∧ taigaWStringToParseSourceType NDEBUG s = some t)
      ∧ (∀ s : String, s ∈ ["invalid", "window_title", "url", "html_source"] →
          ∃ t : ParseSourceType,
            taigaWStringToParseSourceType NDEBUG s = some t
              ∧ taigaParseSourceTypeToWString NDEBUG t = some s) := by
  constructor
  · intro t
    cases NDEBUG <;> cases t
    · exact ⟨"invalid", by decide, by decide⟩
    · exact ⟨"window_title", by decide, by decide⟩
    · exact ⟨"url", by decide, by decide⟩
    · exact ⟨"html_source", by decide, by decide⟩
    · exact ⟨"invalid", by decide, by decide⟩
    · exact ⟨"window_title", by decide, by decide⟩
    · exact ⟨"url", by decide, by decide⟩
    · exact ⟨"html_source", by decide, by decide⟩
  · intro s hs
    simp only [List.mem_cons, List.mem_singleton, List.not_mem_nil, or_false] at hs
    cases NDEBUG <;> rcases hs with h | h | h | h <;> subst h
    · exact ⟨.Invalid, by decide, by decide⟩
    · exact ⟨.WindowTitle, by decide, by decide⟩
    · exact ⟨.Url, by decide, by decide⟩
    · exact ⟨.HtmlSource, by decide, by decide⟩
    · exact ⟨.Invalid, by decide, by decide⟩
    · exact ⟨.WindowTitle, by decide, by decide⟩
    · exact ⟨.Url, by decide, by decide⟩
    · exact ⟨.HtmlSource, by decide, by decide⟩

/-- C22 with assertions compiled in, at the string `"html_source"`. -/
theorem ParseSourceType_mappings_inverse_witness :
    ∃ t : ParseSourceType,
      taigaWStringToParseSourceType false "html_source" = some t
        ∧ taigaParseSourceTypeToWString false t = some "html_source" :=
  (ParseSourceType_mappings_inverse false).2 "html_source" (by simp)

/-- C23: an empty url or an empty window title never reaches the catalog.
`GetTitleFromStreamingMediaProvider(url, title)` returns the empty string and
leaves the state as it is (no catalog lookup is recorded, the heap is not
touched) whenever `url` or `title` is empty, whatever the catalog holds; so a
call of `GetTitleFromBrowser` whose address element has an empty `value`
returns the empty string, with the heap untouched. -/
theorem GetTitleFromStreamingMediaProvider_empty_input (ext : Externals) (mp : MediaPlayers)
    (url title : String) (h : url = "" ∨ title = "") :
    GetTitleFromStreamingMediaProvider ext mp url title = some (.ok "", mp)
      ∧ (∀ (mp0 : MediaPlayers) (hwnd : Window) (web_engine : WebBrowserEngine)
          (child : AccessibleChild),
          mp0.lastWindowTitle ≠ hwnd.GetWindowTitle →
          engineOfName hwnd.engine = some web_engine →
          ¬ hwnd.anime_id > 0 →
          (mp0.browser_data = [] ∨ mp0.browser_data = InitializeBrowserData []) →
          addressElement ext web_engine (hwnd.tree web_engine) = some child →
          child.value = "" →
          ∃ mp1 : MediaPlayers,
            GetTitleFromBrowser ext mp0 hwnd = some (.ok "", mp1) ∧ mp1.heap = mp0.heap) := by
  have key : ∀ (m : MediaPlayers) (u t : String), (u = "" ∨ t = "") →
      GetTitleFromStreamingMediaProvider ext m u t = some (.ok "", m) := by
    intro m u t hut
    have hcond : (u.isEmpty || t.isEmpty) = true := by
      rcases hut with hu | ht
      · simp [(string_isEmpty_iff u).mpr hu]
      · simp [(string_isEmpty_iff t).mpr ht]
    unfold GetTitleFromStreamingMediaProvider
    simp only [hcond, if_true]
  refine ⟨key mp url title h, ?_⟩
  intro mp0 hwnd web_engine child hchanged hengine hanime hdata haddr hval
  obtain ⟨mp1, hheap, _, _, hcall⟩ :=
    GetTitleFromBrowser_untracked ext mp0 hwnd web_engine hchanged hengine hanime hdata
  refine ⟨mp1, ?_, hheap⟩
  rw [hcall, haddr]
  exact key mp1 child.value hwnd.GetWindowTitle (Or.inl hval)

/-- C23 at a catalog whose template supports the empty url: the provider step
still returns the empty string and does not change the state. -/
theorem GetTitleFromStreamingMediaProvider_empty_input_witness :
    supportsUrl sampleExternals sampleAnyUrlMediaPlayers.heap 0 "" = some true
      ∧ GetTitleFromStreamingMediaProvider sampleExternals sampleAnyUrlMediaPlayers ""
          "Show Name Episode 5" = some (.ok "", sampleAnyUrlMediaPlayers) :=
  ⟨by decide,
   (GetTitleFromStreamingMediaProvider_empty_input sampleExternals sampleAnyUrlMediaPlayers ""
      "Show Name Episode 5" (Or.inl rfl)).1⟩

/-! ## The parser handle -/

theorem sum_map_set {α : Type} (f : α → Nat) (l : List α) (i : Nat) (a x : α)
    (h : l[i]? = some a) : ((l.set i x).map f).sum + f a = (l.map f).sum + f x := by
  induction l generalizing i with
  | nil => simp at h
  | cons b rest ih =>
    cases i with
    | zero =>
      simp only [List.getElem?_cons_zero, Option.some.injEq] at h
      subst h
      simp only [List.set_cons_zero, List.map_cons, List.sum_cons]
      omega
    | succ j =>
      simp only [List.getElem?_cons_succ] at h
      have := ih j h
      simp only [List.set_cons_succ, List.map_cons, List.sum_cons]
      omega

/-- A copy construction that reads an initialized `m_handOverDeletion` leaves
exactly one of the two handles involved with the delete flag, whatever the flag
of the source was before. -/
theorem StreamProviderParserRaii.copy_dtor (other created left : StreamProviderParserRaii)
    (h : other.copy = some (created, left)) : created.dtor + left.dtor = 1 := by
  unfold StreamProviderParserRaii.copy at h
  cases hb : other.m_handOverDeletion with
  | none => simp [hb] at h
  | some handOver =>
    simp only [hb, Option.some.injEq, Prod.mk.injEq] at h
    obtain ⟨h1, h2⟩ := h
    subst h1 h2
    cases handOver <;> simp [StreamProviderParserRaii.dtor]

/-- A copy construction from a handle that has the delete flag keeps the number
of flagged handles; from a handle that does not have it, it adds one. -/
theorem releases_copy (handles next : List StreamProviderParserRaii) (source : Nat)
    (other : StreamProviderParserRaii) (h : handles[source]? = some other)
    (happly : HandleOp.apply handles (.copy source) = some next) :
    releases next + other.dtor = releases handles + 1 := by
  simp only [HandleOp.apply, h] at happly
  cases hc : other.copy with
  | none => simp [hc] at happly
  | some pair =>
    obtain ⟨created, left⟩ := pair
    simp only [hc, Option.some.injEq] at happly
    subst happly
    have hsum := sum_map_set StreamProviderParserRaii.dtor handles source other left h
    have hone := StreamProviderParserRaii.copy_dtor other created left hc
    simp only [releases, List.map_append, List.sum_append, List.map_cons,
      List.map_nil, List.sum_cons, List.sum_nil] at hsum ⊢
    omega

theorem releases_setHandOverDeletion (handles : List StreamProviderParserRaii) (handle : Nat)
    (flag : Bool) :
    ∃ next : List StreamProviderParserRaii,
      HandleOp.apply handles (.setHandOverDeletion handle flag) = some next
        ∧ releases next = releases handles := by
  cases h : handles[handle]? with
  | none => exact ⟨handles, by simp [HandleOp.apply, h], rfl⟩
  | some x =>
    refine ⟨handles.set handle (x.setHandOverDeletion flag), by simp [HandleOp.apply, h], ?_⟩
    have hsum := sum_map_set StreamProviderParserRaii.dtor handles handle x
      (x.setHandOverDeletion flag) h
    have hd : (x.setHandOverDeletion flag).dtor = x.dtor := rfl
    simp only [releases] at hsum ⊢
    omega

/-- Some handle always has the delete flag: in every run without an undefined
read the parser is released at least once. -/
theorem releases_pos (parser : Option Nat) (ops : List HandleOp)
    (handles : List StreamProviderParserRaii) (h : runHandleOps parser ops = some handles) :
    1 ≤ releases handles := by
  have step : ∀ (ops : List HandleOp) (start final : List StreamProviderParserRaii),
      1 ≤ releases start → runHandleOpsFrom start ops = some final → 1 ≤ releases final := by
    intro ops
    induction ops with
    | nil =>
      intro start final hs hrun
      simp only [runHandleOpsFrom, Option.some.injEq] at hrun
      rw [← hrun]
      exact hs
    | cons op rest ih =>
      intro start final hs hrun
      simp only [runHandleOpsFrom] at hrun
      cases happly : HandleOp.apply start op with
      | none => simp [happly] at hrun
      | some next =>
        simp only [happly] at hrun
        refine ih next final ?_ hrun
        cases op with
        | copy source =>
          cases hsrc : start[source]? with
          | none =>
            simp only [HandleOp.apply, hsrc, Option.some.injEq] at happly
            rw [← happly]
            exact hs
          | some other =>
            have := releases_copy start next source other hsrc happly
            have hle : other.dtor ≤ 1 := by
              unfold StreamProviderParserRaii.dtor
              split <;> omega
            omega
        | setHandOverDeletion handle flag =>
          obtain ⟨next2, h2, hr⟩ := releases_setHandOverDeletion start handle flag
          rw [happly, Option.some.injEq] at h2
          rw [h2, hr]
          exact hs
  exact step ops _ handles
    (by simp [releases, StreamProviderParserRaii.dtor, StreamProviderParserRaii.ctor]) h

/-- The one use of the handle in the sources, `StreamProviderParserRaii parser =
createStreamProviderParser(url, title)`: a handle constructed from the parser
and at most one copy of it.  Exactly one handle has the delete flag. -/
theorem releases_single_copy (parser : Option Nat) :
    (runHandleOps parser []).map releases = some 1
      ∧ (runHandleOps parser [.copy 0]).map releases = some 1 := by
  constructor <;> rfl

/-- A copy leaves `m_handOverDeletion` of the new handle without a value, so a
copy of the copy reads a member that was never written. -/
theorem copy_of_copy_undefined (parser : Option Nat) :
    runHandleOps parser [.copy 0, .copy 1] = none := by
  rfl

/-- C24 (the code departs from the claim): the delete flag is not unique.  After
`h0 = StreamProviderParserRaii(parser)` and two copies `h1`, `h2` of `h0`, every
read is of an initialized member, all three handles refer to the parser, `h0`
has lost the delete flag and both copies have it: the parser is released
twice. -/
theorem StreamProviderParserRaii_double_release (parser : Option Nat) :
    runHandleOps parser [.copy 0, .copy 0]
        = some [ { m_parserPointer := parser, m_handOverDeletion := some true, m_delete := false },
                 { m_parserPointer := parser, m_handOverDeletion := none, m_delete := true },
                 { m_parserPointer := parser, m_handOverDeletion := none, m_delete := true } ]
      ∧ (runHandleOps parser [.copy 0, .copy 0]).map releases = some 2 :=
  ⟨rfl, rfl⟩

/-! ## The memoized window title -/

theorem ParsingElement.call_some (ext : Externals) (heap : Heap) (e : ParsingElement)
    (hr : e.parsingSource < heap.length) :
    ∃ x : Except String String × List String, e.call ext heap = some x := by
  obtain ⟨src, hs⟩ := Heap.readSource_some heap e.parsingSource hr
  exact ⟨_, ParsingElement.call_eq_ruleValue ext heap e src hs⟩

/-- In a well-formed heap `parseTitle()` of an allocated object returns or
throws. -/
theorem parseTitle_some (ext : Externals) (heap : Heap) (this : Nat) (hwf : heap.WF)
    (hp : this < heap.length) :
    ∃ x : Except String String × List String, parseTitle ext heap this = some x := by
  have hself : heap[this]? = some heap[this] := List.getElem?_eq_getElem hp
  obtain ⟨hr1, hr2⟩ := hwf _ (List.getElem_mem hp)
  obtain ⟨⟨r1, f1⟩, c1⟩ := ParsingElement.call_some ext heap _ hr1
  obtain ⟨⟨r2, f2⟩, c2⟩ := ParsingElement.call_some ext heap _ hr2
  unfold parseTitle
  simp only [hself, c1]
  cases r1 with
  | error m => exact ⟨_, rfl⟩
  | ok t =>
    simp only [c2]
    cases r2 with
    | error m => exact ⟨_, rfl⟩
    | ok n => exact ⟨_, rfl⟩

/-- In a well-formed heap with a catalog of allocated templates
`createStreamProviderParser` returns, the heap stays well-formed, and the
handle is null or points to an allocated object. -/
theorem createStreamProviderParser_some (ext : Externals) (heap : Heap)
    (factory : StreamProviderParserFactory) (url title : String) (hwf : heap.WF)
    (hvalid : ∀ p ∈ factory.m_streamProvidersParsersPrototypes, p < heap.length) :
    ∃ (heap' : Heap) (parser : StreamProviderParserRaii),
      createStreamProviderParser ext heap factory url title = some (heap', parser)
        ∧ heap'.WF
        ∧ ∀ p : Nat, parser.m_parserPointer = some p → p < heap'.length := by
  by_cases hex : ∃ p ∈ factory.m_streamProvidersParsersPrototypes,
      supportsUrl ext heap p url = some true
  · obtain ⟨i, q, heap', h0, _, _, hc, hloop, hlen⟩ :=
      createStreamProviderParser_loop_first ext heap url title
        factory.m_streamProvidersParsersPrototypes hwf hvalid hex
    obtain ⟨heap'', hc', hwf', _⟩ := createNewInstance_some heap q url title hwf
      (hvalid q (List.getElem?_mem h0))
    have heq : heap'' = heap' := by
      rw [hc] at hc'
      simp only [Option.some.injEq, Prod.mk.injEq] at hc'
      exact hc'.1.symm
    subst heq
    refine ⟨heap'', StreamProviderParserRaii.ctor (some heap.length),
      by simp [createStreamProviderParser, hloop], hwf', ?_⟩
    intro p hp
    simp only [StreamProviderParserRaii.ctor, Option.some.injEq] at hp
    omega
  · have hall : ∀ p ∈ factory.m_streamProvidersParsersPrototypes,
        supportsUrl ext heap p url = some false := by
      intro p hp
      obtain ⟨b, hb⟩ := supportsUrl_some ext heap p url (hvalid p hp)
      cases b with
      | true => exact absurd ⟨p, hp, hb⟩ hex
      | false => exact hb
    have hloop := createStreamProviderParser_loop_none ext heap url title _ hall
    refine ⟨heap, StreamProviderParserRaii.ctor none,
      by simp [createStreamProviderParser, hloop], hwf, ?_⟩
    intro p hp
    simp [StreamProviderParserRaii.ctor] at hp

/-- In a well-formed heap the provider step returns or throws. -/
theorem GetTitleFromStreamingMediaProvider_some (ext : Externals) (mp : MediaPlayers)
    (url title : String) (hwf : mp.heap.WF)
    (hvalid : ∀ p ∈ mp.m_streamProviderFactory.m_streamProvidersParsersPrototypes,
      p < mp.heap.length) :
    ∃ (r : Except String String) (mp' : MediaPlayers),
      GetTitleFromStreamingMediaProvider ext mp url title = some (r, mp') := by
  unfold GetTitleFromStreamingMediaProvider
  split
  · exact ⟨_, _, rfl⟩
  · obtain ⟨heap', parser, hc, hwf', hptr⟩ :=
      createStreamProviderParser_some ext mp.heap mp.m_streamProviderFactory url title hwf hvalid
    simp only [hc]
    cases hpp : parser.m_parserPointer with
    | none => exact ⟨_, _, rfl⟩
    | some p =>
      obtain ⟨⟨r, fetched⟩, hparse⟩ := parseTitle_some ext heap' p hwf' (hptr p hpp)
      simp only [hparse]
      exact ⟨_, _, rfl⟩

theorem GetTitleFromBrowser_findUrl_some (ext : Externals) (mp : MediaPlayers) (hwnd : Window)
    (web_engine : WebBrowserEngine) (hwf : mp.heap.WF)
    (hvalid : ∀ p ∈ mp.m_streamProviderFactory.m_streamProvidersParsersPrototypes,
      p < mp.heap.length) :
    ∃ (r : Except String String) (mp' : MediaPlayers),
      GetTitleFromBrowser_findUrl ext mp hwnd web_engine = some (r, mp') := by
  unfold GetTitleFromBrowser_findUrl
  cases web_engine <;> dsimp only
  · exact ⟨_, _, rfl⟩
  all_goals
    split
    · rename_i child mp1 heq
      simp only [Prod.mk.injEq] at heq
      have h1 : mp1.heap = mp.heap := by rw [← heq.2]
      have h2 : mp1.m_streamProviderFactory = mp.m_streamProviderFactory := by rw [← heq.2]
      exact GetTitleFromStreamingMediaProvider_some ext mp1 _ _ (by rw [h1]; exact hwf)
        (by rw [h1, h2]; exact hvalid)
    · exact ⟨_, _, rfl⟩

/-- In a well-formed heap with a catalog of allocated templates every call of
`GetTitleFromBrowser` returns or throws. -/
theorem GetTitleFromBrowser_some (ext : Externals) (mp : MediaPlayers) (hwnd : Window)
    (hwf : mp.heap.WF)
    (hvalid : ∀ p ∈ mp.m_streamProviderFactory.m_streamProvidersParsersPrototypes,
      p < mp.heap.length) :
    ∃ (r : Except String String) (mp' : MediaPlayers),
      GetTitleFromBrowser ext mp hwnd = some (r, mp') := by
  by_cases hsame : mp.lastWindowTitle = hwnd.GetWindowTitle
  · exact ⟨.ok hwnd.current_title, mp, by simp [GetTitleFromBrowser, hsame]⟩
  · rw [GetTitleFromBrowser_changed ext mp hwnd hsame]
    cases engineOfName hwnd.engine with
    | none => exact ⟨_, _, rfl⟩
    | some web_engine =>
      dsimp only
      rw [GetTitleFromBrowser_withEngine_eq]
      split
      · exact ⟨_, _, rfl⟩
      · exact GetTitleFromBrowser_findUrl_some ext _ hwnd web_engine hwf hvalid

/-- C21: memo invariant.  Whatever path a call of `GetTitleFromBrowser` takes
(debounced, unknown engine, tracked check, address not found, provider
resolved or thrown), when it returns the memoized `lastWindowTitle` is the
window title read by that call; hence the next call that reads the same window
title returns `current_title()`, the title held outside the function, and
leaves the whole state as it was, so the record of events gains no tree build,
no search and no catalog lookup.  In a well-formed heap with a catalog of
allocated templates the call does return. -/
theorem GetTitleFromBrowser_memo_invariant (ext : Externals) (mp : MediaPlayers)
    (hwnd : Window) :
    (∀ (r : Except String String) (mp' : MediaPlayers),
        GetTitleFromBrowser ext mp hwnd = some (r, mp') →
          mp'.lastWindowTitle = hwnd.GetWindowTitle
            ∧ ∀ hwnd2 : Window, hwnd2.GetWindowTitle = hwnd.GetWindowTitle →
                GetTitleFromBrowser ext mp' hwnd2 = some (.ok hwnd2.current_title, mp'))
      ∧ (mp.heap.WF →
          (∀ p ∈ mp.m_streamProviderFactory.m_streamProvidersParsersPrototypes,
            p < mp.heap.length) →
          ∃ (r : Except String String) (mp' : MediaPlayers),
            GetTitleFromBrowser ext mp hwnd = some (r, mp')) := by
  refine ⟨?_, GetTitleFromBrowser_some ext mp hwnd⟩
  intro r mp' h
  have hmemo := GetTitleFromBrowser_lastWindowTitle ext mp hwnd r mp' h
  refine ⟨hmemo, ?_⟩
  intro hwnd2 hsame
  unfold GetTitleFromBrowser
  simp [hmemo, hsame]

/-- C21 at a Gecko window without address element: the first call searches the
empty tree for the three Gecko labels and returns the empty string, the memo
holds `"Blank page"`, and the next call on the same window returns the held
title with the four recorded events unchanged; the sample state satisfies the conditions under which the
call returns. -/
theorem GetTitleFromBrowser_memo_invariant_witness :
    GetTitleFromBrowser sampleExternals sampleMediaPlayers sampleNoAddressWindow
        = some (.ok "", sampleMediaPlayersNoAddress)
      ∧ sampleMediaPlayersNoAddress.lastWindowTitle = "Blank page"
      ∧ GetTitleFromBrowser sampleExternals sampleMediaPlayersNoAddress sampleNoAddressWindow
        = some (.ok "Show Name Episode 5", sampleMediaPlayersNoAddress)
      ∧ ∃ (r : Except String String) (mp' : MediaPlayers),
          GetTitleFromBrowser sampleExternals sampleMediaPlayers sampleNoAddressWindow
            = some (r, mp') :=
  ⟨rfl,
   ((GetTitleFromBrowser_memo_invariant sampleExternals sampleMediaPlayers
      sampleNoAddressWindow).1 (.ok "") sampleMediaPlayersNoAddress rfl).1,
   ((GetTitleFromBrowser_memo_invariant sampleExternals sampleMediaPlayers
      sampleNoAddressWindow).1 (.ok "") sampleMediaPlayersNoAddress rfl).2
      sampleNoAddressWindow rfl,
   (GetTitleFromBrowser_memo_invariant sampleExternals sampleMediaPlayers
      sampleNoAddressWindow).2
      (by intro o ho; simp [sampleMediaPlayers, sampleHeap] at ho; subst ho; decide)
      (by intro p hp; simp [sampleMediaPlayers, sampleFactory] at hp; subst hp; decide)⟩

end Taiga
